import Mathlib

/-!
CredManager: credential setup, verified against the Go sources.

A shallow embedding of `backend/internal/auth`, `backend/internal/utils` and the
`/auth/setup` handler of `backend/pkg/api/auth.go`.

Modelling conventions

* A Go `string` is a Lean `String` (valid UTF-8 text); `len s` is its number of UTF-8
  bytes and `for _, c := range s` visits `s.data`.
* A Go `[]byte` is a `List Nat` whose elements are below 256 (`IsBytes`).
* A Go `(T, error)` result is a `Res T`: `ok v` is `(v, nil)`, `error msg` is
  `(zero, err)` and `panicked` is a run-time panic.
* The SQLite database is an explicit `Store` value; every statement the code sends to
  it can also fail for reasons outside the program (I/O error, cancelled context),
  which the `SetupEnv` of a request decides.
* Library code that is not part of the repository (Argon2id, HMAC/JWT encoding,
  the random source, the clock) enters as parameters.
-/

namespace CredManager

/-! ## Go results -/

/-- Result of a Go call returning `(T, error)`, or panicking. -/
inductive Res (α : Type) where
  | ok (v : α)
  | error (msg : String)
  | panicked
  deriving DecidableEq, Repr

/-- Go `len(s)` for a string: the number of bytes of its UTF-8 encoding. -/
def len (s : String) : Nat := s.utf8ByteSize

/-- A byte slice: every element fits in eight bits. -/
def IsBytes (bs : List Nat) : Prop := ∀ b ∈ bs, b < 256

instance (bs : List Nat) : Decidable (IsBytes bs) := by
  unfold IsBytes; infer_instance

/-! ## encoding/base64, RawStdEncoding -/

/-- The constant `encodeStd` of encoding/base64. -/
def encodeStd : List Char :=
  "ABCDEFGHIJKLMNOPQRSTUVWXYZabcdefghijklmnopqrstuvwxyz0123456789+/".data

/-- The lookup `enc.encode[i]`. -/
def b64Char (i : Nat) : Char := encodeStd.getD i 'A'

/-- The lookup `enc.decodeMap[c]`; `none` stands for the entry 0xFF. -/
def b64Index (c : Char) : Option Nat :=
  let i := encodeStd.indexOf c
  if i < 64 then some i else none

/-- `RawStdEncoding.EncodeToString`: three bytes give four characters, a trailing group
of one or two bytes gives two or three characters, and no padding is written. The
shifts and ors of the source are written as multiplication and division, which agree
on bytes. -/
def b64Encode : List Nat → List Char
  | a :: b :: c :: rest =>
    let val := a * 65536 + b * 256 + c
    b64Char (val / 262144 % 64) :: b64Char (val / 4096 % 64) ::
      b64Char (val / 64 % 64) :: b64Char (val % 64) :: b64Encode rest
  | [a, b] =>
    let val := a * 65536 + b * 256
    [b64Char (val / 262144 % 64), b64Char (val / 4096 % 64), b64Char (val / 64 % 64)]
  | [a] =>
    let val := a * 65536
    [b64Char (val / 262144 % 64), b64Char (val / 4096 % 64)]
  | [] => []

/-- First pass of `Decode`: carriage returns and line feeds are skipped, every other
character must be in the alphabet (the raw encoding has no padding character). -/
def b64Sextets : List Char → Option (List Nat)
  | [] => some []
  | c :: cs =>
    match b64Index c with
    | some v => (b64Sextets cs).map (v :: ·)
    | none =>
      if c = Char.ofNat 10 ∨ c = Char.ofNat 13 then b64Sextets cs else none

/-- Second pass of `Decode` (`decodeQuantum`, non-strict): four sextets give three
bytes, a final group of three or two sextets gives two or one bytes (left-over bits
are dropped), a final single sextet is corrupt input. -/
def b64Quanta : List Nat → Option (List Nat)
  | s0 :: s1 :: s2 :: s3 :: rest =>
    let val := s0 * 262144 + s1 * 4096 + s2 * 64 + s3
    (b64Quanta rest).map
      (fun out => val / 65536 % 256 :: val / 256 % 256 :: val % 256 :: out)
  | [s0, s1, s2] =>
    let val := s0 * 262144 + s1 * 4096 + s2 * 64
    some [val / 65536 % 256, val / 256 % 256]
  | [s0, s1] =>
    let val := s0 * 262144 + s1 * 4096
    some [val / 65536 % 256]
  | [_] => none
  | [] => some []

/-- `RawStdEncoding.DecodeString`; `none` is a non-nil error. -/
def b64Decode (s : List Char) : Option (List Nat) :=
  (b64Sextets s).bind b64Quanta

/-! ## fmt: decimal verbs -/

/-- The character of a decimal digit. -/
def digitChar (d : Nat) : Char := Char.ofNat (48 + d % 10)

/-- Decimal digits of `n`, most significant first; the first argument bounds the
number of digits. -/
def decDigits : Nat → Nat → List Char
  | 0, _ => []
  | f + 1, n => if n < 10 then [digitChar n] else decDigits f (n / 10) ++ [digitChar (n % 10)]

/-- The verb `%d` of `fmt.Sprintf` on an unsigned integer. -/
def fmtDec (n : Nat) : List Char := decDigits (n + 1) n

/-- Value of a decimal digit character, if it is one. -/
def digitVal (c : Char) : Option Nat :=
  if 48 ≤ c.toNat ∧ c.toNat ≤ 57 then some (c.toNat - 48) else none

/-- Accumulating loop of `strconv.ParseUint(tok, 10, 64)`; any character that is not a
decimal digit (the underscore included, since the base is given) is a syntax error. -/
def parseDecFrom : Nat → List Char → Option Nat
  | acc, [] => some acc
  | acc, c :: cs =>
    match digitVal c with
    | some d => parseDecFrom (acc * 10 + d) cs
    | none => none

/-- `strconv.ParseUint(tok, 10, 64)`: empty input and values of 2^64 or more fail. -/
def parseUint (tok : List Char) : Option Nat :=
  if tok = [] then none
  else
    match parseDecFrom 0 tok with
    | some v => if v < 2 ^ 64 then some v else none
    | none => none

/-- The table `space` of fmt/scan.go. -/
def isSpace (c : Char) : Bool :=
  let n := c.toNat
  (9 ≤ n && n ≤ 13) || n = 32 || n = 133 || n = 160 || n = 5760 ||
  (8192 ≤ n && n ≤ 8202) || n = 8232 || n = 8233 || n = 8239 || n = 8287 || n = 12288

/-- `ss.SkipSpace` with `nlIsSpace = false`: a line feed is the error
"unexpected newline", other space characters are consumed. -/
def skipSpace : List Char → Option (List Char)
  | [] => some []
  | c :: cs =>
    if c = Char.ofNat 10 then none
    else if isSpace c then skipSpace cs
    else some (c :: cs)

/-- The constant `decimalDigits` of fmt/scan.go. -/
def decimalDigits : String := "0123456789"

/-- The set `digits` that `getBase` gives for the verb `%d`, as `ss.accept` tests it:
the character occurs in `decimalDigits`. -/
def acceptsDec (c : Char) : Bool := decimalDigits.data.contains c

/-- `ss.scanUint` for the verb `%d` with a destination of `bitSize` bits: skip space,
take the longest run of acceptable characters, parse it, check that it fits. -/
def scanUint (bitSize : Nat) (input : List Char) : Option (Nat × List Char) :=
  match skipSpace input with
  | none => none
  | some s =>
    let tok := s.takeWhile acceptsDec
    match parseUint tok with
    | none => none
    | some v => if v < 2 ^ bitSize then some (v, s.dropWhile acceptsDec) else none

/-- Literal text of a scan format: every character must be next in the input. -/
def expectLit : List Char → List Char → Option (List Char)
  | [], s => some s
  | _ :: _, [] => none
  | l :: ls, c :: cs => if l = c then expectLit ls cs else none

/-- `fmt.Sscanf(s, "m=%d,t=%d,p=%d", &memory, &time, &threads)` with `memory, time` of
type uint32 and `threads` of type uint8; `none` is a non-nil error. Input left after
the last verb is not looked at. -/
def sscanfParams (s : List Char) : Option (Nat × Nat × Nat) :=
  (expectLit "m=".data s).bind fun s1 =>
  (scanUint 32 s1).bind fun (memory, s2) =>
  (expectLit ",t=".data s2).bind fun s3 =>
  (scanUint 32 s3).bind fun (time, s4) =>
  (expectLit ",p=".data s4).bind fun s5 =>
  (scanUint 8 s5).bind fun (threads, _) =>
  some (memory, time, threads)

/-- `strings.Split(s, "$")` and in general on a one-character separator. -/
def splitOn (sep : Char) : List Char → List (List Char)
  | [] => [[]]
  | c :: cs =>
    if c = sep then [] :: splitOn sep cs
    else
      match splitOn sep cs with
      | [] => [[c]]
      | p :: ps => (c :: p) :: ps


/-! ## internal/auth/argon2.go -/

/-- Argon2Config holds configuration for Argon2 hashing: `Time`, `Memory`, `KeyLen`
are uint32 and `Threads` is uint8 in the source. -/
structure Argon2Config where
  Time : Nat
  Memory : Nat
  Threads : Nat
  KeyLen : Nat
  deriving DecidableEq, Repr

/-- The field types of the source: three uint32 and one uint8. -/
def Argon2Config.InRange (c : Argon2Config) : Prop :=
  c.Time < 2 ^ 32 ∧ c.Memory < 2 ^ 32 ∧ c.Threads < 2 ^ 8 ∧ c.KeyLen < 2 ^ 32

instance (c : Argon2Config) : Decidable c.InRange := by
  unfold Argon2Config.InRange; infer_instance

/-- DefaultArgon2Config returns default configuration for Argon2. -/
def DefaultArgon2Config : Argon2Config :=
  { Time := 1, Memory := 64 * 1024, Threads := 4, KeyLen := 32 }

/-- The key derivation of golang.org/x/crypto/argon2 past its two argument checks, as
a function of password, salt, time, memory, threads and key length; `none` is a panic
inside the library. It is a parameter of the development. -/
abbrev KDF := String → List Nat → Nat → Nat → Nat → Nat → Option (List Nat)

/-- What is used of the library: a derived key is a byte slice of the requested
length. -/
def KDF.Sound (kdf : KDF) : Prop :=
  ∀ pw salt t m p k out, kdf pw salt t m p k = some out → out.length = k ∧ IsBytes out

/-- `argon2.IDKey`: the library panics when `time < 1` ("number of rounds too small")
or `threads < 1` ("parallelism degree too low") and derives the key otherwise. -/
def IDKey (kdf : KDF) (password : String) (salt : List Nat)
    (time memory threads keyLen : Nat) : Option (List Nat) :=
  if time < 1 then none
  else if threads < 1 then none
  else kdf password salt time memory threads keyLen

/-- `argon2.Version`. -/
def argon2Version : Nat := 19

/-- The text `fmt.Sprintf("$argon2id$v=%d$m=%d,t=%d,p=%d$%s$%s", ...)` builds. -/
def encodeHash (memory time threads : Nat) (salt hash : List Nat) : List Char :=
  "$argon2id$v=".data ++ fmtDec argon2Version ++ "$m=".data ++ fmtDec memory ++
    ",t=".data ++ fmtDec time ++ ",p=".data ++ fmtDec threads ++
    '$' :: b64Encode salt ++ '$' :: b64Encode hash

/-- HashPassword hashes a password using Argon2. `rnd` is what `rand.Read` delivered
into the 32-byte salt buffer, `none` when it returned an error. -/
def HashPassword (kdf : KDF) (rnd : Option (List Nat)) (password : String)
    (config : Option Argon2Config) : Res String :=
  let config := config.getD DefaultArgon2Config
  match rnd with
  | none => .error "crypto/rand: read failed"
  | some salt =>
    match IDKey kdf password salt config.Time config.Memory config.Threads config.KeyLen with
    | none => .panicked
    | some hash =>
      .ok (String.mk (encodeHash config.Memory config.Time config.Threads salt hash))

/-- `subtle.ConstantTimeCompare`: 0 when the lengths differ, otherwise the xors of all
byte pairs are or-ed together and the result is 1 exactly when that is zero. -/
def ConstantTimeCompare (x y : List Nat) : Nat :=
  if x.length ≠ y.length then 0
  else if (List.zipWith (· ^^^ ·) x y).foldl (· ||| ·) 0 = 0 then 1 else 0

/-- VerifyPassword verifies a password against a hash. -/
def VerifyPassword (kdf : KDF) (password encodedHash : String) : Res Bool :=
  let parts := splitOn '$' encodedHash.data
  if parts.length ≠ 6 then .error "invalid hash format"
  else
    match sscanfParams (parts.getD 3 []) with
    | none => .error "input does not match format"
    | some (memory, time, threads) =>
      match b64Decode (parts.getD 4 []) with
      | none => .error "illegal base64 data"
      | some salt =>
        match b64Decode (parts.getD 5 []) with
        | none => .error "illegal base64 data"
        | some hash =>
          match IDKey kdf password salt time memory threads (hash.length % 2 ^ 32) with
          | none => .panicked
          | some computedHash => .ok (ConstantTimeCompare hash computedHash == 1)

/-- A stand-in key derivation used to evaluate the definitions on concrete inputs: it
mixes the byte sizes of its inputs into `keyLen` bytes and, as the library is taken to
do, has no result for an empty key. -/
def demoKDF : KDF := fun pw salt t m p k =>
  if k = 0 then none
  else some ((List.range k).map fun i => (pw.utf8ByteSize + salt.sum + t + m + p + i) % 256)

/-- A salt for concrete evaluations: the bytes 0, 1, ..., 31. -/
def demoSalt : List Nat := List.range 32

/-- The hash HashPassword returns for "TestPassword123" with `demoKDF`, `demoSalt` and
the nil config, with the text " and more" added at the end of its fourth field. -/
def trailingTextHash : String :=
  "$argon2id$v=19$m=65536,t=1,p=4 and more$AAECAwQFBgcICQoLDA0ODxAREhMUFRYXGBkaGxwdHh8" ++
    "$BAUGBwgJCgsMDQ4PEBESExQVFhcYGRobHB0eHyAhIiM"

/-- An encoded hash with six fields, a parameter section that parses and base64 salt
and hash fields, whose time cost is 0. -/
def zeroTimeHash : String := "$argon2id$v=19$m=65536,t=0,p=4$c2FsdA$aGFzaA"

/-- An encoded hash with six fields, a parameter section that parses and base64 salt
and hash fields, whose parallelism is 0. -/
def zeroThreadsHash : String := "$argon2id$v=19$m=65536,t=1,p=0$c2FsdA$aGFzaA"

/-- A passphrase of 8 characters and 13 bytes: an uppercase letter, a lowercase
letter, a digit and five times the two-byte letter e with acute accent. -/
def accentedPassphrase : String := "Aa1ééééé"

/-- The hash HashPassword returns for "TestPassword123" with `demoKDF`, `demoSalt` and
the nil config. -/
def demoHashText : String :=
  "$argon2id$v=19$m=65536,t=1,p=4$AAECAwQFBgcICQoLDA0ODxAREhMUFRYXGBkaGxwdHh8" ++
    "$BAUGBwgJCgsMDQ4PEBESExQVFhcYGRobHB0eHyAhIiM"

/-- The same parameter, salt and hash fields as `demoHashText` after other first three
fields: text before the first dollar sign, the tag argon2i and the version 16. -/
def retaggedHash : String :=
  "junk$argon2i$v=16$m=65536,t=1,p=4$AAECAwQFBgcICQoLDA0ODxAREhMUFRYXGBkaGxwdHh8" ++
    "$BAUGBwgJCgsMDQ4PEBESExQVFhcYGRobHB0eHyAhIiM"

/-- A second salt for concrete evaluations: the bytes 32, 33, ..., 63. -/
def demoSalt2 : List Nat := (List.range 32).map (· + 32)

/-- A config that differs from the default one in every field. -/
def demoConfig : Argon2Config := { Time := 3, Memory := 1024, Threads := 2, KeyLen := 16 }

/-- The sextets `EncodeToString` looks up, before the alphabet is applied. -/
def sextetsOf : List Nat → List Nat
  | a :: b :: c :: rest =>
    let val := a * 65536 + b * 256 + c
    val / 262144 % 64 :: val / 4096 % 64 :: val / 64 % 64 :: val % 64 :: sextetsOf rest
  | [a, b] =>
    let val := a * 65536 + b * 256
    [val / 262144 % 64, val / 4096 % 64, val / 64 % 64]
  | [a] =>
    let val := a * 65536
    [val / 262144 % 64, val / 4096 % 64]
  | [] => []

/-! ## internal/models/user.go -/

/-- SecurityQuestion represents a security question. -/
structure SecurityQuestion where
  ID : Int
  UserID : Int
  Question : String
  Answer : String
  IsCustom : Bool
  deriving DecidableEq, Repr

/-! ## internal/auth/auth.go: ValidatePassphrase -/

/-- The test `char >= 'A' && char <= 'Z'` on a rune. -/
def isUpperAZ (char : Char) : Bool := 'A'.toNat ≤ char.toNat && char.toNat ≤ 'Z'.toNat

/-- The test `char >= 'a' && char <= 'z'` on a rune. -/
def isLowerAZ (char : Char) : Bool := 'a'.toNat ≤ char.toNat && char.toNat ≤ 'z'.toNat

/-- The test `char >= '0' && char <= '9'` on a rune. -/
def isDigit09 (char : Char) : Bool := '0'.toNat ≤ char.toNat && char.toNat ≤ '9'.toNat

/-- One turn of the loop `for _, char := range passphrase` on the three flags
`(hasUpper, hasLower, hasDigit)`: an if / else-if chain. -/
def classStep (flags : Bool × Bool × Bool) (char : Char) : Bool × Bool × Bool :=
  if isUpperAZ char then (true, flags.2.1, flags.2.2)
  else if isLowerAZ char then (flags.1, true, flags.2.2)
  else if isDigit09 char then (flags.1, flags.2.1, true)
  else flags

/-- ValidatePassphrase validates passphrase requirements (method of `Service`);
`none` is a nil error. -/
def Service.ValidatePassphrase (passphrase : String) : Option String :=
  if len passphrase < 12 then some "passphrase must be at least 12 characters long"
  else
    let flags := passphrase.data.foldl classStep (false, false, false)
    if !flags.1 || !flags.2.1 || !flags.2.2 then
      some ("passphrase must contain at least one uppercase letter, " ++
        "one lowercase letter, and one digit")
    else none

/-! ## internal/utils/validation.go: ValidatePassphrase -/

/-- The error both validators return for a short passphrase. -/
def passphraseLengthError : String := "passphrase must be at least 12 characters long"

/-- The error both validators return for a passphrase that lacks a class of
characters. -/
def passphraseCompositionError : String :=
  "passphrase must contain at least one uppercase letter, one lowercase letter, and one digit"

/-- `regexp.MustCompile(cls).MatchString(s)` for a pattern that is one character
class: some position of the text holds a character of the class. -/
def matchClass (cls : Char → Bool) (s : String) : Bool :=
  s.data.tails.any fun t =>
    match t with
    | c :: _ => cls c
    | [] => false

/-- ValidatePassphrase validates passphrase requirements (package utils, with the
regular expressions `[A-Z]`, `[a-z]` and `[0-9]`); `none` is a nil error. -/
def utils.ValidatePassphrase (passphrase : String) : Option String :=
  if len passphrase < 12 then some "passphrase must be at least 12 characters long"
  else
    let hasUpper := matchClass isUpperAZ passphrase
    let hasLower := matchClass isLowerAZ passphrase
    let hasDigit := matchClass isDigit09 passphrase
    if !hasUpper || !hasLower || !hasDigit then
      some ("passphrase must contain at least one uppercase letter, " ++
        "one lowercase letter, and one digit")
    else none

/-- The number of characters (Unicode code points) of a string. -/
def runeCount (s : String) : Nat := s.data.length

/-! ## internal/utils/validation.go: ValidateSecurityQuestionsSet -/

/-- One turn of the counting loop on `(predefinedCount, customCount)`. -/
def countStep (counts : Nat × Nat) (q : SecurityQuestion) : Nat × Nat :=
  if q.IsCustom then (counts.1, counts.2 + 1) else (counts.1 + 1, counts.2)

/-- ValidateSecurityQuestionsSet validates that we have exactly 2 predefined and 2
custom questions; `none` is a nil error. -/
def ValidateSecurityQuestionsSet (questions : List SecurityQuestion) : Option String :=
  if questions.length ≠ 4 then
    some "exactly 4 security questions are required (2 predefined and 2 custom)"
  else
    let counts := questions.foldl countStep (0, 0)
    if counts.1 ≠ 2 then some "exactly 2 predefined questions are required"
    else if counts.2 ≠ 2 then some "exactly 2 custom questions are required"
    else none

/-! ## internal/utils/validation.go: ValidateSecurityQuestion -/

/-- `strings.TrimSpace`: leading and trailing white space, as `unicode.IsSpace` defines
it (the same set of code points as the table `isSpace`), is removed. -/
def TrimSpace (s : String) : String :=
  String.mk ((s.data.dropWhile isSpace).reverse.dropWhile isSpace).reverse

/-- ValidateSecurityQuestion validates security question input; `none` is a nil
error. -/
def ValidateSecurityQuestion (question answer : String) : Option String :=
  let question := TrimSpace question
  let answer := TrimSpace answer
  if question = "" then some "security question is required"
  else if answer = "" then some "security answer is required"
  else if len question < 10 then
    some "security question must be at least 10 characters long"
  else if len answer < 3 then some "security answer must be at least 3 characters long"
  else none

/-! ## The store

The three tables of the schema. The columns `created_at` and `updated_at`, which no
statement of the program reads, are left out. `id` columns are
`INTEGER PRIMARY KEY AUTOINCREMENT`: a new row gets one more than the largest id the
table has ever held, which the `...Seq` counters (SQLite keeps them in
`sqlite_sequence`) remember. -/

/-- A row of `users`. -/
structure UserRow where
  id : Nat
  email : String
  passphrase_hash : String
  deriving DecidableEq, Repr

/-- A row of `security_questions`. -/
structure QuestionRow where
  id : Nat
  user_id : Int
  question : String
  answer_hash : String
  is_custom : Bool
  deriving DecidableEq, Repr

/-- A row of `setup_flags`. -/
structure FlagRow where
  id : Nat
  flag_name : String
  flag_value : Bool
  deriving DecidableEq, Repr

/-- Contents of the database. -/
structure Store where
  users : List UserRow
  security_questions : List QuestionRow
  setup_flags : List FlagRow
  userSeq : Nat
  questionSeq : Nat
  flagSeq : Nat
  deriving DecidableEq, Repr

/-- The id AUTOINCREMENT gives the next row of a table. -/
def nextId (seq : Nat) (ids : List Nat) : Nat := ids.foldl max seq + 1

/-- A statement sent to the database. -/
inductive Stmt where
  | countUsers
  | countUsersByEmail (email : String)
  | countFlag
  | insertUser (email passphrase_hash : String)
  | replaceFlag
  | selectUserId (email : String)
  | beginTx
  | insertQuestion (user_id : Int) (question answer_hash : String) (is_custom : Bool)
  | commit
  | rollback
  deriving DecidableEq, Repr

/-- The statements that change rows. -/
def Stmt.isWrite : Stmt → Bool
  | .insertUser _ _ => true
  | .replaceFlag => true
  | .insertQuestion _ _ _ _ => true
  | _ => false

/-- The `*sql.DB` handle: the contents of the database and, for reference, every
statement sent to it so far in order. -/
structure Conn where
  store : Store
  log : List Stmt
  deriving DecidableEq, Repr

/-- Record that a statement is sent. -/
def Conn.send (c : Conn) (s : Stmt) : Conn := { c with log := c.log ++ [s] }

/-- `INSERT INTO users (email, passphrase_hash, created_at, updated_at) VALUES (...)`
on the contents: `email` is `UNIQUE`, so a second row with the same email is refused. -/
def Store.insertUser (db : Store) (email hash : String) : Except String Store :=
  if db.users.any (fun u => u.email = email) then
    .error "UNIQUE constraint failed: users.email"
  else
    let id := nextId db.userSeq (db.users.map (·.id))
    .ok { db with users := db.users ++ [{ id := id, email := email, passphrase_hash := hash }],
                  userSeq := id }

/-- The name of the completion flag. -/
def setupFlagName : String := "first_time_setup_completed"

/-- `INSERT OR REPLACE INTO setup_flags (flag_name, flag_value, created_at) VALUES
('first_time_setup_completed', 1, ...)`: `flag_name` is `UNIQUE`, a row that has the
name already is deleted and the new row is inserted. -/
def Store.replaceFlag (db : Store) : Store :=
  let kept := db.setup_flags.filter (fun f => f.flag_name ≠ setupFlagName)
  let id := nextId db.flagSeq (db.setup_flags.map (·.id))
  { db with setup_flags := kept ++ [{ id := id, flag_name := setupFlagName, flag_value := true }],
            flagSeq := id }

/-- `INSERT INTO security_questions (user_id, question, answer_hash, is_custom, ...)`. -/
def Store.insertQuestion (db : Store) (userID : Int) (question answerHash : String)
    (isCustom : Bool) : Store :=
  let id := nextId db.questionSeq (db.security_questions.map (·.id))
  { db with security_questions := db.security_questions ++
              [{ id := id, user_id := userID, question := question,
                 answer_hash := answerHash, is_custom := isCustom }],
            questionSeq := id }

/-- What is outside the program during one setup request: for each statement whether
the database fails it for a reason of its own (`some message`), what the random source
delivers for each salt (`none` when `rand.Read` fails), and the two readings of the
clock in GenerateToken, in Unix seconds. -/
structure SetupEnv where
  countUsersErr : Option String
  userExistsErr : Option String
  userSalt : Option (List Nat)
  insertUserErr : Option String
  replaceFlagErr : Option String
  selectIdErr : Option String
  beginErr : Option String
  questionSalt : Nat → Option (List Nat)
  insertQuestionErr : Nat → Option String
  commitErr : Option String
  now1 : Int
  now2 : Int

/-! ## internal/auth/auth.go: queries and writes -/

/-- IsFirstTimeUser checks if this is the first time the application is being used. -/
def IsFirstTimeUser (fault : Option String) (c : Conn) : Res Bool × Conn :=
  let c := c.send .countUsers
  match fault with
  | some e => (.error e, c)
  | none => (.ok (c.store.users.length == 0), c)

/-- The error `sql.ErrNoRows`, named by its message; `errors.Is(err, sql.ErrNoRows)`
is the comparison with it. -/
def sql.ErrNoRows : String := "sql: no rows in result set"

/-- IsFirstTimeSetup checks if the application has been set up (method of `Service`). -/
def Service.IsFirstTimeSetup (fault : Option String) (c : Conn) : Res Bool × Conn :=
  let c := c.send .countUsers
  match fault with
  | some e => if e = sql.ErrNoRows then (.ok true, c) else (.error e, c)
  | none => (.ok (c.store.users.length == 0), c)

/-- UserExists checks if a user with the given email exists. -/
def UserExists (fault : Option String) (c : Conn) (email : String) : Res Bool × Conn :=
  let c := c.send (.countUsersByEmail email)
  match fault with
  | some e => (.error e, c)
  | none => (.ok (decide (0 < (c.store.users.filter (fun u => u.email = email)).length)), c)

/-- `strings.Contains`. -/
def stringsContains (s sub : String) : Bool :=
  s.data.tails.any (fun t => sub.data.isPrefixOf t)

/-- IsFirstTimeSetupFlagSet checks if the first time setup flag is set. -/
def IsFirstTimeSetupFlagSet (fault : Option String) (c : Conn) : Res Bool × Conn :=
  let c := c.send .countFlag
  match fault with
  | some e => if stringsContains e "no such table" then (.ok false, c) else (.error e, c)
  | none =>
    (.ok (decide (0 < (c.store.setup_flags.filter
      (fun f => f.flag_name = setupFlagName ∧ f.flag_value = true)).length)), c)

/-- CreateUser creates a new user with the given email and passphrase (method of
`Service`): hash, insert the user row, set the flag; each `db.Exec` is a statement of
its own. -/
def Service.CreateUser (kdf : KDF) (env : SetupEnv) (c : Conn) (email passphrase : String) :
    Res Unit × Conn :=
  match HashPassword kdf env.userSalt passphrase none with
  | .error e => (.error e, c)
  | .panicked => (.panicked, c)
  | .ok hashedPassphrase =>
    let c := c.send (.insertUser email hashedPassphrase)
    match env.insertUserErr with
    | some e => (.error e, c)
    | none =>
      match c.store.insertUser email hashedPassphrase with
      | .error e => (.error e, c)
      | .ok db =>
        let c := { c with store := db }
        let c := c.send .replaceFlag
        match env.replaceFlagErr with
        | some e => (.error e, c)
        | none => (.ok (), { c with store := c.store.replaceFlag })

/-- The loop `for _, q := range questions` of SaveSecurityQuestions from its `k`-th
turn on, inside the open transaction. -/
def saveLoop (kdf : KDF) (env : SetupEnv) (userID : Int) :
    Nat → List SecurityQuestion → Conn → Res Unit × Conn
  | _, [], c => (.ok (), c)
  | k, q :: qs, c =>
    match HashPassword kdf (env.questionSalt k) q.Answer none with
    | .error e => (.error e, c)
    | .panicked => (.panicked, c)
    | .ok hashedAnswer =>
      let c := c.send (.insertQuestion userID q.Question hashedAnswer q.IsCustom)
      match env.insertQuestionErr k with
      | some e => (.error e, c)
      | none =>
        saveLoop kdf env userID (k + 1) qs
          { c with store := c.store.insertQuestion userID q.Question hashedAnswer q.IsCustom }

/-- The deferred `tx.Rollback()` (and the rollback the driver performs when COMMIT
fails): the contents go back to what they were at `Begin`. -/
def Conn.rollbackTo (c : Conn) (snapshot : Store) : Conn :=
  { store := snapshot, log := c.log ++ [.rollback] }

/-- SaveSecurityQuestions saves security questions for a user (method of `Service`). -/
def Service.SaveSecurityQuestions (kdf : KDF) (env : SetupEnv) (c : Conn) (userID : Int)
    (questions : List SecurityQuestion) : Res Unit × Conn :=
  let c := c.send .beginTx
  match env.beginErr with
  | some e => (.error e, c)
  | none =>
    let snapshot := c.store
    match saveLoop kdf env userID 0 questions c with
    | (.error e, c1) => (.error e, c1.rollbackTo snapshot)
    | (.panicked, c1) => (.panicked, c1.rollbackTo snapshot)
    | (.ok (), c1) =>
      let c2 := c1.send .commit
      match env.commitErr with
      | some e => (.error e, c2.rollbackTo snapshot)
      | none => (.ok (), c2)

/-! ## internal/auth/jwt.go -/

/-- Claims represents JWT claims: the two fields of the repository and, of the
embedded `jwt.StandardClaims`, the three numeric dates that validation reads (Unix
seconds, 0 when absent). -/
structure Claims where
  UserID : Int
  Email : String
  ExpiresAt : Int
  IssuedAt : Int
  NotBefore : Int
  deriving DecidableEq, Repr

/-- The library github.com/golang-jwt/jwt with the method HS256, as far as it is used:
`sign claims key` is `NewWithClaims(SigningMethodHS256, claims).SignedString(key)`
(`none` for an error), `parse token key` splits a token string, decodes its claims and
checks its signature under `key` (`none` when any of that fails). It is a parameter of
the development. -/
structure JWTCodec where
  sign : Claims → String → Option String
  parse : String → String → Option Claims

/-- What is used of the library: a string it signed parses, under the same key, to
the claims that were signed. -/
def JWTCodec.Sound (j : JWTCodec) : Prop :=
  ∀ c key tok, j.sign c key = some tok → j.parse tok key = some c

/-- The key both functions pass to the library. -/
def signingKey : String := "your-secret-key"

/-- GenerateToken generates a new JWT token. `now1` and `now2` are the two readings
`time.Now()` of the body in Unix seconds: the first one is advanced by 30 minutes for
the expiry, the second one is the issue date. -/
def GenerateToken (j : JWTCodec) (now1 now2 : Int) (userID : Int) (email : String) :
    Res String :=
  let claims : Claims :=
    { UserID := userID, Email := email, ExpiresAt := now1 + 30 * 60, IssuedAt := now2,
      NotBefore := 0 }
  match j.sign claims signingKey with
  | none => .error "key is invalid"
  | some tokenString => .ok tokenString

/-- `StandardClaims.Valid` at the instant `now`: each of the three dates is checked
only when it is not zero. -/
def Claims.validAt (c : Claims) (now : Int) : Bool :=
  (c.ExpiresAt = 0 || now ≤ c.ExpiresAt) && (c.IssuedAt = 0 || c.IssuedAt ≤ now) &&
    (c.NotBefore = 0 || c.NotBefore ≤ now)

/-- ValidateToken validates a JWT token, at the instant `now` (Unix seconds). -/
def ValidateToken (j : JWTCodec) (now : Int) (tokenString : String) : Res Claims :=
  match j.parse tokenString signingKey with
  | none => .error "signature is invalid"
  | some claims => if claims.validAt now then .ok claims else .error "token is expired"

/-! ## pkg/api/auth.go: the handler of POST /auth/setup -/

/-- The decoded request body. -/
structure SetupBody where
  Email : String
  Passphrase : String
  SecurityQuestions : List SecurityQuestion
  deriving DecidableEq, Repr

/-- The body of a request: `r.Body == nil`, a body `json.Decode` rejects, or a decoded
one (a key that is absent leaves the zero value: the empty string, the nil slice). -/
inductive Body where
  | absent
  | malformed
  | decoded (req : SetupBody)
  deriving DecidableEq, Repr

/-- An HTTP request to the route. -/
structure Request where
  Method : String
  Body : Body
  deriving DecidableEq, Repr

/-- What the handler writes: a status code with a JSON object, or nothing at all when
the handler panics. -/
inductive Response where
  | json (code : Nat) (body : List (String × String))
  | aborted
  deriving DecidableEq, Repr

/-- The status code of a response (0 when there is none). -/
def Response.code : Response → Nat
  | .json code _ => code
  | .aborted => 0

/-- The response `{"error": msg}` with a status code. -/
def errorJSON (code : Nat) (msg : String) : Response := .json code [("error", msg)]

/-- The loop over `req.SecurityQuestions` calling ValidateSecurityQuestion: the first
error met, if any. -/
def firstQuestionError : List SecurityQuestion → Option String
  | [] => none
  | q :: qs =>
    match ValidateSecurityQuestion q.Question q.Answer with
    | some err => some err
    | none => firstQuestionError qs

/-- The first part of the handler, up to and including the check of the question set:
either the response it returns with, or the request body that goes on. -/
def setupValidate (r : Request) : Except Response SetupBody :=
  if r.Method ≠ "POST" then .error (errorJSON 405 "Method not allowed")
  else
    match r.Body with
    | .absent => .error (errorJSON 400 "Request body is required")
    | .malformed => .error (errorJSON 400 "Invalid request body")
    | .decoded req =>
      if req.Email = "" then .error (errorJSON 400 "Email is required")
      else if req.Passphrase = "" then .error (errorJSON 400 "Passphrase is required")
      else
        match Service.ValidatePassphrase req.Passphrase with
        | some err => .error (errorJSON 400 err)
        | none =>
          match firstQuestionError req.SecurityQuestions with
          | some err => .error (errorJSON 400 err)
          | none =>
            if req.SecurityQuestions.length > 0 then
              match ValidateSecurityQuestionsSet req.SecurityQuestions with
              | some err => .error (errorJSON 400 err)
              | none => .ok req
            else .ok req

/-- `db.QueryRow("SELECT id FROM users WHERE email = ?", email).Scan(&userID)`: the id
of the first row with that email, `sql.ErrNoRows` when there is none. -/
def selectUserId (fault : Option String) (c : Conn) (email : String) : Res Nat × Conn :=
  let c := c.send (.selectUserId email)
  match fault with
  | some e => (.error e, c)
  | none =>
    match c.store.users.find? (fun u => u.email = email) with
    | none => (.error "sql: no rows in result set", c)
    | some u => (.ok u.id, c)

/-- The response of a successful setup. -/
def successJSON (token : String) : Response :=
  .json 200 [("status", "success"), ("message", "User created successfully"), ("token", token)]

/-- The second part of the handler, from the first-time check to the token. -/
def setupExecute (kdf : KDF) (j : JWTCodec) (env : SetupEnv) (c : Conn) (req : SetupBody) :
    Response × Conn :=
  match IsFirstTimeUser env.countUsersErr c with
  | (.error _, c) => (errorJSON 500 "Internal server error", c)
  | (.panicked, c) => (.aborted, c)
  | (.ok false, c) => (errorJSON 403 "Setup already completed", c)
  | (.ok true, c) =>
    match UserExists env.userExistsErr c req.Email with
    | (.error _, c) => (errorJSON 500 "Internal server error", c)
    | (.panicked, c) => (.aborted, c)
    | (.ok true, c) => (errorJSON 409 "User already exists", c)
    | (.ok false, c) =>
      match Service.CreateUser kdf env c req.Email req.Passphrase with
      | (.error _, c) => (errorJSON 500 "Internal server error", c)
      | (.panicked, c) => (.aborted, c)
      | (.ok (), c) =>
        match selectUserId env.selectIdErr c req.Email with
        | (.error _, c) => (errorJSON 500 "Internal server error", c)
        | (.panicked, c) => (.aborted, c)
        | (.ok userID, c) =>
          match (if req.SecurityQuestions.length > 0 then
              Service.SaveSecurityQuestions kdf env c userID req.SecurityQuestions
            else (.ok (), c)) with
          | (.error _, c) => (errorJSON 500 "Internal server error", c)
          | (.panicked, c) => (.aborted, c)
          | (.ok (), c) =>
            match GenerateToken j env.now1 env.now2 userID req.Email with
            | .error _ => (errorJSON 500 "Internal server error", c)
            | .panicked => (.aborted, c)
            | .ok token => (successJSON token, c)

/-- The handler registered for `/auth/setup`: the response and the database handle
after the request. -/
def setupHandler (kdf : KDF) (j : JWTCodec) (env : SetupEnv) (c : Conn) (r : Request) :
    Response × Conn :=
  match setupValidate r with
  | .error resp => (resp, c)
  | .ok req => setupExecute kdf j env c req

/-! ## Vocabulary of the statements -/

/-- A row of `security_questions` is what SaveSecurityQuestions stores for the question
`q` on behalf of `userID`: same text and flag, and the answer hashed by HashPassword
with one of the salts of the request. -/
def SavedAs (kdf : KDF) (env : SetupEnv) (userID : Int) (q : SecurityQuestion)
    (row : QuestionRow) : Prop :=
  row.user_id = userID ∧ row.question = q.Question ∧ row.is_custom = q.IsCustom ∧
    ∃ k, HashPassword kdf (env.questionSalt k) q.Answer none = .ok row.answer_hash

/-- The form `m=<integer>,t=<integer>,p=<integer>` read strictly: the three literals,
each followed by one or more decimal digits, and nothing else before, between or
after. -/
def isParamSectionForm (field : List Char) : Bool :=
  match expectLit "m=".data field with
  | none => false
  | some s1 =>
    match expectLit ",t=".data (s1.dropWhile fun c => (digitVal c).isSome) with
    | none => false
    | some s2 =>
      match expectLit ",p=".data (s2.dropWhile fun c => (digitVal c).isSome) with
      | none => false
      | some s3 =>
        (s1.takeWhile fun c => (digitVal c).isSome) ≠ [] &&
        (s2.takeWhile fun c => (digitVal c).isSome) ≠ [] &&
        (s3.takeWhile fun c => (digitVal c).isSome) ≠ [] &&
        (s3.dropWhile fun c => (digitVal c).isSome) = []

/-- A decimal digit, 0 to 9. -/
def IsDecDigit (c : Char) : Prop := '0'.toNat ≤ c.toNat ∧ c.toNat ≤ '9'.toNat

/-- The value of a text of decimal digits. -/
def decimalValue (ds : List Char) : Nat :=
  ds.foldl (fun n c => n * 10 + (c.toNat - '0'.toNat)) 0

/-- White space that may stand before a number: a space character other than the
line feed. -/
def IsBlank (c : Char) : Prop := isSpace c = true ∧ c ≠ '\n'

/-- A number at the start of a text: white space without a line feed (possibly none),
then one or more decimal digits, all the digits that stand there; `v` is the value of
the digits and `rest` the text after the last of them. -/
def StartsWithNumber (s : List Char) (v : Nat) (rest : List Char) : Prop :=
  ∃ sp ds, s = sp ++ (ds ++ rest) ∧ (∀ c ∈ sp, IsBlank c) ∧ ds ≠ [] ∧
    (∀ c ∈ ds, IsDecDigit c) ∧ (∀ c ∈ rest.head?, ¬ IsDecDigit c) ∧ decimalValue ds = v

/-- A field that begins with a parameter section: `m=`, a number below 2^32, `,t=`, a
number below 2^32, `,p=`, a number below 2^8; any text may follow the third number. -/
def BeginsWithParams (field : List Char) (m t p : Nat) : Prop :=
  ∃ s1 s2 s3 rest, field = "m=".data ++ s1 ∧
    StartsWithNumber s1 m (",t=".data ++ s2) ∧
    StartsWithNumber s2 t (",p=".data ++ s3) ∧
    StartsWithNumber s3 p rest ∧ m < 2 ^ 32 ∧ t < 2 ^ 32 ∧ p < 2 ^ 8

/-- A row of `security_questions` holds the question `q` for `userID` with an answer
hash in the encoded format that VerifyPassword accepts for the answer of `q`. -/
def StoredFor (kdf : KDF) (userID : Int) (q : SecurityQuestion) (row : QuestionRow) : Prop :=
  row.user_id = userID ∧ row.question = q.Question ∧ row.is_custom = q.IsCustom ∧
    VerifyPassword kdf q.Answer row.answer_hash = .ok true ∧
    ∃ salt key, salt.length = 32 ∧ key.length = 32 ∧
      row.answer_hash = String.mk (encodeHash 65536 1 4 salt key)

/-- The random source delivers what the code asks for: 32 bytes for every salt. -/
def SetupEnv.SaltsWellFormed (env : SetupEnv) : Prop :=
  (∀ s, env.userSalt = some s → s.length = 32 ∧ IsBytes s) ∧
  ∀ k s, env.questionSalt k = some s → s.length = 32 ∧ IsBytes s

/-- No statement is failed by the database and the random source delivers every
salt. -/
def SetupEnv.NoFaults (env : SetupEnv) : Prop :=
  env.countUsersErr = none ∧ env.userExistsErr = none ∧ env.userSalt.isSome ∧
  env.insertUserErr = none ∧ env.replaceFlagErr = none ∧ env.selectIdErr = none ∧
  env.beginErr = none ∧ (∀ k, (env.questionSalt k).isSome) ∧
  (∀ k, env.insertQuestionErr k = none) ∧ env.commitErr = none

/-- The library derives a key for the default parameters of the repository. -/
def KDF.DefaultTotal (kdf : KDF) : Prop :=
  ∀ pw salt, (kdf pw salt 1 65536 4 32).isSome

/-- The claims GenerateToken signs for a user. -/
def tokenClaims (env : SetupEnv) (userID : Nat) (email : String) : Claims :=
  { UserID := userID, Email := email, ExpiresAt := env.now1 + 30 * 60, IssuedAt := env.now2,
    NotBefore := 0 }

/-- The row `INSERT OR REPLACE` leaves for the completion flag. -/
def flagRowOf (db : Store) : FlagRow :=
  { id := nextId db.flagSeq (db.setup_flags.map (·.id)), flag_name := setupFlagName,
    flag_value := true }

/-- A finite sequence of setup requests processed one after the other, each in an
environment of its own; the database handle after the last one. -/
def runSetups (kdf : KDF) (j : JWTCodec) : Conn → List (SetupEnv × Request) → Conn
  | c, [] => c
  | c, (env, r) :: rest => runSetups kdf j (setupHandler kdf j env c r).2 rest

/-! ## Concrete inputs for evaluation -/

/-- A stand-in token format used to evaluate the definitions on concrete inputs: the
claims and the key in decimal and plain text, separated by bars. -/
def demoRender (c : Claims) (key : String) : String :=
  String.mk (fmtDec c.UserID.toNat ++ '|' :: fmtDec c.ExpiresAt.toNat ++ '|' ::
    fmtDec c.IssuedAt.toNat ++ '|' :: fmtDec c.NotBefore.toNat ++ '|' :: key.data ++
    '|' :: c.Email.data)

/-- Reading the stand-in token format back. -/
def demoParse (tok key : String) : Option Claims :=
  match splitOn '|' tok.data with
  | [uid, exp, iat, nbf, k, email] =>
    if String.mk k = key then
      match parseUint uid, parseUint exp, parseUint iat, parseUint nbf with
      | some u, some e, some i, some n =>
        some { UserID := u, Email := String.mk email, ExpiresAt := e, IssuedAt := i,
               NotBefore := n }
      | _, _, _, _ => none
    else none
  | _ => none

/-- The stand-in token library: it signs only what it reads back unchanged. -/
def demoJWT : JWTCodec where
  sign c key := if demoParse (demoRender c key) key = some c then some (demoRender c key) else none
  parse := demoParse

/-- An environment in which nothing fails, every salt is `demoSalt` and the clock
reads 1000 seconds. -/
def demoEnv : SetupEnv where
  countUsersErr := none
  userExistsErr := none
  userSalt := some demoSalt
  insertUserErr := none
  replaceFlagErr := none
  selectIdErr := none
  beginErr := none
  questionSalt := fun _ => some demoSalt
  insertQuestionErr := fun _ => none
  commitErr := none
  now1 := 1000
  now2 := 1000

/-- The store of the tests right after `initializeTestDB`: no user, no flag and the
five predefined questions owned by user 0. -/
def freshStore : Store where
  users := []
  security_questions :=
    [{ id := 1, user_id := 0, question := "What was the name of your first pet?",
       answer_hash := "", is_custom := false },
     { id := 2, user_id := 0, question := "What is your mother's maiden name?",
       answer_hash := "", is_custom := false },
     { id := 3, user_id := 0, question := "What was the name of your first school?",
       answer_hash := "", is_custom := false },
     { id := 4, user_id := 0, question := "What is your favorite book?",
       answer_hash := "", is_custom := false },
     { id := 5, user_id := 0, question := "What city were you born in?",
       answer_hash := "", is_custom := false }]
  setup_flags := []
  userSeq := 0
  questionSeq := 5
  flagSeq := 0

/-- The claims GenerateToken hands to the library for two clock readings. -/
def issuedClaims (now1 now2 : Int) (userID : Int) (email : String) : Claims :=
  { UserID := userID, Email := email, ExpiresAt := now1 + 30 * 60, IssuedAt := now2,
    NotBefore := 0 }

/-- A database handle on the fresh store. -/
def freshConn : Conn := { store := freshStore, log := [] }

/-- The four questions of TestSetupEndpoint_Success. -/
def demoQuestions : List SecurityQuestion :=
  [{ ID := 1, UserID := 0, Question := "What was the name of your first pet?",
     Answer := "Fluffy", IsCustom := false },
   { ID := 2, UserID := 0, Question := "What is your mother's maiden name?",
     Answer := "Smith", IsCustom := false },
   { ID := 0, UserID := 0, Question := "What is your favorite color?",
     Answer := "Blue", IsCustom := true },
   { ID := 0, UserID := 0, Question := "What was your first car?",
     Answer := "Toyota", IsCustom := true }]

/-- The request of TestSetupEndpoint_InvalidPassphrase. -/
def shortRequest : Request :=
  { Method := "POST",
    Body := .decoded { Email := "test@example.com", Passphrase := "short",
                       SecurityQuestions := demoQuestions } }

/-- A request with a valid email and passphrase and no security questions. -/
def noQuestionsRequest : Request :=
  { Method := "POST",
    Body := .decoded { Email := "test@example.com", Passphrase := "ValidPass123",
                       SecurityQuestions := [] } }

/-- The request of TestSetupEndpoint_WrongMixOfQuestions: three predefined questions
and one custom question. -/
def wrongMixRequest : Request :=
  { Method := "POST",
    Body := .decoded
      { Email := "test@example.com", Passphrase := "ValidPass123",
        SecurityQuestions :=
          [{ ID := 1, UserID := 0, Question := "What was the name of your first pet?",
             Answer := "Fluffy", IsCustom := false },
           { ID := 2, UserID := 0, Question := "What is your mother's maiden name?",
             Answer := "Smith", IsCustom := false },
           { ID := 3, UserID := 0, Question := "What was the name of your first school?",
             Answer := "Elementary", IsCustom := false },
           { ID := 0, UserID := 0, Question := "What is your favorite color?",
             Answer := "Blue", IsCustom := true }] } }

/-- A second valid request, with another email. -/
def otherRequest : Request :=
  { Method := "POST",
    Body := .decoded { Email := "other@example.com", Passphrase := "ValidPass123",
                       SecurityQuestions := demoQuestions } }

/-- An environment in which only the COMMIT of SaveSecurityQuestions fails. -/
def commitFailsEnv : SetupEnv := { demoEnv with commitErr := some "disk I/O error" }

/-- An environment in which only the statement that sets the completion flag fails. -/
def flagFailsEnv : SetupEnv := { demoEnv with replaceFlagErr := some "disk I/O error" }

/-- An environment in which only the insert of the third question fails. -/
def thirdInsertFailsEnv : SetupEnv :=
  { demoEnv with insertQuestionErr := fun k => if k = 2 then some "disk I/O error" else none }

/-- The store of TestSetupEndpoint_AlreadySetup: the fresh store with one user row and
the flag set. -/
def existingUserConn : Conn :=
  { store := { freshStore with
      users := [{ id := 1, email := "existing@example.com", passphrase_hash := "hash" }],
      setup_flags := [{ id := 1, flag_name := setupFlagName, flag_value := true }],
      userSeq := 1, flagSeq := 1 },
    log := [] }

/-- A valid request that carries the email of the user of `existingUserConn`. -/
def sameEmailRequest : Request :=
  { Method := "POST",
    Body := .decoded { Email := "existing@example.com", Passphrase := "ValidPass123",
                       SecurityQuestions := demoQuestions } }

/-- The request of TestSetupEndpoint_Success. -/
def demoRequest : Request :=
  { Method := "POST",
    Body := .decoded { Email := "test@example.com", Passphrase := "ValidPass123",
                       SecurityQuestions := demoQuestions } }

/-! # Theorems -/

/-! ## base64 -/

theorem b64Index_b64Char : ∀ i < 64, b64Index (b64Char i) = some i := by decide

theorem b64Char_ne_dollar : ∀ i < 64, b64Char i ≠ '$' := by decide

theorem b64Encode_eq_map : ∀ bs, b64Encode bs = (sextetsOf bs).map b64Char
  | a :: b :: c :: rest => by simp [b64Encode, sextetsOf, b64Encode_eq_map rest]
  | [a, b] => by simp [b64Encode, sextetsOf]
  | [a] => by simp [b64Encode, sextetsOf]
  | [] => by simp [b64Encode, sextetsOf]

theorem sextetsOf_lt : ∀ bs, ∀ s ∈ sextetsOf bs, s < 64
  | a :: b :: c :: rest => by
    intro s hs
    simp only [sextetsOf, List.mem_cons] at hs
    rcases hs with h | h | h | h | h
    · omega
    · omega
    · omega
    · omega
    · exact sextetsOf_lt rest s h
  | [a, b] => by
    intro s hs
    simp only [sextetsOf, List.mem_cons, List.mem_singleton, List.not_mem_nil, or_false] at hs
    omega
  | [a] => by
    intro s hs
    simp only [sextetsOf, List.mem_cons, List.mem_singleton, List.not_mem_nil, or_false] at hs
    omega
  | [] => by simp [sextetsOf]

theorem b64Sextets_map (l : List Nat) (h : ∀ s ∈ l, s < 64) :
    b64Sextets (l.map b64Char) = some l := by
  induction l with
  | nil => rfl
  | cons s l ih =>
    have hs : s < 64 := h s (List.mem_cons_self _ _)
    have hl : ∀ t ∈ l, t < 64 := fun t ht => h t (List.mem_cons_of_mem _ ht)
    simp [b64Sextets, b64Index_b64Char s hs, ih hl]

theorem b64Quanta_sextetsOf : ∀ bs, IsBytes bs → b64Quanta (sextetsOf bs) = some bs
  | a :: b :: c :: rest, h => by
    have ha : a < 256 := h a (by simp)
    have hb : b < 256 := h b (by simp)
    have hc : c < 256 := h c (by simp)
    have hr : IsBytes rest := fun x hx => h x (by simp [hx])
    simp only [sextetsOf, b64Quanta, b64Quanta_sextetsOf rest hr, Option.map_some']
    congr 2
    · omega
    · congr 1
      · omega
      · congr 1
        omega
  | [a, b], h => by
    have ha : a < 256 := h a (by simp)
    have hb : b < 256 := h b (by simp)
    simp only [sextetsOf, b64Quanta]
    congr 2
    · omega
    · congr 1
      omega
  | [a], h => by
    have ha : a < 256 := h a (by simp)
    simp only [sextetsOf, b64Quanta]
    congr 2
    omega
  | [], _ => rfl

theorem b64Decode_b64Encode (bs : List Nat) (h : IsBytes bs) :
    b64Decode (b64Encode bs) = some bs := by
  simp [b64Decode, b64Encode_eq_map, b64Sextets_map _ (sextetsOf_lt bs),
    b64Quanta_sextetsOf bs h]

theorem b64Encode_no_dollar (bs : List Nat) : '$' ∉ b64Encode bs := by
  rw [b64Encode_eq_map]
  intro hmem
  rcases List.mem_map.1 hmem with ⟨s, hs, he⟩
  exact b64Char_ne_dollar s (sextetsOf_lt bs s hs) he

/-! ## decimal text -/

theorem digitVal_digitChar (d : Nat) : digitVal (digitChar d) = some (d % 10) := by
  have h : d % 10 < 10 := Nat.mod_lt d (by decide)
  unfold digitChar
  generalize d % 10 = k at h
  interval_cases k <;> rfl

theorem parseDecFrom_append (l : List Char) (c : Char) : ∀ acc,
    parseDecFrom acc (l ++ [c]) =
      (parseDecFrom acc l).bind fun v => (digitVal c).map fun d => v * 10 + d := by
  induction l with
  | nil =>
    intro acc
    cases h : digitVal c <;> simp [parseDecFrom, h]
  | cons x l ih =>
    intro acc
    cases h : digitVal x <;> simp [parseDecFrom, h, ih]

theorem parseDecFrom_decDigits : ∀ f n, n < f → parseDecFrom 0 (decDigits f n) = some n := by
  intro f
  induction f with
  | zero => intro n h; omega
  | succ f ih =>
    intro n h
    unfold decDigits
    split
    · rename_i h10
      simp [parseDecFrom, digitVal_digitChar, Nat.mod_eq_of_lt h10]
    · rename_i h10
      rw [parseDecFrom_append, ih (n / 10) (by omega)]
      simp only [Option.some_bind, digitVal_digitChar, Option.map_some', Option.some.injEq]
      omega

theorem decDigits_ne_nil : ∀ f n, n < f → decDigits f n ≠ [] := by
  intro f n h
  cases f with
  | zero => omega
  | succ f =>
    unfold decDigits
    split <;> simp

theorem decDigits_digit : ∀ f n, ∀ c ∈ decDigits f n, (digitVal c).isSome = true := by
  intro f
  induction f with
  | zero => intro n c hc; simp [decDigits] at hc
  | succ f ih =>
    intro n c hc
    unfold decDigits at hc
    split at hc
    · simp only [List.mem_singleton] at hc
      subst hc
      simp [digitVal_digitChar]
    · rcases List.mem_append.1 hc with h | h
      · exact ih _ c h
      · simp only [List.mem_singleton] at h
        subst h
        simp [digitVal_digitChar]

theorem parseUint_fmtDec (n : Nat) (h : n < 2 ^ 64) : parseUint (fmtDec n) = some n := by
  unfold parseUint fmtDec
  rw [if_neg (decDigits_ne_nil _ _ (Nat.lt_succ_self n)),
    parseDecFrom_decDigits _ _ (Nat.lt_succ_self n)]
  show (if n < 2 ^ 64 then some n else none) = some n
  rw [if_pos h]

theorem fmtDec_digit (n : Nat) : ∀ c ∈ fmtDec n, (digitVal c).isSome = true :=
  decDigits_digit _ _

theorem fmtDec_ne_nil (n : Nat) : fmtDec n ≠ [] :=
  decDigits_ne_nil _ _ (Nat.lt_succ_self n)

theorem digit_toNat {c : Char} (h : (digitVal c).isSome = true) :
    48 ≤ c.toNat ∧ c.toNat ≤ 57 := by
  unfold digitVal at h
  split at h
  · assumption
  · simp at h

theorem digit_ne_dollar {c : Char} (h : (digitVal c).isSome = true) : c ≠ '$' := by
  intro hc
  subst hc
  revert h
  decide

theorem acceptsDec_iff (c : Char) : acceptsDec c = true ↔ (digitVal c).isSome = true := by
  constructor
  · intro h
    have hm : c ∈ ['0', '1', '2', '3', '4', '5', '6', '7', '8', '9'] := by
      simpa [acceptsDec, decimalDigits] using h
    simp only [List.mem_cons, List.mem_singleton, List.not_mem_nil, or_false] at hm
    rcases hm with h | h | h | h | h | h | h | h | h | h <;> subst h <;> decide
  · intro h
    have hb := digit_toNat h
    have hc : c = Char.ofNat c.toNat := (Char.ofNat_toNat c).symm
    have hn : ∀ n, 48 ≤ n → n ≤ 57 → acceptsDec (Char.ofNat n) = true := by
      intro n h1 h2
      interval_cases n <;> decide
    rw [hc]
    exact hn _ hb.1 hb.2

theorem digit_accepts {c : Char} (h : (digitVal c).isSome = true) : acceptsDec c = true :=
  (acceptsDec_iff c).2 h

theorem skipSpace_digit {c : Char} (cs : List Char) (h : (digitVal c).isSome = true) :
    skipSpace (c :: cs) = some (c :: cs) := by
  have hb := digit_toNat h
  have h10 : c ≠ Char.ofNat 10 := by
    intro hc
    subst hc
    revert h
    decide
  have hsp : isSpace c = false := by
    unfold isSpace
    simp only [Bool.or_eq_false_iff, Bool.and_eq_false_iff, decide_eq_false_iff_not]
    omega
  simp [skipSpace, h10, hsp]

theorem takeWhile_accepts (l r : List Char) (hl : ∀ c ∈ l, acceptsDec c = true)
    (hr : ∀ c ∈ r.head?, acceptsDec c = false) :
    (l ++ r).takeWhile acceptsDec = l ∧ (l ++ r).dropWhile acceptsDec = r := by
  induction l with
  | nil =>
    cases r with
    | nil => simp
    | cons x r =>
      have hx : acceptsDec x = false := hr x (by simp)
      simp [List.takeWhile, List.dropWhile, hx]
  | cons x l ih =>
    have hx : acceptsDec x = true := hl x (List.mem_cons_self _ _)
    have := ih (fun c hc => hl c (List.mem_cons_of_mem _ hc))
    simp [List.takeWhile, List.dropWhile, hx, this]

theorem scanUint_fmtDec (bits n : Nat) (r : List Char) (hb : bits ≤ 64) (hn : n < 2 ^ bits)
    (hr : ∀ c ∈ r.head?, acceptsDec c = false) :
    scanUint bits (fmtDec n ++ r) = some (n, r) := by
  have h64 : n < 2 ^ 64 := lt_of_lt_of_le hn (Nat.pow_le_pow_right (by decide) hb)
  obtain ⟨c, cs, hcs⟩ := List.exists_cons_of_ne_nil (fmtDec_ne_nil n)
  have hc : (digitVal c).isSome = true := fmtDec_digit n c (by rw [hcs]; simp)
  have htd := takeWhile_accepts (fmtDec n) r (fun x hx => digit_accepts (fmtDec_digit n x hx)) hr
  unfold scanUint
  have hsk : skipSpace (fmtDec n ++ r) = some (fmtDec n ++ r) := by
    rw [hcs, List.cons_append]
    exact skipSpace_digit _ hc
  rw [hsk]
  simp only [htd.1, htd.2, parseUint_fmtDec n h64, hn, if_true]

theorem expectLit_append (l s : List Char) : expectLit l (l ++ s) = some s := by
  induction l with
  | nil => cases s <;> rfl
  | cons x l ih => simp [expectLit, ih]

theorem sscanfParams_fmt (m t p : Nat) (hm : m < 2 ^ 32) (ht : t < 2 ^ 32) (hp : p < 2 ^ 8) :
    sscanfParams ("m=".data ++ fmtDec m ++ ",t=".data ++ fmtDec t ++ ",p=".data ++ fmtDec p)
      = some (m, t, p) := by
  have e : "m=".data ++ fmtDec m ++ ",t=".data ++ fmtDec t ++ ",p=".data ++ fmtDec p
      = "m=".data ++ (fmtDec m ++ (",t=".data ++ (fmtDec t ++ (",p=".data ++ (fmtDec p ++ []))))) := by
    simp [List.append_assoc]
  rw [e]
  unfold sscanfParams
  rw [expectLit_append]
  simp only [Option.some_bind]
  rw [scanUint_fmtDec 32 m _ (by decide) hm (by intro c hc; simp at hc; subst hc; decide)]
  simp only [Option.some_bind]
  rw [expectLit_append]
  simp only [Option.some_bind]
  rw [scanUint_fmtDec 32 t _ (by decide) ht (by intro c hc; simp at hc; subst hc; decide)]
  simp only [Option.some_bind]
  rw [expectLit_append]
  simp only [Option.some_bind]
  rw [scanUint_fmtDec 8 p _ (by decide) hp (by intro c hc; simp at hc)]
  simp only [Option.some_bind]

/-! ## strings.Split -/

theorem splitOn_ne_nil (sep : Char) : ∀ s, splitOn sep s ≠ [] := by
  intro s
  induction s with
  | nil => simp [splitOn]
  | cons c cs ih =>
    unfold splitOn
    split
    · simp
    · split <;> simp

theorem splitOn_no_sep (sep : Char) : ∀ s, sep ∉ s → splitOn sep s = [s] := by
  intro s
  induction s with
  | nil => intro _; rfl
  | cons c cs ih =>
    intro h
    have hc : c ≠ sep := fun e => h (by simp [e])
    have hcs : sep ∉ cs := fun e => h (List.mem_cons_of_mem _ e)
    simp [splitOn, hc, ih hcs]

theorem splitOn_append (sep : Char) (r : List Char) : ∀ l, sep ∉ l →
    splitOn sep (l ++ sep :: r) = l :: splitOn sep r := by
  intro l
  induction l with
  | nil => intro _; simp [splitOn]
  | cons c cs ih =>
    intro h
    have hc : c ≠ sep := fun e => h (by simp [e])
    have hcs : sep ∉ cs := fun e => h (List.mem_cons_of_mem _ e)
    simp [splitOn, hc, ih hcs]

/-! ## HashPassword and VerifyPassword -/

theorem demoKDF_sound : demoKDF.Sound := by
  intro pw salt t m p k out h
  unfold demoKDF at h
  split at h
  · cases h
  · cases h
    refine ⟨by simp, ?_⟩
    intro b hb
    rcases List.mem_map.1 hb with ⟨i, _, rfl⟩
    exact Nat.mod_lt _ (by decide)

/-- The parameter section `m=<memory>,t=<time>,p=<threads>`. -/
theorem params_no_dollar (m t p : Nat) :
    '$' ∉ "m=".data ++ fmtDec m ++ ",t=".data ++ fmtDec t ++ ",p=".data ++ fmtDec p := by
  intro h
  simp only [List.mem_append] at h
  rcases h with ((((h | h) | h) | h) | h) | h
  · revert h; decide
  · exact digit_ne_dollar (fmtDec_digit m _ h) rfl
  · revert h; decide
  · exact digit_ne_dollar (fmtDec_digit t _ h) rfl
  · revert h; decide
  · exact digit_ne_dollar (fmtDec_digit p _ h) rfl

theorem splitOn_encodeHash (m t p : Nat) (salt hash : List Nat) :
    splitOn '$' (encodeHash m t p salt hash) =
      [[], "argon2id".data, "v=".data ++ fmtDec argon2Version,
        "m=".data ++ fmtDec m ++ ",t=".data ++ fmtDec t ++ ",p=".data ++ fmtDec p,
        b64Encode salt, b64Encode hash] := by
  have e : encodeHash m t p salt hash =
      [] ++ '$' :: ("argon2id".data ++ '$' :: (("v=".data ++ fmtDec argon2Version) ++ '$' ::
        (("m=".data ++ fmtDec m ++ ",t=".data ++ fmtDec t ++ ",p=".data ++ fmtDec p) ++ '$' ::
          (b64Encode salt ++ '$' :: b64Encode hash)))) := by
    have l1 : "$argon2id$v=".data = '$' :: ("argon2id".data ++ '$' :: "v=".data) := by decide
    have l2 : "$m=".data = '$' :: "m=".data := by decide
    simp only [encodeHash, l1, l2, List.append_assoc, List.cons_append, List.nil_append]
  rw [e, splitOn_append _ _ _ (by simp), splitOn_append _ _ _ (by decide),
    splitOn_append _ _ _ (by decide), splitOn_append _ _ _ (params_no_dollar m t p),
    splitOn_append _ _ _ (b64Encode_no_dollar salt),
    splitOn_no_sep _ _ (b64Encode_no_dollar hash)]

theorem zipWith_xor_self (l : List Nat) :
    (List.zipWith (· ^^^ ·) l l).foldl (· ||| ·) 0 = 0 := by
  induction l with
  | nil => rfl
  | cons x l ih => simpa [List.zipWith, List.foldl] using ih

theorem ConstantTimeCompare_self (l : List Nat) : ConstantTimeCompare l l = 1 := by
  unfold ConstantTimeCompare
  rw [if_neg (not_not.2 rfl), zipWith_xor_self]
  rfl

/-- Verifying the text `encodeHash` builds from a key the library derived. -/
theorem VerifyPassword_encodeHash (kdf : KDF) (hk : kdf.Sound) (s : String)
    (salt : List Nat) (hsalt : IsBytes salt) (cfg : Argon2Config) (hr : cfg.InRange)
    (hT : 1 ≤ cfg.Time) (hP : 1 ≤ cfg.Threads) (key : List Nat)
    (hkey : kdf s salt cfg.Time cfg.Memory cfg.Threads cfg.KeyLen = some key) :
    VerifyPassword kdf s (String.mk (encodeHash cfg.Memory cfg.Time cfg.Threads salt key))
      = .ok true := by
  obtain ⟨hrT, hrM, hrP, hrK⟩ := hr
  obtain ⟨hlen, hbytes⟩ := hk _ _ _ _ _ _ _ hkey
  have hmod : key.length % 2 ^ 32 = cfg.KeyLen := by rw [hlen]; exact Nat.mod_eq_of_lt hrK
  have hid : IDKey kdf s salt cfg.Time cfg.Memory cfg.Threads cfg.KeyLen = some key := by
    unfold IDKey
    rw [if_neg (by omega), if_neg (by omega)]
    exact hkey
  unfold VerifyPassword
  simp only [splitOn_encodeHash, List.length_cons, List.length_nil, List.getD_cons_succ,
    List.getD_cons_zero, sscanfParams_fmt _ _ _ hrM hrT hrP, b64Decode_b64Encode _ hsalt,
    b64Decode_b64Encode _ hbytes, hmod, hid, ConstantTimeCompare_self]
  rfl

/-- C1. Hash/verify round trip: for every secret, every generated 32-byte salt and
every config (nil, or one with Time >= 1 and Threads >= 1, its fields in the range of
their Go types), whatever string HashPassword returns is accepted by VerifyPassword
with (true, nil); and HashPassword does return a string whenever the library key
derivation returns a key. Verification uses the memory, time and parallelism written
in the string and the length of the decoded key, so this holds for non-default
configs as well. -/
theorem hash_verify_roundtrip (kdf : KDF) (hk : kdf.Sound) (s : String) (salt : List Nat)
    (hsalt : salt.length = 32 ∧ IsBytes salt) (c : Option Argon2Config)
    (hc : ∀ cfg, c = some cfg → cfg.InRange ∧ 1 ≤ cfg.Time ∧ 1 ≤ cfg.Threads) :
    (∀ h, HashPassword kdf (some salt) s c = .ok h → VerifyPassword kdf s h = .ok true) ∧
    ((kdf s salt (c.getD DefaultArgon2Config).Time (c.getD DefaultArgon2Config).Memory
        (c.getD DefaultArgon2Config).Threads (c.getD DefaultArgon2Config).KeyLen).isSome →
      ∃ h, HashPassword kdf (some salt) s c = .ok h) := by
  have hcfg : (c.getD DefaultArgon2Config).InRange ∧ 1 ≤ (c.getD DefaultArgon2Config).Time ∧
      1 ≤ (c.getD DefaultArgon2Config).Threads := by
    cases c with
    | none => decide
    | some cfg => exact hc cfg rfl
  simp only [HashPassword]
  generalize c.getD DefaultArgon2Config = cfg at hcfg
  obtain ⟨hr, hT, hP⟩ := hcfg
  have hid : IDKey kdf s salt cfg.Time cfg.Memory cfg.Threads cfg.KeyLen =
      kdf s salt cfg.Time cfg.Memory cfg.Threads cfg.KeyLen := by
    unfold IDKey
    rw [if_neg (by omega), if_neg (by omega)]
  rw [hid]
  cases hkey : kdf s salt cfg.Time cfg.Memory cfg.Threads cfg.KeyLen with
  | none => simp
  | some key =>
    refine ⟨?_, fun _ => ⟨_, rfl⟩⟩
    intro h hh
    cases hh
    exact VerifyPassword_encodeHash kdf hk s salt hsalt.2 cfg hr hT hP key hkey

/-- The round trip on the password of TestHashPassword, with the default config and
with a config that differs from it in every field. -/
theorem hash_verify_roundtrip_witness :
    (∃ h, HashPassword demoKDF (some demoSalt) "TestPassword123" none = .ok h ∧
      VerifyPassword demoKDF "TestPassword123" h = .ok true) ∧
    (∃ h, HashPassword demoKDF (some demoSalt) "TestPassword123" (some demoConfig) = .ok h ∧
      VerifyPassword demoKDF "TestPassword123" h = .ok true) :=
  have t := hash_verify_roundtrip demoKDF demoKDF_sound "TestPassword123" demoSalt
    ⟨by decide, by decide⟩ none (fun cfg h => by cases h)
  have t2 := hash_verify_roundtrip demoKDF demoKDF_sound "TestPassword123" demoSalt
    ⟨by decide, by decide⟩ (some demoConfig) (fun cfg h => by cases h; decide)
  ⟨Exists.elim (t.2 (by decide)) fun h hh => ⟨h, hh, t.1 h hh⟩,
    Exists.elim (t2.2 (by decide)) fun h hh => ⟨h, hh, t2.1 h hh⟩⟩

/-! ## ValidatePassphrase -/

theorem classStep_eq (f : Bool × Bool × Bool) (c : Char) :
    classStep f c = (f.1 || isUpperAZ c, f.2.1 || isLowerAZ c, f.2.2 || isDigit09 c) := by
  have hU : 'A'.toNat = 65 := rfl
  have hZ : 'Z'.toNat = 90 := rfl
  have ha : 'a'.toNat = 97 := rfl
  have hz : 'z'.toNat = 122 := rfl
  have h0 : '0'.toNat = 48 := rfl
  have h9 : '9'.toNat = 57 := rfl
  obtain ⟨u, l, d⟩ := f
  unfold classStep
  by_cases h1 : isUpperAZ c = true
  · have h2 : isLowerAZ c = false := by
      simp only [isUpperAZ, isLowerAZ, hU, hZ, ha, hz, Bool.and_eq_true, decide_eq_true_eq,
        Bool.and_eq_false_iff, decide_eq_false_iff_not] at h1 ⊢
      omega
    have h3 : isDigit09 c = false := by
      simp only [isUpperAZ, isDigit09, hU, hZ, h0, h9, Bool.and_eq_true, decide_eq_true_eq,
        Bool.and_eq_false_iff, decide_eq_false_iff_not] at h1 ⊢
      omega
    simp [h1, h2, h3]
  · by_cases h2 : isLowerAZ c = true
    · have h3 : isDigit09 c = false := by
        simp only [isLowerAZ, isDigit09, ha, hz, h0, h9, Bool.and_eq_true, decide_eq_true_eq,
          Bool.and_eq_false_iff, decide_eq_false_iff_not] at h2 ⊢
        omega
      simp [h1, h2, h3]
    · by_cases h3 : isDigit09 c = true <;> simp [h1, h2, h3]

theorem foldl_classStep (cs : List Char) : ∀ f : Bool × Bool × Bool,
    cs.foldl classStep f =
      (f.1 || cs.any isUpperAZ, f.2.1 || cs.any isLowerAZ, f.2.2 || cs.any isDigit09) := by
  induction cs with
  | nil => intro f; simp
  | cons c cs ih =>
    intro f
    rw [List.foldl_cons, ih, classStep_eq]
    simp [Bool.or_assoc]

theorem any_upper (cs : List Char) :
    cs.any isUpperAZ = true ↔ ∃ c ∈ cs, 'A'.toNat ≤ c.toNat ∧ c.toNat ≤ 'Z'.toNat := by
  rw [List.any_eq_true]
  constructor
  · rintro ⟨c, hc, h⟩
    unfold isUpperAZ at h
    rw [Bool.and_eq_true, decide_eq_true_eq, decide_eq_true_eq] at h
    exact ⟨c, hc, h⟩
  · rintro ⟨c, hc, h⟩
    refine ⟨c, hc, ?_⟩
    unfold isUpperAZ
    rw [Bool.and_eq_true, decide_eq_true_eq, decide_eq_true_eq]
    exact h

theorem any_lower (cs : List Char) :
    cs.any isLowerAZ = true ↔ ∃ c ∈ cs, 'a'.toNat ≤ c.toNat ∧ c.toNat ≤ 'z'.toNat := by
  rw [List.any_eq_true]
  constructor
  · rintro ⟨c, hc, h⟩
    unfold isLowerAZ at h
    rw [Bool.and_eq_true, decide_eq_true_eq, decide_eq_true_eq] at h
    exact ⟨c, hc, h⟩
  · rintro ⟨c, hc, h⟩
    refine ⟨c, hc, ?_⟩
    unfold isLowerAZ
    rw [Bool.and_eq_true, decide_eq_true_eq, decide_eq_true_eq]
    exact h

theorem any_digit (cs : List Char) :
    cs.any isDigit09 = true ↔ ∃ c ∈ cs, '0'.toNat ≤ c.toNat ∧ c.toNat ≤ '9'.toNat := by
  rw [List.any_eq_true]
  constructor
  · rintro ⟨c, hc, h⟩
    unfold isDigit09 at h
    rw [Bool.and_eq_true, decide_eq_true_eq, decide_eq_true_eq] at h
    exact ⟨c, hc, h⟩
  · rintro ⟨c, hc, h⟩
    refine ⟨c, hc, ?_⟩
    unfold isDigit09
    rw [Bool.and_eq_true, decide_eq_true_eq, decide_eq_true_eq]
    exact h

theorem validatePassphrase_none (p : String) :
    Service.ValidatePassphrase p = none ↔
      12 ≤ len p ∧ p.data.any isUpperAZ = true ∧ p.data.any isLowerAZ = true ∧
        p.data.any isDigit09 = true := by
  unfold Service.ValidatePassphrase
  by_cases hlen : len p < 12
  · rw [if_pos hlen]
    constructor
    · intro h; cases h
    · intro h; omega
  · rw [if_neg hlen, foldl_classStep]
    simp only [Bool.false_or]
    have h12 : 12 ≤ len p := Nat.le_of_not_lt hlen
    cases p.data.any isUpperAZ <;> cases p.data.any isLowerAZ <;>
      cases p.data.any isDigit09 <;> simp [h12]

/-- C2. Service.ValidatePassphrase returns no error exactly when the passphrase has
len at least 12 and contains an ASCII uppercase letter, an ASCII lowercase letter and
an ASCII digit; so a passphrase of length at least 12 that lacks one of the three
classes is rejected. -/
theorem validatePassphrase_iff (p : String) :
    (Service.ValidatePassphrase p = none ↔
      12 ≤ len p ∧ (∃ c ∈ p.data, 'A'.toNat ≤ c.toNat ∧ c.toNat ≤ 'Z'.toNat) ∧
        (∃ c ∈ p.data, 'a'.toNat ≤ c.toNat ∧ c.toNat ≤ 'z'.toNat) ∧
        (∃ c ∈ p.data, '0'.toNat ≤ c.toNat ∧ c.toNat ≤ '9'.toNat)) ∧
    (12 ≤ len p →
      ((¬ ∃ c ∈ p.data, 'A'.toNat ≤ c.toNat ∧ c.toNat ≤ 'Z'.toNat) ∨
        (¬ ∃ c ∈ p.data, 'a'.toNat ≤ c.toNat ∧ c.toNat ≤ 'z'.toNat) ∨
        (¬ ∃ c ∈ p.data, '0'.toNat ≤ c.toNat ∧ c.toNat ≤ '9'.toNat)) →
      Service.ValidatePassphrase p ≠ none) := by
  have key := validatePassphrase_none p
  rw [any_upper, any_lower, any_digit] at key
  refine ⟨key, ?_⟩
  intro h12 hlack hnone
  obtain ⟨_, hu, hl, hd⟩ := key.1 hnone
  rcases hlack with h | h | h
  · exact h hu
  · exact h hl
  · exact h hd

/-! ## ValidateSecurityQuestionsSet -/

theorem foldl_countStep (qs : List SecurityQuestion) : ∀ n : Nat × Nat,
    qs.foldl countStep n =
      (n.1 + qs.countP (fun q => !q.IsCustom), n.2 + qs.countP (fun q => q.IsCustom)) := by
  induction qs with
  | nil => intro n; simp
  | cons q qs ih =>
    intro n
    rw [List.foldl_cons, ih]
    unfold countStep
    cases hq : q.IsCustom <;> simp [List.countP_cons, hq] <;> omega

theorem validateSet_eq (qs : List SecurityQuestion) :
    ValidateSecurityQuestionsSet qs =
      if qs.length ≠ 4 then
        some "exactly 4 security questions are required (2 predefined and 2 custom)"
      else if qs.countP (fun q => !q.IsCustom) ≠ 2 then
        some "exactly 2 predefined questions are required"
      else if qs.countP (fun q => q.IsCustom) ≠ 2 then
        some "exactly 2 custom questions are required"
      else none := by
  unfold ValidateSecurityQuestionsSet
  simp only [foldl_countStep, Nat.zero_add]

theorem validateSet_none (qs : List SecurityQuestion) :
    ValidateSecurityQuestionsSet qs = none ↔
      qs.length = 4 ∧ qs.countP (fun q => !q.IsCustom) = 2 ∧
        qs.countP (fun q => q.IsCustom) = 2 := by
  rw [validateSet_eq]
  by_cases h4 : qs.length = 4 <;> by_cases hp : qs.countP (fun q => !q.IsCustom) = 2 <;>
    by_cases hc : qs.countP (fun q => q.IsCustom) = 2 <;> simp [h4, hp, hc]

theorem validateSet_none_filter (qs : List SecurityQuestion) :
    ValidateSecurityQuestionsSet qs = none ↔
      qs.length = 4 ∧ (qs.filter fun q => q.IsCustom = false).length = 2 ∧
        (qs.filter fun q => q.IsCustom = true).length = 2 := by
  rw [validateSet_none, List.countP_eq_length_filter, List.countP_eq_length_filter]
  have e1 : (qs.filter fun q => !q.IsCustom) = qs.filter fun q => q.IsCustom = false := by
    congr 1; funext q; cases q.IsCustom <;> rfl
  have e2 : (qs.filter fun q => q.IsCustom) = qs.filter fun q => q.IsCustom = true := by
    congr 1; funext q; cases q.IsCustom <;> rfl
  rw [e1, e2]

/-- C3. ValidateSecurityQuestionsSet returns no error exactly when the list has 4
elements of which exactly 2 have IsCustom false and exactly 2 have IsCustom true; its
result is the same for any permutation of the list and for any list with the same
sequence of IsCustom flags (whatever the ID, UserID, Question and Answer fields). -/
theorem validateQuestionsSet_iff :
    (∀ qs : List SecurityQuestion, ValidateSecurityQuestionsSet qs = none ↔
      qs.length = 4 ∧ (qs.filter fun q => q.IsCustom = false).length = 2 ∧
        (qs.filter fun q => q.IsCustom = true).length = 2) ∧
    (∀ qs qs2 : List SecurityQuestion, qs.Perm qs2 →
      ValidateSecurityQuestionsSet qs = ValidateSecurityQuestionsSet qs2) ∧
    (∀ qs qs2 : List SecurityQuestion,
      qs.map (fun q => q.IsCustom) = qs2.map (fun q => q.IsCustom) →
      ValidateSecurityQuestionsSet qs = ValidateSecurityQuestionsSet qs2) := by
  refine ⟨?_, ?_, ?_⟩
  · intro qs
    exact validateSet_none_filter qs
  · intro qs qs2 hperm
    rw [validateSet_eq, validateSet_eq, hperm.length_eq, hperm.countP_eq, hperm.countP_eq]
  · intro qs qs2 hmap
    have hl : qs.length = qs2.length := by
      have := congrArg List.length hmap
      simpa using this
    have h1 : qs.countP (fun q => !q.IsCustom) = qs2.countP (fun q => !q.IsCustom) := by
      have := congrArg (List.countP fun b => !b) hmap
      simpa [List.countP_map, Function.comp] using this
    have h2 : qs.countP (fun q => q.IsCustom) = qs2.countP (fun q => q.IsCustom) := by
      have := congrArg (List.countP fun b => b) hmap
      simpa [List.countP_map, Function.comp] using this
    rw [validateSet_eq, validateSet_eq, hl, h1, h2]

/-! ## The setup handler: validation -/

theorem setupValidate_error_code {r : Request} {resp : Response}
    (h : setupValidate r = .error resp) : resp.code = 405 ∨ resp.code = 400 := by
  unfold setupValidate at h
  repeat' split at h
  all_goals first
    | (cases h; simp [errorJSON, Response.code])
    | cases h

theorem setupValidate_error_post {r : Request} {resp : Response} (hm : r.Method = "POST")
    (h : setupValidate r = .error resp) : resp.code = 400 := by
  unfold setupValidate at h
  rw [if_neg (not_not.2 hm)] at h
  repeat' split at h
  all_goals first
    | (cases h; simp [errorJSON, Response.code])
    | cases h

theorem setupExecute_code (kdf : KDF) (j : JWTCodec) (env : SetupEnv) (c : Conn)
    (req : SetupBody) :
    (setupExecute kdf j env c req).1.code = 500 ∨ (setupExecute kdf j env c req).1.code = 403 ∨
    (setupExecute kdf j env c req).1.code = 409 ∨ (setupExecute kdf j env c req).1.code = 200 ∨
    (setupExecute kdf j env c req).1.code = 0 := by
  unfold setupExecute
  repeat' split
  all_goals simp [errorJSON, successJSON, Response.code]

theorem setupExecute_code_ne_400 (kdf : KDF) (j : JWTCodec) (env : SetupEnv) (c : Conn)
    (req : SetupBody) : (setupExecute kdf j env c req).1.code ≠ 400 := by
  have h := setupExecute_code kdf j env c req
  omega

/-- C10. Validation precedes mutation: whenever the setup handler answers 400, in any
store state and for any request, the database handle after the request is the one
before it: no statement at all (so no write) was sent, and the users,
security_questions and setup_flags contents are the same. -/
theorem setup_400_no_mutation (kdf : KDF) (j : JWTCodec) (env : SetupEnv) (c : Conn)
    (r : Request) (h : (setupHandler kdf j env c r).1.code = 400) :
    (setupHandler kdf j env c r).2 = c ∧
    (setupHandler kdf j env c r).2.log = c.log ∧
    (setupHandler kdf j env c r).2.store.users = c.store.users ∧
    (setupHandler kdf j env c r).2.store.security_questions = c.store.security_questions ∧
    (setupHandler kdf j env c r).2.store.setup_flags = c.store.setup_flags := by
  have key : (setupHandler kdf j env c r).2 = c := by
    unfold setupHandler at h ⊢
    cases hv : setupValidate r with
    | error resp => rfl
    | ok req =>
      rw [hv] at h
      exact absurd h (setupExecute_code_ne_400 kdf j env c req)
  rw [key]
  exact ⟨rfl, rfl, rfl, rfl, rfl⟩

/-- The requests of TestSetupEndpoint_InvalidPassphrase (passphrase "short") and of
TestSetupEndpoint_WrongMixOfQuestions (3 predefined + 1 custom) on the fresh store:
400, and the handle is untouched, so no row was written. -/
theorem setup_400_no_mutation_witness :
    ((setupHandler demoKDF demoJWT demoEnv freshConn shortRequest).1.code = 400 ∧
      (setupHandler demoKDF demoJWT demoEnv freshConn shortRequest).2 = freshConn) ∧
    ((setupHandler demoKDF demoJWT demoEnv freshConn wrongMixRequest).1.code = 400 ∧
      (setupHandler demoKDF demoJWT demoEnv freshConn wrongMixRequest).2 = freshConn) :=
  ⟨⟨by decide,
      (setup_400_no_mutation demoKDF demoJWT demoEnv freshConn shortRequest (by decide)).1⟩,
    ⟨by decide,
      (setup_400_no_mutation demoKDF demoJWT demoEnv freshConn wrongMixRequest (by decide)).1⟩⟩

/-! ## The setup handler: steps of the second part -/

theorem IsFirstTimeUser_none (c : Conn) :
    IsFirstTimeUser none c = (.ok (c.store.users.length == 0), c.send .countUsers) := rfl

theorem IsFirstTimeUser_ok {fault : Option String} {c c1 : Conn} {b : Bool}
    (h : IsFirstTimeUser fault c = (.ok b, c1)) :
    fault = none ∧ c1 = c.send .countUsers ∧ b = (c.store.users.length == 0) := by
  unfold IsFirstTimeUser at h
  cases fault with
  | some e => simp at h
  | none =>
    simp only [Prod.mk.injEq, Res.ok.injEq] at h
    exact ⟨rfl, h.2.symm, h.1.symm⟩

theorem UserExists_ok {fault : Option String} {c c1 : Conn} {email : String} {b : Bool}
    (h : UserExists fault c email = (.ok b, c1)) :
    fault = none ∧ c1 = c.send (.countUsersByEmail email) := by
  unfold UserExists at h
  cases fault with
  | some e => simp at h
  | none =>
    simp only [Prod.mk.injEq, Res.ok.injEq] at h
    exact ⟨rfl, h.2.symm⟩

theorem HashPassword_ok {kdf : KDF} {rnd : Option (List Nat)} {pw h : String}
    (hh : HashPassword kdf rnd pw none = .ok h) :
    ∃ salt key, rnd = some salt ∧ kdf pw salt 1 65536 4 32 = some key ∧
      h = String.mk (encodeHash 65536 1 4 salt key) := by
  unfold HashPassword at hh
  cases rnd with
  | none => simp at hh
  | some salt =>
    simp only [Option.getD_none] at hh
    have hid : IDKey kdf pw salt DefaultArgon2Config.Time DefaultArgon2Config.Memory
        DefaultArgon2Config.Threads DefaultArgon2Config.KeyLen = kdf pw salt 1 65536 4 32 := rfl
    rw [hid] at hh
    cases hk : kdf pw salt 1 65536 4 32 with
    | none => rw [hk] at hh; simp at hh
    | some key =>
      rw [hk] at hh
      simp only [Res.ok.injEq] at hh
      exact ⟨salt, key, rfl, hk, hh.symm⟩

theorem CreateUser_ok {kdf : KDF} {env : SetupEnv} {c c1 : Conn} {email pass : String}
    (h : Service.CreateUser kdf env c email pass = (.ok (), c1)) :
    ∃ hashed db1, HashPassword kdf env.userSalt pass none = .ok hashed ∧
      c.store.insertUser email hashed = .ok db1 ∧
      c1 = { store := db1.replaceFlag,
             log := c.log ++ [.insertUser email hashed] ++ [.replaceFlag] } := by
  unfold Service.CreateUser at h
  split at h
  · simp at h
  · simp at h
  · rename_i hashed hh
    simp only at h
    split at h
    · simp at h
    · split at h
      · simp at h
      · rename_i db1 hdb
        split at h
        · simp at h
        · simp only [Prod.mk.injEq, true_and] at h
          exact ⟨hashed, db1, hh, hdb, h.symm⟩

theorem insertUser_ok {db db1 : Store} {email hashed : String}
    (h : db.insertUser email hashed = .ok db1) :
    db1 = { db with
      users := db.users ++ [{ id := nextId db.userSeq (db.users.map (·.id)), email := email,
                              passphrase_hash := hashed }],
      userSeq := nextId db.userSeq (db.users.map (·.id)) } := by
  unfold Store.insertUser at h
  split at h
  · cases h
  · cases h
    rfl

theorem selectUserId_ok {fault : Option String} {c c1 : Conn} {email : String} {uid : Nat}
    (h : selectUserId fault c email = (.ok uid, c1)) :
    c1 = c.send (.selectUserId email) ∧
    ∃ u, c.store.users.find? (fun u => u.email = email) = some u ∧ u.id = uid := by
  unfold selectUserId at h
  cases fault with
  | some e => simp at h
  | none =>
    simp only at h
    split at h
    · simp at h
    · rename_i u hu
      simp only [Prod.mk.injEq, Res.ok.injEq] at h
      exact ⟨h.2.symm, u, hu, h.1⟩

theorem saveLoop_ok (kdf : KDF) (env : SetupEnv) (uid : Int) :
    ∀ (qs : List SecurityQuestion) (k : Nat) (c c1 : Conn),
      saveLoop kdf env uid k qs c = (.ok (), c1) →
      c1.store.users = c.store.users ∧ c1.store.setup_flags = c.store.setup_flags ∧
      ∃ rows, c1.store.security_questions = c.store.security_questions ++ rows ∧
        List.Forall₂ (SavedAs kdf env uid) qs rows := by
  intro qs
  induction qs with
  | nil =>
    intro k c c1 h
    simp only [saveLoop, Prod.mk.injEq, true_and] at h
    subst h
    exact ⟨rfl, rfl, [], by simp, List.Forall₂.nil⟩
  | cons q qs ih =>
    intro k c c1 h
    unfold saveLoop at h
    split at h
    · simp at h
    · simp at h
    · rename_i hashed hh
      simp only at h
      split at h
      · simp at h
      · obtain ⟨hu, hf, rows, hrows, hall⟩ := ih _ _ _ h
        refine ⟨hu, hf,
          { id := nextId c.store.questionSeq (c.store.security_questions.map (·.id)),
            user_id := uid, question := q.Question, answer_hash := hashed,
            is_custom := q.IsCustom } :: rows, ?_,
          List.Forall₂.cons ⟨rfl, rfl, rfl, k, hh⟩ hall⟩
        rw [hrows]
        simp [Conn.send, Store.insertQuestion]

theorem SaveSecurityQuestions_ok {kdf : KDF} {env : SetupEnv} {uid : Int}
    {qs : List SecurityQuestion} {c c1 : Conn}
    (h : Service.SaveSecurityQuestions kdf env c uid qs = (.ok (), c1)) :
    c1.store.users = c.store.users ∧ c1.store.setup_flags = c.store.setup_flags ∧
    ∃ rows, c1.store.security_questions = c.store.security_questions ++ rows ∧
      List.Forall₂ (SavedAs kdf env uid) qs rows := by
  unfold Service.SaveSecurityQuestions at h
  split at h
  · simp at h
  · simp only at h
    split at h
    · simp at h
    · simp at h
    · rename_i c2 hloop
      split at h
      · simp at h
      · simp only [Prod.mk.injEq, true_and] at h
        subst h
        exact saveLoop_ok kdf env uid qs 0 (c.send .beginTx) c2 hloop

/-- What a 200 of the second part of the handler tells about the request and the
database after it. -/
theorem setupExecute_200 {kdf : KDF} {j : JWTCodec} {env : SetupEnv} {c : Conn}
    {req : SetupBody} (h : (setupExecute kdf j env c req).1.code = 200) :
    c.store.users = [] ∧
    ∃ hashed token rows,
      HashPassword kdf env.userSalt req.Passphrase none = .ok hashed ∧
      j.sign (tokenClaims env (nextId c.store.userSeq []) req.Email) signingKey = some token ∧
      (setupExecute kdf j env c req).1 = successJSON token ∧
      (setupExecute kdf j env c req).2.store.users =
        [{ id := nextId c.store.userSeq [], email := req.Email, passphrase_hash := hashed }] ∧
      (setupExecute kdf j env c req).2.store.setup_flags =
        c.store.setup_flags.filter (fun f => f.flag_name ≠ setupFlagName) ++
          [flagRowOf c.store] ∧
      (setupExecute kdf j env c req).2.store.security_questions =
        c.store.security_questions ++ rows ∧
      List.Forall₂ (SavedAs kdf env (nextId c.store.userSeq [])) req.SecurityQuestions rows := by
  generalize hres : setupExecute kdf j env c req = res at h ⊢
  unfold setupExecute at hres
  split at hres
  · subst hres; simp [errorJSON, Response.code] at h
  · subst hres; simp [errorJSON, Response.code] at h
  · subst hres; simp [errorJSON, Response.code] at h
  rename_i c1 h1
  split at hres
  · subst hres; simp [errorJSON, Response.code] at h
  · subst hres; simp [errorJSON, Response.code] at h
  · subst hres; simp [errorJSON, Response.code] at h
  rename_i c2 h2
  split at hres
  · subst hres; simp [errorJSON, Response.code] at h
  · subst hres; simp [errorJSON, Response.code] at h
  rename_i c3 h3
  split at hres
  · subst hres; simp [errorJSON, Response.code] at h
  · subst hres; simp [errorJSON, Response.code] at h
  rename_i uid c4 h4
  split at hres
  · subst hres; simp [errorJSON, Response.code] at h
  · subst hres; simp [errorJSON, Response.code] at h
  rename_i c5 h5
  split at hres
  · subst hres; simp [errorJSON, Response.code] at h
  · subst hres; simp [errorJSON, Response.code] at h
  rename_i token h6
  subst hres
  obtain ⟨-, hc1, hb⟩ := IsFirstTimeUser_ok h1
  obtain ⟨-, hc2⟩ := UserExists_ok h2
  obtain ⟨hashed, db1, hh, hdb, hc3⟩ := CreateUser_ok h3
  obtain ⟨hc4, u, hfind, hu⟩ := selectUserId_ok h4
  have hdb1 := insertUser_ok hdb
  have husers : c.store.users = [] := by
    have : c.store.users.length = 0 := by simpa using hb.symm
    exact List.length_eq_zero.1 this
  have hstore2 : c2.store = c.store := by rw [hc2, hc1]; rfl
  rw [hstore2, husers] at hdb1
  simp only [List.map_nil, List.nil_append] at hdb1
  have huid : uid = nextId c.store.userSeq [] := by
    rw [hc3, hdb1] at hfind
    simp [Store.replaceFlag, List.find?] at hfind
    rw [← hu, ← hfind]
  subst huid
  have hsign : j.sign (tokenClaims env (nextId c.store.userSeq []) req.Email) signingKey
      = some token := by
    unfold GenerateToken at h6
    simp only at h6
    split at h6
    · cases h6
    · rename_i t ht
      simp only [Res.ok.injEq] at h6
      rw [← h6]
      exact ht
  have hs4 : c4.store = db1.replaceFlag := by rw [hc4, hc3]; rfl
  have hsave : c5.store.users = c4.store.users ∧ c5.store.setup_flags = c4.store.setup_flags ∧
      ∃ rows, c5.store.security_questions = c4.store.security_questions ++ rows ∧
        List.Forall₂ (SavedAs kdf env (nextId c.store.userSeq [])) req.SecurityQuestions rows := by
    by_cases hq : req.SecurityQuestions.length > 0
    · rw [if_pos hq] at h5
      exact SaveSecurityQuestions_ok h5
    · rw [if_neg hq] at h5
      simp only [Prod.mk.injEq, true_and] at h5
      subst h5
      have hnil : req.SecurityQuestions = [] := List.length_eq_zero.1 (by omega)
      rw [hnil]
      exact ⟨rfl, rfl, [], by simp, List.Forall₂.nil⟩
  obtain ⟨hu5, hf5, rows, hq5, hall⟩ := hsave
  refine ⟨husers, hashed, token, rows, hh, hsign, rfl, ?_, ?_, ?_, hall⟩
  · show c5.store.users = _
    rw [hu5, hs4, hdb1]
    rfl
  · show c5.store.setup_flags = _
    rw [hf5, hs4, hdb1]
    rfl
  · show c5.store.security_questions = _
    rw [hq5, hs4, hdb1]
    rfl

/-! ## The setup handler: the path on which nothing fails -/

theorem HashPassword_total {kdf : KDF} (hkt : kdf.DefaultTotal) {rnd : Option (List Nat)}
    (hr : rnd.isSome) (pw : String) : ∃ h, HashPassword kdf rnd pw none = .ok h := by
  cases rnd with
  | none => simp at hr
  | some salt =>
    have ht := hkt pw salt
    cases hk : kdf pw salt 1 65536 4 32 with
    | none => rw [hk] at ht; simp at ht
    | some key =>
      have hid : IDKey kdf pw salt DefaultArgon2Config.Time DefaultArgon2Config.Memory
          DefaultArgon2Config.Threads DefaultArgon2Config.KeyLen = some key := hk
      simp only [HashPassword, Option.getD_none, hid]
      exact ⟨_, rfl⟩

theorem saveLoop_healthy {kdf : KDF} (hkt : kdf.DefaultTotal) {env : SetupEnv}
    (hs : ∀ k, (env.questionSalt k).isSome) (hi : ∀ k, env.insertQuestionErr k = none)
    (uid : Int) : ∀ (qs : List SecurityQuestion) (k : Nat) (c : Conn),
      ∃ c1, saveLoop kdf env uid k qs c = (.ok (), c1) := by
  intro qs
  induction qs with
  | nil => intro k c; exact ⟨c, rfl⟩
  | cons q qs ih =>
    intro k c
    obtain ⟨h, hh⟩ := HashPassword_total hkt (hs k) q.Answer
    obtain ⟨c1, hc1⟩ := ih (k + 1)
      { (c.send (.insertQuestion uid q.Question h q.IsCustom)) with
        store := (c.send (.insertQuestion uid q.Question h q.IsCustom)).store.insertQuestion
          uid q.Question h q.IsCustom }
    refine ⟨c1, ?_⟩
    unfold saveLoop
    simp only [hh, hi k]
    exact hc1

theorem SaveSecurityQuestions_healthy {kdf : KDF} (hkt : kdf.DefaultTotal) {env : SetupEnv}
    (henv : env.NoFaults) (uid : Int) (qs : List SecurityQuestion) (c : Conn) :
    ∃ c1, Service.SaveSecurityQuestions kdf env c uid qs = (.ok (), c1) := by
  obtain ⟨-, -, -, -, -, -, hb, hs, hi, hcm⟩ := henv
  obtain ⟨c1, hc1⟩ := saveLoop_healthy hkt hs hi uid qs 0 (c.send .beginTx)
  refine ⟨c1.send .commit, ?_⟩
  unfold Service.SaveSecurityQuestions
  simp only [hb, hcm, hc1]

theorem CreateUser_healthy {kdf : KDF} (hkt : kdf.DefaultTotal) {env : SetupEnv}
    (henv : env.NoFaults) {c : Conn} (hu : c.store.users = []) (email pass : String) :
    ∃ c1, Service.CreateUser kdf env c email pass = (.ok (), c1) := by
  obtain ⟨-, -, hsalt, hins, hflag, -, -, -, -, -⟩ := henv
  obtain ⟨h, hh⟩ := HashPassword_total hkt hsalt pass
  have hiu : ∃ db1, (c.send (.insertUser email h)).store.insertUser email h = .ok db1 := by
    unfold Store.insertUser
    have : (c.send (.insertUser email h)).store.users = [] := hu
    rw [this]
    exact ⟨_, rfl⟩
  obtain ⟨db1, hdb1⟩ := hiu
  unfold Service.CreateUser
  simp only [hh, hins, hdb1, hflag]
  exact ⟨_, rfl⟩

/-- With no user in the store, no failing statement, salts delivered, the library
deriving keys and signing the token, the second part of the handler answers 200. -/
theorem setupExecute_healthy {kdf : KDF} (hkt : kdf.DefaultTotal) {j : JWTCodec}
    {env : SetupEnv} (henv : env.NoFaults) {c : Conn} (hu : c.store.users = [])
    (req : SetupBody)
    (hsign : (j.sign (tokenClaims env (nextId c.store.userSeq []) req.Email)
      signingKey).isSome) :
    (setupExecute kdf j env c req).1.code = 200 := by
  obtain ⟨hcount, hex, -, -, -, hsel, -, -, -, -⟩ := id henv
  obtain ⟨c3, hc3⟩ := CreateUser_healthy hkt henv
    (show (c.send .countUsers |>.send (.countUsersByEmail req.Email)).store.users = [] from hu)
    req.Email req.Passphrase
  obtain ⟨hashed, db1, -, hdb, hc3eq⟩ := CreateUser_ok hc3
  have hdb1 := insertUser_ok hdb
  have hs : (c.send .countUsers |>.send (.countUsersByEmail req.Email)).store = c.store := rfl
  rw [hs, hu] at hdb1
  simp only [List.map_nil, List.nil_append] at hdb1
  have hfind : c3.store.users.find? (fun u => u.email = req.Email) =
      some { id := nextId c.store.userSeq [], email := req.Email, passphrase_hash := hashed } := by
    rw [hc3eq, hdb1]
    simp [Store.replaceFlag, List.find?]
  obtain ⟨c5, hc5⟩ : ∃ c5, (if req.SecurityQuestions.length > 0 then
      Service.SaveSecurityQuestions kdf env (c3.send (.selectUserId req.Email))
        (nextId c.store.userSeq []) req.SecurityQuestions
      else (.ok (), c3.send (.selectUserId req.Email))) = (Res.ok (), c5) := by
    split
    · exact SaveSecurityQuestions_healthy hkt henv _ _ _
    · exact ⟨_, rfl⟩
  obtain ⟨token, htok⟩ := Option.isSome_iff_exists.1 hsign
  have hgen : GenerateToken j env.now1 env.now2 (Int.ofNat (nextId c.store.userSeq []))
      req.Email = .ok token := by
    show (match j.sign (tokenClaims env (nextId c.store.userSeq []) req.Email) signingKey with
      | none => Res.error "key is invalid"
      | some t => Res.ok t) = _
    rw [htok]
  have e1 : IsFirstTimeUser env.countUsersErr c = (.ok true, c.send .countUsers) := by
    rw [hcount, IsFirstTimeUser_none, hu]
    rfl
  have e2 : UserExists env.userExistsErr (c.send .countUsers) req.Email =
      (.ok false, (c.send .countUsers).send (.countUsersByEmail req.Email)) := by
    rw [hex]
    unfold UserExists
    simp only
    rw [show ((c.send .countUsers).send (.countUsersByEmail req.Email)).store.users = [] from hu]
    rfl
  have e4 : selectUserId env.selectIdErr c3 req.Email =
      (.ok (nextId c.store.userSeq []), c3.send (.selectUserId req.Email)) := by
    rw [hsel]
    unfold selectUserId
    simp only
    rw [show (c3.send (.selectUserId req.Email)).store.users = c3.store.users from rfl, hfind]
  unfold setupExecute
  simp only [e1, e2, hc3, e4, hc5]
  have hgen2 : GenerateToken j env.now1 env.now2 (↑(nextId c.store.userSeq [])) req.Email
      = .ok token := hgen
  simp only [hgen2]
  rfl

/-! ## The setup handler: what passing validation means -/

theorem firstQuestionError_none (qs : List SecurityQuestion) :
    firstQuestionError qs = none ↔
      ∀ q ∈ qs, ValidateSecurityQuestion q.Question q.Answer = none := by
  induction qs with
  | nil => simp [firstQuestionError]
  | cons q qs ih =>
    unfold firstQuestionError
    cases hq : ValidateSecurityQuestion q.Question q.Answer with
    | some err => simp [hq]
    | none => simp [hq, ih]

theorem validatePassphrase_empty : Service.ValidatePassphrase "" ≠ none := by decide

theorem setupValidate_ok_iff (r : Request) (req : SetupBody) :
    setupValidate r = .ok req ↔
      r.Method = "POST" ∧ r.Body = .decoded req ∧ req.Email ≠ "" ∧ req.Passphrase ≠ "" ∧
      Service.ValidatePassphrase req.Passphrase = none ∧
      firstQuestionError req.SecurityQuestions = none ∧
      (req.SecurityQuestions.length > 0 →
        ValidateSecurityQuestionsSet req.SecurityQuestions = none) := by
  constructor
  · intro h
    unfold setupValidate at h
    split at h
    · cases h
    rename_i hm
    split at h
    · cases h
    · cases h
    rename_i req0 hb
    split at h
    · cases h
    rename_i he
    split at h
    · cases h
    rename_i hp
    split at h
    · cases h
    rename_i hvp
    split at h
    · cases h
    rename_i hfq
    split at h
    · rename_i hlen
      split at h
      · cases h
      · rename_i hset
        cases h
        exact ⟨not_not.1 hm, hb, he, hp, hvp, hfq, fun _ => hset⟩
    · rename_i hlen
      cases h
      exact ⟨not_not.1 hm, hb, he, hp, hvp, hfq, fun hl => absurd hl hlen⟩
  · rintro ⟨hm, hb, he, hp, hvp, hfq, hset⟩
    unfold setupValidate
    rw [if_neg (not_not.2 hm), hb]
    simp only [he, hp, if_false, hvp, hfq]
    split
    · rename_i hlen
      rw [hset hlen]
    · rfl

theorem setupHandler_of_valid (kdf : KDF) (j : JWTCodec) (env : SetupEnv) (c : Conn)
    {r : Request} {req : SetupBody} (h : setupValidate r = .ok req) :
    setupHandler kdf j env c r = setupExecute kdf j env c req := by
  unfold setupHandler
  rw [h]

theorem setupHandler_200 {kdf : KDF} {j : JWTCodec} {env : SetupEnv} {c : Conn}
    {r : Request} (h : (setupHandler kdf j env c r).1.code = 200) :
    ∃ req, setupValidate r = .ok req ∧
      setupHandler kdf j env c r = setupExecute kdf j env c req := by
  cases hv : setupValidate r with
  | error resp =>
    have hc := setupValidate_error_code hv
    unfold setupHandler at h
    rw [hv] at h
    simp only at h
    omega
  | ok req => exact ⟨req, rfl, setupHandler_of_valid kdf j env c hv⟩

theorem nextId_pos (seq : Nat) (ids : List Nat) : 0 < nextId seq ids := by
  unfold nextId
  omega

theorem forall₂_savedAs_flags {kdf : KDF} {env : SetupEnv} {uid : Int}
    {qs : List SecurityQuestion} {rows : List QuestionRow}
    (h : List.Forall₂ (SavedAs kdf env uid) qs rows) :
    rows.map (·.is_custom) = qs.map (·.IsCustom) ∧ ∀ row ∈ rows, row.user_id = uid := by
  induction h with
  | nil => simp
  | cons hd _ ih =>
    obtain ⟨hu, -, hc, -⟩ := hd
    refine ⟨by simp [hc, ih.1], ?_⟩
    intro row hrow
    rcases List.mem_cons.1 hrow with rfl | hmem
    · exact hu
    · exact ih.2 row hmem

/-! ## The setup handler: properties -/

theorem demoKDF_total : demoKDF.DefaultTotal := by
  intro pw salt
  simp [demoKDF]

theorem demoJWT_sound : demoJWT.Sound := by
  intro c key tok h
  simp only [demoJWT] at h ⊢
  split at h
  · rename_i hp
    cases h
    exact hp
  · cases h

theorem demoEnv_noFaults : demoEnv.NoFaults := by
  refine ⟨rfl, rfl, rfl, rfl, rfl, rfl, rfl, fun _ => rfl, fun _ => rfl, rfl⟩

theorem demoEnv_salts : demoEnv.SaltsWellFormed := by
  refine ⟨?_, ?_⟩
  · intro s hs
    cases hs
    exact ⟨by decide, by decide⟩
  · intro k s hs
    cases hs
    exact ⟨by decide, by decide⟩

/-- C4. First setup succeeds: a POST with a non-empty email, a passphrase
ValidatePassphrase accepts and 4 questions (2 predefined, 2 custom) each accepted by
ValidateSecurityQuestion, on a store without user rows and with every store and crypto
operation succeeding, is answered 200 with status "success" and a token; exactly the
new user row is in the store, and at every instant from the issue date to the expiry
ValidateToken accepts the token and returns claims whose Email is the submitted email
and whose UserID is the id of that row. -/
theorem setup_first_success (kdf : KDF) (hkt : kdf.DefaultTotal) (j : JWTCodec) (hj : j.Sound)
    (env : SetupEnv) (henv : env.NoFaults) (c : Conn) (r : Request) (req : SetupBody)
    (hm : r.Method = "POST") (hb : r.Body = .decoded req) (he : req.Email ≠ "")
    (hp : Service.ValidatePassphrase req.Passphrase = none)
    (h4 : req.SecurityQuestions.length = 4)
    (h2p : (req.SecurityQuestions.filter fun q => q.IsCustom = false).length = 2)
    (h2c : (req.SecurityQuestions.filter fun q => q.IsCustom = true).length = 2)
    (hq : ∀ q ∈ req.SecurityQuestions, ValidateSecurityQuestion q.Question q.Answer = none)
    (hu : c.store.users = [])
    (hsign : (j.sign (tokenClaims env (nextId c.store.userSeq []) req.Email)
      signingKey).isSome) :
    ∃ token u,
      (setupHandler kdf j env c r).1 = .json 200 [("status", "success"),
        ("message", "User created successfully"), ("token", token)] ∧
      (setupHandler kdf j env c r).2.store.users = [u] ∧ u.email = req.Email ∧
      ∀ now : Int, env.now2 ≤ now → now ≤ env.now1 + 30 * 60 →
        ∃ claims, ValidateToken j now token = .ok claims ∧ claims.Email = req.Email ∧
          claims.UserID = u.id := by
  have hpne : req.Passphrase ≠ "" := by
    intro h0
    rw [h0] at hp
    exact validatePassphrase_empty hp
  have hv : setupValidate r = .ok req :=
    (setupValidate_ok_iff r req).2 ⟨hm, hb, he, hpne, hp, (firstQuestionError_none _).2 hq,
      fun _ => (validateSet_none_filter _).2 ⟨h4, h2p, h2c⟩⟩
  rw [setupHandler_of_valid kdf j env c hv]
  have h200 := setupExecute_healthy hkt henv hu req hsign
  obtain ⟨-, hashed, token, rows, -, hsg, hresp, husers, -, -, -⟩ := setupExecute_200 h200
  refine ⟨token, _, hresp, husers, rfl, ?_⟩
  intro now h1 h2
  refine ⟨tokenClaims env (nextId c.store.userSeq []) req.Email, ?_, rfl, rfl⟩
  unfold ValidateToken
  rw [hj _ _ _ hsg]
  have hva : (tokenClaims env (nextId c.store.userSeq []) req.Email).validAt now = true := by
    simp only [Claims.validAt, tokenClaims, Bool.and_eq_true, Bool.or_eq_true,
      decide_eq_true_eq]
    exact ⟨⟨Or.inr h2, Or.inr h1⟩, Or.inl trivial⟩
  simp only [hva, if_true]

/-- The request of TestSetupEndpoint_Success on the fresh store. -/
theorem setup_first_success_witness :
    ∃ token u,
      (setupHandler demoKDF demoJWT demoEnv freshConn demoRequest).1 =
        .json 200 [("status", "success"), ("message", "User created successfully"),
          ("token", token)] ∧
      (setupHandler demoKDF demoJWT demoEnv freshConn demoRequest).2.store.users = [u] ∧
      u.email = "test@example.com" ∧
      ∀ now : Int, 1000 ≤ now → now ≤ 1000 + 30 * 60 →
        ∃ claims, ValidateToken demoJWT now token = .ok claims ∧
          claims.Email = "test@example.com" ∧ claims.UserID = u.id :=
  setup_first_success demoKDF demoKDF_total demoJWT demoJWT_sound demoEnv demoEnv_noFaults
    freshConn demoRequest
    { Email := "test@example.com", Passphrase := "ValidPass123",
      SecurityQuestions := demoQuestions }
    rfl rfl (by decide) (by decide) (by decide) (by decide) (by decide) (by decide) rfl
    (by decide)

theorem filter_length_of_map_eq {α β : Type} (f : α → Bool) (g : β → Bool) (b : Bool)
    (l1 : List α) (l2 : List β) (h : l1.map f = l2.map g) :
    (l1.filter fun x => f x = b).length = (l2.filter fun y => g y = b).length := by
  have e1 : (l1.filter fun x => f x = b).length = (l1.map f).countP (fun v => v = b) := by
    rw [← List.countP_eq_length_filter, List.countP_map]
    rfl
  have e2 : (l2.filter fun y => g y = b).length = (l2.map g).countP (fun v => v = b) := by
    rw [← List.countP_eq_length_filter, List.countP_map]
    rfl
  rw [e1, e2, h]

/-- C5. Completed state after a successful setup: whenever the handler answers 200 to
a request on an Uninitialized store (no users, flag unset), the store afterwards holds
exactly one user row, with the submitted email and a passphrase_hash that is the
encoded Argon2id hash HashPassword built (dollar-separated tag, version, parameters,
salt and key, not the passphrase text) and that VerifyPassword accepts for the
submitted passphrase; IsFirstTimeSetupFlagSet then returns true and IsFirstTimeUser
returns false. -/
theorem setup_200_completed (kdf : KDF) (hk : kdf.Sound) (j : JWTCodec) (env : SetupEnv)
    (hsalt : env.SaltsWellFormed) (c : Conn) (r : Request) (req : SetupBody)
    (hb : r.Body = .decoded req) (_hu : c.store.users = [])
    (_hflag : ∀ f ∈ c.store.setup_flags, ¬ (f.flag_name = setupFlagName ∧ f.flag_value = true))
    (h200 : (setupHandler kdf j env c r).1.code = 200) :
    ∃ u, (setupHandler kdf j env c r).2.store.users = [u] ∧ u.email = req.Email ∧
      VerifyPassword kdf req.Passphrase u.passphrase_hash = .ok true ∧
      (∃ salt key, salt.length = 32 ∧ key.length = 32 ∧
        u.passphrase_hash = String.mk (encodeHash 65536 1 4 salt key)) ∧
      (IsFirstTimeSetupFlagSet none (setupHandler kdf j env c r).2).1 = .ok true ∧
      (IsFirstTimeUser none (setupHandler kdf j env c r).2).1 = .ok false := by
  obtain ⟨req0, hv, hex⟩ := setupHandler_200 h200
  have hreq : req0 = req := by
    have := ((setupValidate_ok_iff r req0).1 hv).2.1
    rw [hb] at this
    cases this
    rfl
  subst hreq
  rw [hex] at h200 ⊢
  obtain ⟨-, hashed, token, rows, hh, -, -, husers, hflags, -, -⟩ := setupExecute_200 h200
  obtain ⟨salt, key, hs, hkey, hhashed⟩ := HashPassword_ok hh
  obtain ⟨hslen, hsbytes⟩ := hsalt.1 salt hs
  have hver : VerifyPassword kdf req0.Passphrase hashed = .ok true := by
    rw [hhashed]
    exact VerifyPassword_encodeHash kdf hk req0.Passphrase salt hsbytes DefaultArgon2Config
      (by decide) (by decide) (by decide) key hkey
  refine ⟨_, husers, rfl, hver, ⟨salt, key, hslen, (hk _ _ _ _ _ _ _ hkey).1, hhashed⟩, ?_, ?_⟩
  · unfold IsFirstTimeSetupFlagSet
    simp only [Conn.send, hflags, Res.ok.injEq, decide_eq_true_eq]
    rw [List.filter_append]
    simp [flagRowOf]
  · unfold IsFirstTimeUser
    simp only [Conn.send, husers]
    rfl

/-- The completed state after the request of TestSetupEndpoint_Success. -/
theorem setup_200_completed_witness :
    ∃ u, (setupHandler demoKDF demoJWT demoEnv freshConn demoRequest).2.store.users = [u] ∧
      u.email = "test@example.com" ∧
      VerifyPassword demoKDF "ValidPass123" u.passphrase_hash = .ok true ∧
      (∃ salt key, salt.length = 32 ∧ key.length = 32 ∧
        u.passphrase_hash = String.mk (encodeHash 65536 1 4 salt key)) ∧
      (IsFirstTimeSetupFlagSet none
        (setupHandler demoKDF demoJWT demoEnv freshConn demoRequest).2).1 = .ok true ∧
      (IsFirstTimeUser none
        (setupHandler demoKDF demoJWT demoEnv freshConn demoRequest).2).1 = .ok false :=
  setup_200_completed demoKDF demoKDF_sound demoJWT demoEnv demoEnv_salts freshConn demoRequest
    { Email := "test@example.com", Passphrase := "ValidPass123",
      SecurityQuestions := demoQuestions }
    rfl rfl (by decide) (by decide)

/-- C6. Setup is one-time: in every store state with at least one user row, a setup
request that passes input validation is answered 403 "Setup already completed" (the
count query succeeding), whatever its email; only that count query is sent and the
users, security_questions and setup_flags contents stay as they were. In particular,
of two consecutive valid requests on a store without users, processed with no store or
crypto failure, the first is answered 200 and the second 403. -/
theorem setup_is_one_time :
    (∀ (kdf : KDF) (j : JWTCodec) (env : SetupEnv) (c : Conn) (r : Request) (req : SetupBody),
      c.store.users ≠ [] → setupValidate r = .ok req → env.countUsersErr = none →
      (setupHandler kdf j env c r).1 = .json 403 [("error", "Setup already completed")] ∧
      (setupHandler kdf j env c r).2.store = c.store ∧
      (setupHandler kdf j env c r).2.log = c.log ++ [Stmt.countUsers]) ∧
    (∀ (kdf : KDF) (j : JWTCodec) (env1 env2 : SetupEnv) (c : Conn) (r1 r2 : Request)
      (req1 req2 : SetupBody),
      kdf.DefaultTotal → env1.NoFaults → env2.countUsersErr = none →
      setupValidate r1 = .ok req1 → setupValidate r2 = .ok req2 → c.store.users = [] →
      (j.sign (tokenClaims env1 (nextId c.store.userSeq []) req1.Email) signingKey).isSome →
      (setupHandler kdf j env1 c r1).1.code = 200 ∧
      (setupHandler kdf j env2 (setupHandler kdf j env1 c r1).2 r2).1.code = 403) := by
  have part1 : ∀ (kdf : KDF) (j : JWTCodec) (env : SetupEnv) (c : Conn) (r : Request)
      (req : SetupBody),
      c.store.users ≠ [] → setupValidate r = .ok req → env.countUsersErr = none →
      setupHandler kdf j env c r =
        (.json 403 [("error", "Setup already completed")], c.send .countUsers) := by
    intro kdf j env c r req hu hv hc
    rw [setupHandler_of_valid kdf j env c hv]
    unfold setupExecute
    have hlen : (c.store.users.length == 0) = false := by
      cases hcu : c.store.users with
      | nil => exact absurd hcu hu
      | cons u us => rfl
    rw [hc, IsFirstTimeUser_none, hlen]
    rfl
  refine ⟨?_, ?_⟩
  · intro kdf j env c r req hu hv hc
    rw [part1 kdf j env c r req hu hv hc]
    exact ⟨rfl, rfl, rfl⟩
  · intro kdf j env1 env2 c r1 r2 req1 req2 hkt henv hc2 hv1 hv2 hu hsign
    have h200 : (setupHandler kdf j env1 c r1).1.code = 200 := by
      rw [setupHandler_of_valid kdf j env1 c hv1]
      exact setupExecute_healthy hkt henv hu req1 hsign
    refine ⟨h200, ?_⟩
    have hne : (setupHandler kdf j env1 c r1).2.store.users ≠ [] := by
      rw [setupHandler_of_valid kdf j env1 c hv1] at h200 ⊢
      obtain ⟨-, hashed, token, rows, -, -, -, husers, -⟩ := setupExecute_200 h200
      rw [husers]
      simp
    rw [part1 kdf j env2 _ r2 req2 hne hv2 hc2]
    rfl

/-- Two valid requests with different emails in a row on the fresh store: 200, then 403. -/
theorem setup_is_one_time_witness :
    (setupHandler demoKDF demoJWT demoEnv freshConn demoRequest).1.code = 200 ∧
    (setupHandler demoKDF demoJWT demoEnv
      (setupHandler demoKDF demoJWT demoEnv freshConn demoRequest).2 otherRequest).1.code = 403 :=
  setup_is_one_time.2 demoKDF demoJWT demoEnv demoEnv freshConn demoRequest otherRequest
    { Email := "test@example.com", Passphrase := "ValidPass123",
      SecurityQuestions := demoQuestions }
    { Email := "other@example.com", Passphrase := "ValidPass123",
      SecurityQuestions := demoQuestions }
    demoKDF_total demoEnv_noFaults rfl (by rfl) (by rfl) rfl (by decide)

/-- C7, as stated, fails: a request with a non-empty email, a policy-valid passphrase
and an empty question list (not 4 questions, 2 + 2) is not answered 400; on the fresh
store it is answered 200. -/
theorem setup_no_questions_not_400 :
    noQuestionsRequest.Method = "POST" ∧
    noQuestionsRequest.Body =
      .decoded { Email := "test@example.com", Passphrase := "ValidPass123",
                 SecurityQuestions := [] } ∧
    "test@example.com" ≠ "" ∧
    Service.ValidatePassphrase "ValidPass123" = none ∧
    ¬ (([] : List SecurityQuestion).length = 4 ∧
      (([] : List SecurityQuestion).filter fun q => q.IsCustom = false).length = 2 ∧
      (([] : List SecurityQuestion).filter fun q => q.IsCustom = true).length = 2) ∧
    (setupHandler demoKDF demoJWT demoEnv freshConn noQuestionsRequest).1.code = 200 ∧
    (setupHandler demoKDF demoJWT demoEnv freshConn noQuestionsRequest).1.code ≠ 400 := by
  decide

/-- C7, amended. For every setup request with a non-empty email and a policy-valid
passphrase whose security_questions list is not empty and does not consist of exactly
4 questions with exactly 2 predefined and exactly 2 custom, the setup handler responds
400. (An empty or absent list skips the check of the set.) -/
theorem setup_bad_question_set_400 (kdf : KDF) (j : JWTCodec) (env : SetupEnv) (c : Conn)
    (r : Request) (req : SetupBody) (hm : r.Method = "POST") (hb : r.Body = .decoded req)
    (_he : req.Email ≠ "") (_hp : Service.ValidatePassphrase req.Passphrase = none)
    (hne : req.SecurityQuestions ≠ [])
    (hbad : ¬ (req.SecurityQuestions.length = 4 ∧
      (req.SecurityQuestions.filter fun q => q.IsCustom = false).length = 2 ∧
      (req.SecurityQuestions.filter fun q => q.IsCustom = true).length = 2)) :
    (setupHandler kdf j env c r).1.code = 400 := by
  cases hv : setupValidate r with
  | error resp =>
    unfold setupHandler
    rw [hv]
    exact setupValidate_error_post hm hv
  | ok req0 =>
    obtain ⟨-, hb0, -, -, -, -, hset⟩ := (setupValidate_ok_iff r req0).1 hv
    rw [hb] at hb0
    cases hb0
    exact absurd ((validateSet_none_filter _).1
      (hset (List.length_pos.2 hne))) hbad

/-- The request of TestSetupEndpoint_WrongMixOfQuestions: three predefined and one custom question. -/
theorem setup_bad_question_set_400_witness :
    (setupHandler demoKDF demoJWT demoEnv freshConn wrongMixRequest).1.code = 400 :=
  setup_bad_question_set_400 demoKDF demoJWT demoEnv freshConn wrongMixRequest
    { Email := "test@example.com", Passphrase := "ValidPass123",
      SecurityQuestions :=
        [{ ID := 1, UserID := 0, Question := "What was the name of your first pet?",
           Answer := "Fluffy", IsCustom := false },
         { ID := 2, UserID := 0, Question := "What is your mother's maiden name?",
           Answer := "Smith", IsCustom := false },
         { ID := 3, UserID := 0, Question := "What was the name of your first school?",
           Answer := "Elementary", IsCustom := false },
         { ID := 0, UserID := 0, Question := "What is your favorite color?",
           Answer := "Blue", IsCustom := true }] }
    rfl rfl (by decide) (by decide) (by decide) (by decide)

/-- C8, as stated, fails: the request without questions is answered 200 on the fresh
store (no users, every question row owned by user 0), and the user it creates, with
id 1, owns no security_questions row rather than 4. -/
theorem setup_no_questions_owns_none :
    freshConn.store.users = [] ∧
    (∀ row ∈ freshConn.store.security_questions, row.user_id = 0) ∧
    (setupHandler demoKDF demoJWT demoEnv freshConn noQuestionsRequest).1.code = 200 ∧
    (setupHandler demoKDF demoJWT demoEnv freshConn noQuestionsRequest).2.store.users.map
      (·.id) = [1] ∧
    ((setupHandler demoKDF demoJWT demoEnv freshConn
      noQuestionsRequest).2.store.security_questions.filter
        fun row => row.user_id = 1).length = 0 := by
  decide

/-- C8, amended. Question-composition invariant: in every store state produced by a
setup request with at least one security question that the handler answered 200
(starting from a store with no users and no user-owned question rows), the created
user owns exactly 4 security_questions rows, exactly 2 with is_custom false and
exactly 2 with is_custom true. (A request without questions is answered 200 as well
and leaves the user without rows.) -/
theorem setup_200_question_composition (kdf : KDF) (j : JWTCodec) (env : SetupEnv) (c : Conn)
    (r : Request) (req : SetupBody) (hb : r.Body = .decoded req)
    (hne : req.SecurityQuestions ≠ []) (_hu : c.store.users = [])
    (hq0 : ∀ row ∈ c.store.security_questions, row.user_id = 0)
    (h200 : (setupHandler kdf j env c r).1.code = 200) :
    ∃ u, (setupHandler kdf j env c r).2.store.users = [u] ∧
      (((setupHandler kdf j env c r).2.store.security_questions.filter
        fun row => row.user_id = (u.id : Int)).length = 4 ∧
      (((setupHandler kdf j env c r).2.store.security_questions.filter
        fun row => row.user_id = (u.id : Int)).filter fun row => row.is_custom = false).length = 2 ∧
      (((setupHandler kdf j env c r).2.store.security_questions.filter
        fun row => row.user_id = (u.id : Int)).filter fun row => row.is_custom = true).length = 2) := by
  obtain ⟨req0, hv, hex⟩ := setupHandler_200 h200
  obtain ⟨-, hb0, -, -, -, -, hset⟩ := (setupValidate_ok_iff r req0).1 hv
  rw [hb] at hb0
  cases hb0
  obtain ⟨h4, h2p, h2c⟩ := (validateSet_none_filter _).1 (hset (List.length_pos.2 hne))
  rw [hex] at h200 ⊢
  obtain ⟨-, hashed, token, rows, -, -, -, husers, -, hqs, hall⟩ := setupExecute_200 h200
  obtain ⟨hflags, hown⟩ := forall₂_savedAs_flags hall
  refine ⟨_, husers, ?_⟩
  have hpos := nextId_pos c.store.userSeq []
  have hfilter : (setupExecute kdf j env c req).2.store.security_questions.filter
      (fun row : QuestionRow => row.user_id = ((nextId c.store.userSeq [] : Nat) : Int)) = rows := by
    rw [hqs, List.filter_append]
    have h1 : c.store.security_questions.filter
        (fun row : QuestionRow => row.user_id = ((nextId c.store.userSeq [] : Nat) : Int)) = [] := by
      rw [List.filter_eq_nil_iff]
      intro row hrow
      have := hq0 row hrow
      simp only [decide_eq_true_eq]
      omega
    have h2 : rows.filter (fun row : QuestionRow => row.user_id = ((nextId c.store.userSeq [] : Nat) : Int)) = rows := by
      rw [List.filter_eq_self]
      intro row hrow
      simp only [decide_eq_true_eq]
      exact hown row hrow
    rw [h1, h2, List.nil_append]
  simp only [hfilter]
  refine ⟨?_, ?_, ?_⟩
  · rw [← h4, ← hall.length_eq]
  · rw [← h2p]
    exact filter_length_of_map_eq (fun row : QuestionRow => row.is_custom)
      (fun q : SecurityQuestion => q.IsCustom) false rows req.SecurityQuestions hflags
  · rw [← h2c]
    exact filter_length_of_map_eq (fun row : QuestionRow => row.is_custom)
      (fun q : SecurityQuestion => q.IsCustom) true rows req.SecurityQuestions hflags

/-- The rows of the user created by the request of TestSetupEndpoint_Success. -/
theorem setup_200_question_composition_witness :
    ∃ u, (setupHandler demoKDF demoJWT demoEnv freshConn demoRequest).2.store.users = [u] ∧
      (((setupHandler demoKDF demoJWT demoEnv freshConn demoRequest).2.store.security_questions.filter
        fun row => row.user_id = (u.id : Int)).length = 4 ∧
      (((setupHandler demoKDF demoJWT demoEnv freshConn demoRequest).2.store.security_questions.filter
        fun row => row.user_id = (u.id : Int)).filter fun row => row.is_custom = false).length = 2 ∧
      (((setupHandler demoKDF demoJWT demoEnv freshConn demoRequest).2.store.security_questions.filter
        fun row => row.user_id = (u.id : Int)).filter fun row => row.is_custom = true).length = 2) :=
  setup_200_question_composition demoKDF demoJWT demoEnv freshConn demoRequest
    { Email := "test@example.com", Passphrase := "ValidPass123",
      SecurityQuestions := demoQuestions }
    rfl (by decide) rfl (by decide) (by decide)

/-- C9, evaluated where the code departs from it. On the fresh store (no users, flag
unset) the valid request of TestSetupEndpoint_Success is answered 500 when the COMMIT
of SaveSecurityQuestions fails, yet the user row and the flag written by CreateUser
stay: one user row, no question row of that user, flag set, IsFirstTimeUser false.
When the statement setting the flag fails, the answer is 500 as well and the user row
stays with the flag unset. -/
theorem setup_failure_keeps_user :
    freshConn.store.users = [] ∧ freshConn.store.setup_flags = [] ∧
    (setupHandler demoKDF demoJWT commitFailsEnv freshConn demoRequest).1.code = 500 ∧
    (setupHandler demoKDF demoJWT commitFailsEnv freshConn demoRequest).2.store.users.length
      = 1 ∧
    ((setupHandler demoKDF demoJWT commitFailsEnv freshConn
      demoRequest).2.store.security_questions.filter fun row => row.user_id ≠ 0).length = 0 ∧
    (IsFirstTimeSetupFlagSet none
      (setupHandler demoKDF demoJWT commitFailsEnv freshConn demoRequest).2).1 = .ok true ∧
    (IsFirstTimeUser none
      (setupHandler demoKDF demoJWT commitFailsEnv freshConn demoRequest).2).1 = .ok false ∧
    (setupHandler demoKDF demoJWT flagFailsEnv freshConn demoRequest).1.code = 500 ∧
    (setupHandler demoKDF demoJWT flagFailsEnv freshConn demoRequest).2.store.users.length
      = 1 ∧
    (setupHandler demoKDF demoJWT flagFailsEnv freshConn demoRequest).2.store.setup_flags
      = [] ∧
    (IsFirstTimeUser none
      (setupHandler demoKDF demoJWT flagFailsEnv freshConn demoRequest).2).1 = .ok false := by
  decide

/-! ## The users table across requests -/

theorem saveLoop_users (kdf : KDF) (env : SetupEnv) (uid : Int) :
    ∀ (qs : List SecurityQuestion) (k : Nat) (c : Conn),
      (saveLoop kdf env uid k qs c).2.store.users = c.store.users := by
  intro qs
  induction qs with
  | nil => intro k c; rfl
  | cons q qs ih =>
    intro k c
    unfold saveLoop
    split
    · rfl
    · rfl
    · simp only
      split
      · rfl
      · rw [ih]
        rfl

theorem SaveSecurityQuestions_users (kdf : KDF) (env : SetupEnv) (c : Conn) (uid : Int)
    (qs : List SecurityQuestion) :
    (Service.SaveSecurityQuestions kdf env c uid qs).2.store.users = c.store.users := by
  unfold Service.SaveSecurityQuestions
  simp only
  split
  · rfl
  · split
    · rfl
    · rfl
    · rename_i c1 hloop
      have h := saveLoop_users kdf env uid qs 0 (c.send .beginTx)
      rw [hloop] at h
      split
      · rfl
      · exact h

theorem CreateUser_users {kdf : KDF} {env : SetupEnv} {c c1 : Conn} {email pass : String}
    {res : Res Unit} (h : Service.CreateUser kdf env c email pass = (res, c1)) :
    c1.store.users = c.store.users ∨ ∃ row, c1.store.users = c.store.users ++ [row] := by
  unfold Service.CreateUser at h
  split at h
  · cases h; exact Or.inl rfl
  · cases h; exact Or.inl rfl
  · rename_i hashed hh
    simp only at h
    split at h
    · cases h; exact Or.inl rfl
    · split at h
      · cases h; exact Or.inl rfl
      · rename_i db hdb
        have hdb1 := insertUser_ok hdb
        right
        refine ⟨{ id := nextId c.store.userSeq (c.store.users.map (·.id)), email := email,
                  passphrase_hash := hashed }, ?_⟩
        split at h
        · cases h
          show db.users = _
          rw [hdb1]
          rfl
        · cases h
          show db.replaceFlag.users = _
          rw [hdb1]
          rfl

/-- The second part of the handler leaves the users table as it is, or finds it empty
and leaves one row in it. -/
theorem setupExecute_users (kdf : KDF) (j : JWTCodec) (env : SetupEnv) (c : Conn)
    (req : SetupBody) :
    (setupExecute kdf j env c req).2.store.users = c.store.users ∨
    (c.store.users = [] ∧ ∃ row, (setupExecute kdf j env c req).2.store.users = [row]) := by
  generalize hres : setupExecute kdf j env c req = res
  unfold setupExecute at hres
  have hfirst : ∀ (b : Res Bool) (c1 : Conn), IsFirstTimeUser env.countUsersErr c = (b, c1) →
      c1.store = c.store := by
    intro b c1 h
    unfold IsFirstTimeUser at h
    split at h <;> (cases h; rfl)
  have hexists : ∀ (c0 : Conn) (b : Res Bool) (c1 : Conn),
      UserExists env.userExistsErr c0 req.Email = (b, c1) → c1.store = c0.store := by
    intro c0 b c1 h
    unfold UserExists at h
    split at h <;> (cases h; rfl)
  have hselect : ∀ (c0 : Conn) (b : Res Nat) (c1 : Conn),
      selectUserId env.selectIdErr c0 req.Email = (b, c1) → c1.store = c0.store := by
    intro c0 b c1 h
    unfold selectUserId at h
    split at h
    · cases h; rfl
    · simp only at h
      split at h <;> (cases h; rfl)
  split at hres
  · rename_i c1 h1
    subst hres
    exact Or.inl (by rw [show c1.store = c.store from hfirst _ _ h1])
  · rename_i c1 h1
    subst hres
    exact Or.inl (by rw [show c1.store = c.store from hfirst _ _ h1])
  · rename_i c1 h1
    subst hres
    exact Or.inl (by rw [show c1.store = c.store from hfirst _ _ h1])
  rename_i c1 h1
  have hs1 : c1.store = c.store := hfirst _ _ h1
  have hempty : c.store.users = [] := by
    obtain ⟨-, -, hb⟩ := IsFirstTimeUser_ok h1
    exact List.length_eq_zero.1 (by simpa using hb.symm)
  split at hres
  · rename_i c2 h2
    subst hres
    exact Or.inl (by rw [show c2.store = c1.store from hexists _ _ _ h2, hs1])
  · rename_i c2 h2
    subst hres
    exact Or.inl (by rw [show c2.store = c1.store from hexists _ _ _ h2, hs1])
  · rename_i c2 h2
    subst hres
    exact Or.inl (by rw [show c2.store = c1.store from hexists _ _ _ h2, hs1])
  rename_i c2 h2
  have hs2 : c2.store = c.store := by rw [hexists _ _ _ h2, hs1]
  have hafter : ∀ c3 : Conn, (c3.store.users = c2.store.users ∨
      ∃ row, c3.store.users = c2.store.users ++ [row]) →
      c3.store.users = c.store.users ∨ (c.store.users = [] ∧ ∃ row, c3.store.users = [row]) := by
    intro c3 h
    rcases h with h | ⟨row, h⟩
    · exact Or.inl (by rw [h, hs2])
    · exact Or.inr ⟨hempty, row, by rw [h, hs2, hempty]; rfl⟩
  split at hres
  · rename_i c3 h3
    subst hres
    exact hafter c3 (CreateUser_users h3)
  · rename_i c3 h3
    subst hres
    exact hafter c3 (CreateUser_users h3)
  rename_i c3 h3
  have hu3 := CreateUser_users h3
  split at hres
  · rename_i c4 h4
    subst hres
    exact hafter c4 (by rw [show c4.store = c3.store from hselect _ _ _ h4]; exact hu3)
  · rename_i c4 h4
    subst hres
    exact hafter c4 (by rw [show c4.store = c3.store from hselect _ _ _ h4]; exact hu3)
  rename_i uid c4 h4
  have hs4 : c4.store = c3.store := hselect _ _ _ h4
  have hsave : ∀ (b : Res Unit) (c5 : Conn),
      (if req.SecurityQuestions.length > 0 then
        Service.SaveSecurityQuestions kdf env c4 uid req.SecurityQuestions
      else (.ok (), c4)) = (b, c5) → c5.store.users = c3.store.users := by
    intro b c5 h
    split at h
    · have := SaveSecurityQuestions_users kdf env c4 uid req.SecurityQuestions
      rw [h] at this
      rw [this, hs4]
    · cases h
      rw [hs4]
  split at hres
  · rename_i c5 h5
    subst hres
    exact hafter c5 (by show c5.store.users = _ ∨ _; rw [hsave _ _ h5]; exact hu3)
  · rename_i c5 h5
    subst hres
    exact hafter c5 (by show c5.store.users = _ ∨ _; rw [hsave _ _ h5]; exact hu3)
  rename_i c5 h5
  have hu5 : c5.store.users = c2.store.users ∨ ∃ row, c5.store.users = c2.store.users ++ [row] := by
    rw [hsave _ _ h5]
    exact hu3
  split at hres <;> (subst hres; exact hafter c5 hu5)

theorem setupHandler_users (kdf : KDF) (j : JWTCodec) (env : SetupEnv) (c : Conn)
    (r : Request) :
    (setupHandler kdf j env c r).2.store.users = c.store.users ∨
    (c.store.users = [] ∧ ∃ row, (setupHandler kdf j env c r).2.store.users = [row]) := by
  unfold setupHandler
  split
  · exact Or.inl rfl
  · exact setupExecute_users kdf j env c _

theorem runSetups_users_le_one (kdf : KDF) (j : JWTCodec) :
    ∀ (steps : List (SetupEnv × Request)) (c : Conn), c.store.users.length ≤ 1 →
      (runSetups kdf j c steps).store.users.length ≤ 1 := by
  intro steps
  induction steps with
  | nil => intro c h; exact h
  | cons step steps ih =>
    intro c h
    obtain ⟨env, r⟩ := step
    unfold runSetups
    apply ih
    rcases setupHandler_users kdf j env c r with h1 | ⟨-, row, h1⟩
    · rw [h1]; exact h
    · rw [h1]; exact Nat.le_refl 1

/-- C11. Single-tenant invariant: starting from a store without users, after any
finite sequence of setup requests processed one after the other, with arbitrary
bodies and with arbitrary failures of store statements, random source, key derivation
and signing, the users table holds at most one row. -/
theorem single_tenant (kdf : KDF) (j : JWTCodec) (steps : List (SetupEnv × Request))
    (c : Conn) (h : c.store.users = []) :
    (runSetups kdf j c steps).store.users.length ≤ 1 :=
  runSetups_users_le_one kdf j steps c (by rw [h]; exact Nat.zero_le 1)

/-- Three requests in a row on the fresh store: a setup whose flag statement fails, a
valid setup with another email, and a setup without questions; one user row is there
at the end. -/
theorem single_tenant_witness :
    (runSetups demoKDF demoJWT freshConn
      [(flagFailsEnv, demoRequest), (demoEnv, otherRequest),
        (demoEnv, noQuestionsRequest)]).store.users.length ≤ 1 ∧
    (runSetups demoKDF demoJWT freshConn
      [(flagFailsEnv, demoRequest), (demoEnv, otherRequest),
        (demoEnv, noQuestionsRequest)]).store.users.map (·.email) = ["test@example.com"] :=
  ⟨single_tenant demoKDF demoJWT _ freshConn rfl, by decide⟩

/-! ## The answer 409 -/

theorem setupHandler_403 (kdf : KDF) (j : JWTCodec) (env : SetupEnv) (c : Conn) (r : Request)
    (req : SetupBody) (hu : c.store.users ≠ []) (hv : setupValidate r = .ok req)
    (hc : env.countUsersErr = none) :
    setupHandler kdf j env c r =
      (.json 403 [("error", "Setup already completed")], c.send .countUsers) := by
  rw [setupHandler_of_valid kdf j env c hv]
  unfold setupExecute
  have hlen : (c.store.users.length == 0) = false := by
    cases hcu : c.store.users with
    | nil => exact absurd hcu hu
    | cons u us => rfl
  rw [hc, IsFirstTimeUser_none, hlen]
  rfl

theorem setupExecute_code_ne_409 (kdf : KDF) (j : JWTCodec) (env : SetupEnv) (c : Conn)
    (req : SetupBody) : (setupExecute kdf j env c req).1.code ≠ 409 := by
  generalize hres : setupExecute kdf j env c req = res
  unfold setupExecute at hres
  split at hres
  · subst hres; simp [errorJSON, Response.code]
  · subst hres; simp [errorJSON, Response.code]
  · subst hres; simp [errorJSON, Response.code]
  rename_i c1 h1
  obtain ⟨-, hc1, hb⟩ := IsFirstTimeUser_ok h1
  have hempty : c.store.users = [] := List.length_eq_zero.1 (by simpa using hb.symm)
  split at hres
  · subst hres; simp [errorJSON, Response.code]
  · subst hres; simp [errorJSON, Response.code]
  · rename_i c2 h2
    exfalso
    unfold UserExists at h2
    split at h2
    · cases h2
    · have hu1 : (c1.send (.countUsersByEmail req.Email)).store.users = [] := by
        rw [hc1]
        exact hempty
      simp [hu1] at h2
  split at hres
  · subst hres; simp [errorJSON, Response.code]
  · subst hres; simp [errorJSON, Response.code]
  split at hres
  · subst hres; simp [errorJSON, Response.code]
  · subst hres; simp [errorJSON, Response.code]
  split at hres
  · subst hres; simp [errorJSON, Response.code]
  · subst hres; simp [errorJSON, Response.code]
  split at hres <;> (subst hres; simp [errorJSON, successJSON, Response.code])

/-- C12, as stated, fails: on the store of TestSetupEndpoint_AlreadySetup a request
that passes input validation and carries the email of the existing user is answered
403, not 409. -/
theorem setup_same_email_not_409 :
    (∃ u ∈ existingUserConn.store.users, u.email = "existing@example.com") ∧
    (setupHandler demoKDF demoJWT demoEnv existingUserConn sameEmailRequest).1 =
      .json 403 [("error", "Setup already completed")] ∧
    (setupHandler demoKDF demoJWT demoEnv existingUserConn sameEmailRequest).1.code ≠ 409 := by
  decide

/-- C12, amended. For every setup request that passes input validation and whose
email already has a user record in the store, the setup handler responds 403
("Setup already completed") when the count query succeeds, because the first-time
check comes before the email lookup; and no request at all, in any store state, is
answered 409 when requests are processed one after the other. -/
theorem setup_existing_email_403 (kdf : KDF) (j : JWTCodec) (env : SetupEnv) (c : Conn)
    (r : Request) (req : SetupBody) (hv : setupValidate r = .ok req)
    (hex : ∃ u ∈ c.store.users, u.email = req.Email) (hc : env.countUsersErr = none) :
    (setupHandler kdf j env c r).1 = .json 403 [("error", "Setup already completed")] ∧
    (setupHandler kdf j env c r).2.store = c.store ∧
    ∀ (env2 : SetupEnv) (c2 : Conn) (r2 : Request),
      (setupHandler kdf j env2 c2 r2).1.code ≠ 409 := by
  have hu : c.store.users ≠ [] := by
    obtain ⟨u, hmem, -⟩ := hex
    exact List.ne_nil_of_mem hmem
  rw [setupHandler_403 kdf j env c r req hu hv hc]
  refine ⟨rfl, rfl, ?_⟩
  intro env2 c2 r2
  cases hv2 : setupValidate r2 with
  | error resp =>
    have hcode := setupValidate_error_code hv2
    unfold setupHandler
    rw [hv2]
    simp only
    omega
  | ok req2 =>
    rw [setupHandler_of_valid kdf j env2 c2 hv2]
    exact setupExecute_code_ne_409 kdf j env2 c2 req2

/-- The request with the email of the existing user on the store of
TestSetupEndpoint_AlreadySetup. -/
theorem setup_existing_email_403_witness :
    (setupHandler demoKDF demoJWT demoEnv existingUserConn sameEmailRequest).1 =
      .json 403 [("error", "Setup already completed")] ∧
    (setupHandler demoKDF demoJWT demoEnv existingUserConn sameEmailRequest).2.store =
      existingUserConn.store :=
  have t := setup_existing_email_403 demoKDF demoJWT demoEnv existingUserConn sameEmailRequest
    { Email := "existing@example.com", Passphrase := "ValidPass123",
      SecurityQuestions := demoQuestions }
    (by rfl) (by decide) rfl
  ⟨t.1, t.2.1⟩

/-! ## SaveSecurityQuestions -/

theorem foldl_max_ge (ids : List Nat) : ∀ seq : Nat,
    seq ≤ ids.foldl max seq ∧ ∀ i ∈ ids, i ≤ ids.foldl max seq := by
  induction ids with
  | nil => intro seq; exact ⟨Nat.le_refl _, by simp⟩
  | cons x ids ih =>
    intro seq
    obtain ⟨h1, h2⟩ := ih (max seq x)
    rw [List.foldl_cons]
    refine ⟨le_trans (Nat.le_max_left _ _) h1, ?_⟩
    intro i hi
    rcases List.mem_cons.1 hi with rfl | hmem
    · exact le_trans (Nat.le_max_right _ _) h1
    · exact h2 i hmem

theorem nextId_gt (seq : Nat) (ids : List Nat) :
    seq < nextId seq ids ∧ ∀ i ∈ ids, i < nextId seq ids := by
  obtain ⟨h1, h2⟩ := foldl_max_ge ids seq
  unfold nextId
  exact ⟨Nat.lt_succ_of_le h1, fun i hi => Nat.lt_succ_of_le (h2 i hi)⟩

/-- C13. SaveSecurityQuestions is atomic: whenever it does not return nil (the begin
of the transaction, the hashing of an answer, the insert of any question or the
commit failed, or the library panicked), the contents of the store after the call,
security_questions included, are those before it; no row of the batch stays. -/
theorem saveSecurityQuestions_atomic (kdf : KDF) (env : SetupEnv) (c c1 : Conn) (userID : Int)
    (questions : List SecurityQuestion) (res : Res Unit)
    (h : Service.SaveSecurityQuestions kdf env c userID questions = (res, c1))
    (herr : res ≠ .ok ()) :
    c1.store.security_questions = c.store.security_questions ∧ c1.store = c.store := by
  have key : c1.store = c.store := by
    unfold Service.SaveSecurityQuestions at h
    simp only at h
    split at h
    · cases h; rfl
    · split at h
      · cases h; rfl
      · cases h; rfl
      · split at h
        · cases h; rfl
        · cases h
          exact absurd rfl herr
  exact ⟨by rw [key], key⟩

/-- The insert of the third of four questions fails: the call returns an error, three
inserts were sent and then rolled back, and the store is the one before the call. -/
theorem saveSecurityQuestions_atomic_witness :
    (Service.SaveSecurityQuestions demoKDF thirdInsertFailsEnv existingUserConn 1
      demoQuestions).1 = .error "disk I/O error" ∧
    ((Service.SaveSecurityQuestions demoKDF thirdInsertFailsEnv existingUserConn 1
      demoQuestions).2.log.filter Stmt.isWrite).length = 3 ∧
    (Service.SaveSecurityQuestions demoKDF thirdInsertFailsEnv existingUserConn 1
      demoQuestions).2.store.security_questions = existingUserConn.store.security_questions :=
  ⟨by decide, by decide,
    (saveSecurityQuestions_atomic demoKDF thirdInsertFailsEnv existingUserConn _ 1
      demoQuestions _ rfl (by decide)).1⟩

theorem saveLoop_post (kdf : KDF) (hk : kdf.Sound) (env : SetupEnv)
    (hs : env.SaltsWellFormed) (uid : Int) :
    ∀ (qs : List SecurityQuestion) (k : Nat) (c c1 : Conn),
      saveLoop kdf env uid k qs c = (.ok (), c1) →
      c1.store.users = c.store.users ∧ c1.store.setup_flags = c.store.setup_flags ∧
      c1.store.userSeq = c.store.userSeq ∧ c1.store.flagSeq = c.store.flagSeq ∧
      ∃ rows, c1.store.security_questions = c.store.security_questions ++ rows ∧
        List.Forall₂ (StoredFor kdf uid) qs rows ∧
        List.Pairwise (· < ·) (rows.map (·.id)) ∧
        ∀ row ∈ rows, c.store.questionSeq < row.id ∧
          ∀ old ∈ c.store.security_questions, old.id < row.id := by
  intro qs
  induction qs with
  | nil =>
    intro k c c1 h
    simp only [saveLoop, Prod.mk.injEq, true_and] at h
    subst h
    exact ⟨rfl, rfl, rfl, rfl, [], by simp, List.Forall₂.nil, by simp, by simp⟩
  | cons q qs ih =>
    intro k c c1 h
    unfold saveLoop at h
    split at h
    · simp at h
    · simp at h
    · rename_i hashed hh
      simp only at h
      split at h
      · simp at h
      · obtain ⟨hu, hf, hus, hfs, rows, hrows, hall, hpw, hgt⟩ := ih _ _ _ h
        obtain ⟨salt, key, hsalt, hkey, hhashed⟩ := HashPassword_ok hh
        obtain ⟨hslen, hsbytes⟩ := hs.2 k salt hsalt
        have hver : VerifyPassword kdf q.Answer hashed = .ok true := by
          rw [hhashed]
          exact VerifyPassword_encodeHash kdf hk q.Answer salt hsbytes DefaultArgon2Config
            (by decide) (by decide) (by decide) key hkey
        obtain ⟨hid1, hid2⟩ := nextId_gt c.store.questionSeq (c.store.security_questions.map (·.id))
        refine ⟨hu, hf, hus, hfs,
          { id := nextId c.store.questionSeq (c.store.security_questions.map (·.id)),
            user_id := uid, question := q.Question, answer_hash := hashed,
            is_custom := q.IsCustom } :: rows, ?_,
          List.Forall₂.cons ⟨rfl, rfl, rfl, hver, salt, key, hslen,
            (hk _ _ _ _ _ _ _ hkey).1, hhashed⟩ hall, ?_, ?_⟩
        · rw [hrows]
          simp [Conn.send, Store.insertQuestion]
        · rw [List.map_cons, List.pairwise_cons]
          refine ⟨?_, hpw⟩
          intro i hi
          obtain ⟨row, hrow, rfl⟩ := List.mem_map.1 hi
          exact (hgt row hrow).1
        · intro row hrow
          rcases List.mem_cons.1 hrow with rfl | hmem
          · refine ⟨hid1, ?_⟩
            intro old hold
            exact hid2 old.id (List.mem_map.2 ⟨old, hold, rfl⟩)
          · obtain ⟨h1, h2⟩ := hgt row hmem
            refine ⟨lt_trans hid1 h1, ?_⟩
            intro old hold
            exact h2 old (by simp [Conn.send, Store.insertQuestion, hold])

theorem forall₂_storedFor_flags {kdf : KDF} {uid : Int}
    {qs : List SecurityQuestion} {rows : List QuestionRow}
    (h : List.Forall₂ (StoredFor kdf uid) qs rows) :
    rows.map (·.is_custom) = qs.map (·.IsCustom) := by
  induction h with
  | nil => simp
  | cons hd _ ih =>
    obtain ⟨-, -, hc, -⟩ := hd
    simp [hc, ih]

/-- C14. SaveSecurityQuestions success postcondition: when the call returns nil,
security_questions is the old contents followed by exactly len(qs) new rows and
nothing else changed; the new rows come in the order of qs with increasing ids above
every old id, the i-th of them has user_id = userID, the question and is_custom of
qs[i], and an answer_hash in the encoded format that VerifyPassword accepts for
qs[i].Answer; so as many predefined and as many custom rows were saved as qs has. -/
theorem saveSecurityQuestions_post (kdf : KDF) (hk : kdf.Sound) (env : SetupEnv)
    (hs : env.SaltsWellFormed) (c c1 : Conn) (userID : Int) (qs : List SecurityQuestion)
    (h : Service.SaveSecurityQuestions kdf env c userID qs = (.ok (), c1)) :
    c1.store.users = c.store.users ∧ c1.store.setup_flags = c.store.setup_flags ∧
    c1.store.userSeq = c.store.userSeq ∧ c1.store.flagSeq = c.store.flagSeq ∧
    ∃ rows, c1.store.security_questions = c.store.security_questions ++ rows ∧
      rows.length = qs.length ∧
      List.Forall₂ (StoredFor kdf userID) qs rows ∧
      List.Pairwise (· < ·) (rows.map (·.id)) ∧
      (∀ row ∈ rows, ∀ old ∈ c.store.security_questions, old.id < row.id) ∧
      (rows.filter fun row => row.is_custom = false).length =
        (qs.filter fun q => q.IsCustom = false).length ∧
      (rows.filter fun row => row.is_custom = true).length =
        (qs.filter fun q => q.IsCustom = true).length := by
  unfold Service.SaveSecurityQuestions at h
  simp only at h
  split at h
  · simp at h
  · split at h
    · simp at h
    · simp at h
    · rename_i c2 hloop
      split at h
      · simp at h
      · simp only [Prod.mk.injEq, true_and] at h
        subst h
        obtain ⟨hu, hf, hus, hfs, rows, hrows, hall, hpw, hgt⟩ :=
          saveLoop_post kdf hk env hs userID qs 0 (c.send .beginTx) c2 hloop
        have hflags := forall₂_storedFor_flags hall
        exact ⟨hu, hf, hus, hfs, rows, hrows, hall.length_eq.symm, hall, hpw,
          fun row hrow old hold => (hgt row hrow).2 old hold,
          filter_length_of_map_eq (fun row : QuestionRow => row.is_custom)
            (fun q : SecurityQuestion => q.IsCustom) false rows qs hflags,
          filter_length_of_map_eq (fun row : QuestionRow => row.is_custom)
            (fun q : SecurityQuestion => q.IsCustom) true rows qs hflags⟩

/-- The call of TestSaveMixedSecurityQuestions: four questions saved for user 1. -/
theorem saveSecurityQuestions_post_witness :
    ∃ c1 rows, Service.SaveSecurityQuestions demoKDF demoEnv existingUserConn 1 demoQuestions
        = (.ok (), c1) ∧
      c1.store.security_questions = existingUserConn.store.security_questions ++ rows ∧
      rows.length = 4 ∧ List.Forall₂ (StoredFor demoKDF 1) demoQuestions rows ∧
      (rows.filter fun row => row.is_custom = false).length = 2 ∧
      (rows.filter fun row => row.is_custom = true).length = 2 :=
  have hrun : Service.SaveSecurityQuestions demoKDF demoEnv existingUserConn 1 demoQuestions
      = (.ok (), (Service.SaveSecurityQuestions demoKDF demoEnv existingUserConn 1
          demoQuestions).2) := by decide
  have t := saveSecurityQuestions_post demoKDF demoKDF_sound demoEnv demoEnv_salts
    existingUserConn _ 1 demoQuestions hrun
  Exists.elim t.2.2.2.2 fun rows hr =>
    ⟨_, rows, hrun, hr.1, hr.2.1, hr.2.2.1, hr.2.2.2.2.2.1, hr.2.2.2.2.2.2⟩

/-! ## The encoded hash -/

theorem HashPassword_ok_cfg {kdf : KDF} {salt : List Nat} {pw h : String}
    {c : Option Argon2Config} (hh : HashPassword kdf (some salt) pw c = .ok h) :
    ∃ key, IDKey kdf pw salt (c.getD DefaultArgon2Config).Time
        (c.getD DefaultArgon2Config).Memory (c.getD DefaultArgon2Config).Threads
        (c.getD DefaultArgon2Config).KeyLen = some key ∧
      h = String.mk (encodeHash (c.getD DefaultArgon2Config).Memory
        (c.getD DefaultArgon2Config).Time (c.getD DefaultArgon2Config).Threads salt key) := by
  simp only [HashPassword] at hh
  split at hh
  · cases hh
  · rename_i key hkey
    simp only [Res.ok.injEq] at hh
    exact ⟨key, hkey, hh.symm⟩

theorem IDKey_some {kdf : KDF} {pw : String} {salt key : List Nat} {t m p k : Nat}
    (h : IDKey kdf pw salt t m p k = some key) :
    1 ≤ t ∧ 1 ≤ p ∧ kdf pw salt t m p k = some key := by
  unfold IDKey at h
  split at h
  · cases h
  · split at h
    · cases h
    · exact ⟨by omega, by omega, h⟩

/-- C16. Encoded hash format: the string HashPassword returns (for nil or any config
with fields within their Go types, and a generated 32-byte salt) splits on the dollar
sign into exactly 6 fields: the empty string, "argon2id", "v=19", the parameter section
m=Memory,t=Time,p=Threads in decimal (which Sscanf reads back as these numbers), the
unpadded base64 of the salt and the unpadded base64 of the KeyLen-byte key the library
derived from the password, that salt and those parameters. With a nil config the
fourth field is "m=65536,t=1,p=4" and the salt and key fields decode to 32 bytes each.
A string is returned whenever the library derives a key. -/
theorem hashPassword_format (kdf : KDF) (hk : kdf.Sound) (s : String) (salt : List Nat)
    (hsalt : salt.length = 32 ∧ IsBytes salt) (c : Option Argon2Config)
    (hc : ∀ cfg, c = some cfg → cfg.InRange) :
    (∀ h, HashPassword kdf (some salt) s c = .ok h →
      ∃ key, kdf s salt (c.getD DefaultArgon2Config).Time (c.getD DefaultArgon2Config).Memory
          (c.getD DefaultArgon2Config).Threads (c.getD DefaultArgon2Config).KeyLen = some key ∧
        key.length = (c.getD DefaultArgon2Config).KeyLen ∧
        splitOn '$' h.data =
          [[], "argon2id".data, "v=19".data,
            "m=".data ++ fmtDec (c.getD DefaultArgon2Config).Memory ++ ",t=".data ++
              fmtDec (c.getD DefaultArgon2Config).Time ++ ",p=".data ++
              fmtDec (c.getD DefaultArgon2Config).Threads,
            b64Encode salt, b64Encode key] ∧
        sscanfParams ("m=".data ++ fmtDec (c.getD DefaultArgon2Config).Memory ++ ",t=".data ++
              fmtDec (c.getD DefaultArgon2Config).Time ++ ",p=".data ++
              fmtDec (c.getD DefaultArgon2Config).Threads) =
          some ((c.getD DefaultArgon2Config).Memory, (c.getD DefaultArgon2Config).Time,
            (c.getD DefaultArgon2Config).Threads) ∧
        b64Decode (b64Encode salt) = some salt ∧ b64Decode (b64Encode key) = some key ∧
        (c = none →
          (splitOn '$' h.data).getD 3 [] = "m=65536,t=1,p=4".data ∧ salt.length = 32 ∧
            key.length = 32)) ∧
    (1 ≤ (c.getD DefaultArgon2Config).Time → 1 ≤ (c.getD DefaultArgon2Config).Threads →
      (kdf s salt (c.getD DefaultArgon2Config).Time (c.getD DefaultArgon2Config).Memory
        (c.getD DefaultArgon2Config).Threads (c.getD DefaultArgon2Config).KeyLen).isSome →
      ∃ h, HashPassword kdf (some salt) s c = .ok h) := by
  have hcfg : (c.getD DefaultArgon2Config).InRange := by
    cases c with
    | none => decide
    | some cfg => exact hc cfg rfl
  constructor
  · intro h hh
    obtain ⟨key, hid, hh2⟩ := HashPassword_ok_cfg hh
    obtain ⟨-, -, hkey⟩ := IDKey_some hid
    obtain ⟨hlen, hbytes⟩ := hk _ _ _ _ _ _ _ hkey
    obtain ⟨hrT, hrM, hrP, -⟩ := hcfg
    have hsplit := splitOn_encodeHash (c.getD DefaultArgon2Config).Memory
      (c.getD DefaultArgon2Config).Time (c.getD DefaultArgon2Config).Threads salt key
    have hv : "v=".data ++ fmtDec argon2Version = "v=19".data := by decide
    rw [hv] at hsplit
    refine ⟨key, hkey, hlen, ?_, sscanfParams_fmt _ _ _ hrM hrT hrP,
      b64Decode_b64Encode _ hsalt.2, b64Decode_b64Encode _ hbytes, ?_⟩
    · rw [hh2]
      exact hsplit
    · intro hnone
      subst hnone
      rw [hh2, hsplit]
      refine ⟨?_, hsalt.1, hlen⟩
      simp only [List.getD_cons_succ, List.getD_cons_zero]
      decide
  · intro hT hP hsome
    obtain ⟨key, hkey⟩ := Option.isSome_iff_exists.1 hsome
    have hid : IDKey kdf s salt (c.getD DefaultArgon2Config).Time
        (c.getD DefaultArgon2Config).Memory (c.getD DefaultArgon2Config).Threads
        (c.getD DefaultArgon2Config).KeyLen = some key := by
      unfold IDKey
      rw [if_neg (by omega), if_neg (by omega)]
      exact hkey
    simp only [HashPassword, hid]
    exact ⟨_, rfl⟩

/-- The fields of the hash of TestHashPassword with the nil config. -/
theorem hashPassword_format_witness :
    ∃ h key, HashPassword demoKDF (some demoSalt) "TestPassword123" none = .ok h ∧
      key.length = 32 ∧
      splitOn '$' h.data =
        [[], "argon2id".data, "v=19".data, "m=65536,t=1,p=4".data, b64Encode demoSalt,
          b64Encode key] :=
  have t := hashPassword_format demoKDF demoKDF_sound "TestPassword123" demoSalt
    ⟨by decide, by decide⟩ none (fun cfg h => by cases h)
  Exists.elim (t.2 (by decide) (by decide) (by decide)) fun h hh =>
    Exists.elim (t.1 h hh) fun key hkey =>
      ⟨h, key, hh, hkey.2.1, hkey.2.2.1⟩

theorem b64Encode_injective {a b : List Nat} (ha : IsBytes a) (hb : IsBytes b)
    (h : b64Encode a = b64Encode b) : a = b := by
  have h1 := b64Decode_b64Encode a ha
  rw [h, b64Decode_b64Encode b hb] at h1
  exact (Option.some.inj h1).symm

/-- C19. Two calls to HashPassword with the same password and config whose salts
differ return different strings: the fifth field is the base64 text of the salt, and
that encoding is injective; both strings have the same 6-field structure, with the
same first four fields. -/
theorem hashPassword_salts_differ (kdf : KDF) (s : String) (c : Option Argon2Config)
    (salt1 salt2 : List Nat) (h1 h2 : String)
    (hs1 : salt1.length = 32 ∧ IsBytes salt1) (hs2 : salt2.length = 32 ∧ IsBytes salt2)
    (hne : salt1 ≠ salt2)
    (hh1 : HashPassword kdf (some salt1) s c = .ok h1)
    (hh2 : HashPassword kdf (some salt2) s c = .ok h2) :
    h1 ≠ h2 ∧ (splitOn '$' h1.data).length = 6 ∧ (splitOn '$' h2.data).length = 6 ∧
    (splitOn '$' h1.data).take 4 = (splitOn '$' h2.data).take 4 ∧
    (splitOn '$' h1.data).getD 4 [] = b64Encode salt1 ∧
    (splitOn '$' h2.data).getD 4 [] = b64Encode salt2 ∧
    b64Encode salt1 ≠ b64Encode salt2 := by
  obtain ⟨key1, -, e1⟩ := HashPassword_ok_cfg hh1
  obtain ⟨key2, -, e2⟩ := HashPassword_ok_cfg hh2
  have hsp1 := splitOn_encodeHash (c.getD DefaultArgon2Config).Memory
    (c.getD DefaultArgon2Config).Time (c.getD DefaultArgon2Config).Threads salt1 key1
  have hsp2 := splitOn_encodeHash (c.getD DefaultArgon2Config).Memory
    (c.getD DefaultArgon2Config).Time (c.getD DefaultArgon2Config).Threads salt2 key2
  have hb : b64Encode salt1 ≠ b64Encode salt2 :=
    fun h => hne (b64Encode_injective hs1.2 hs2.2 h)
  subst e1
  subst e2
  refine ⟨?_, ?_, ?_, ?_, ?_, ?_, hb⟩
  · intro heq
    have hd : splitOn '$' (encodeHash (c.getD DefaultArgon2Config).Memory
        (c.getD DefaultArgon2Config).Time (c.getD DefaultArgon2Config).Threads salt1 key1) =
        splitOn '$' (encodeHash (c.getD DefaultArgon2Config).Memory
        (c.getD DefaultArgon2Config).Time (c.getD DefaultArgon2Config).Threads salt2 key2) :=
      congrArg (fun h : String => splitOn '$' h.data) heq
    rw [hsp1, hsp2] at hd
    have := congrArg (fun l => l.getD 4 []) hd
    simp only [List.getD_cons_succ, List.getD_cons_zero] at this
    exact hb this
  · show (splitOn '$' (encodeHash _ _ _ salt1 key1)).length = 6
    rw [hsp1]; rfl
  · show (splitOn '$' (encodeHash _ _ _ salt2 key2)).length = 6
    rw [hsp2]; rfl
  · show (splitOn '$' (encodeHash _ _ _ salt1 key1)).take 4 =
      (splitOn '$' (encodeHash _ _ _ salt2 key2)).take 4
    rw [hsp1, hsp2]; rfl
  · show (splitOn '$' (encodeHash _ _ _ salt1 key1)).getD 4 [] = _
    rw [hsp1]; rfl
  · show (splitOn '$' (encodeHash _ _ _ salt2 key2)).getD 4 [] = _
    rw [hsp2]; rfl

/-- Two hashes of the password of TestHashPassword with two salts. -/
theorem hashPassword_salts_differ_witness :
    ∃ h1 h2, HashPassword demoKDF (some demoSalt) "TestPassword123" none = .ok h1 ∧
      HashPassword demoKDF (some demoSalt2) "TestPassword123" none = .ok h2 ∧ h1 ≠ h2 ∧
      (splitOn '$' h1.data).length = 6 ∧ (splitOn '$' h2.data).length = 6 :=
  have e1 : HashPassword demoKDF (some demoSalt) "TestPassword123" none =
      .ok (String.mk (encodeHash 65536 1 4 demoSalt
        ((demoKDF "TestPassword123" demoSalt 1 65536 4 32).getD []))) := by decide
  have e2 : HashPassword demoKDF (some demoSalt2) "TestPassword123" none =
      .ok (String.mk (encodeHash 65536 1 4 demoSalt2
        ((demoKDF "TestPassword123" demoSalt2 1 65536 4 32).getD []))) := by decide
  have t := hashPassword_salts_differ demoKDF "TestPassword123" none demoSalt demoSalt2 _ _
    ⟨by decide, by decide⟩ ⟨by decide, by decide⟩ (by decide) e1 e2
  ⟨_, _, e1, e2, t.1, t.2.1, t.2.2.1⟩

/-! ## Verifying another secret -/

theorem nat_or_eq_zero {a b : Nat} : a ||| b = 0 ↔ a = 0 ∧ b = 0 := by
  constructor
  · intro h
    have hbit : ∀ i, a.testBit i = false ∧ b.testBit i = false := by
      intro i
      have := congrArg (fun n => n.testBit i) h
      simpa [Nat.testBit_or] using this
    exact ⟨Nat.eq_of_testBit_eq fun i => by simp [(hbit i).1],
      Nat.eq_of_testBit_eq fun i => by simp [(hbit i).2]⟩
  · rintro ⟨rfl, rfl⟩
    rfl

theorem foldl_or_eq_zero (l : List Nat) : ∀ a : Nat,
    l.foldl (· ||| ·) a = 0 ↔ a = 0 ∧ ∀ v ∈ l, v = 0 := by
  induction l with
  | nil => intro a; simp
  | cons x l ih =>
    intro a
    rw [List.foldl_cons, ih, nat_or_eq_zero]
    simp only [List.mem_cons, forall_eq_or_imp]
    tauto

theorem zipWith_xor_zero : ∀ (x y : List Nat), x.length = y.length →
    ((∀ v ∈ List.zipWith (· ^^^ ·) x y, v = 0) ↔ x = y)
  | [], [], _ => by simp
  | [], _ :: _, h => by simp at h
  | _ :: _, [], h => by simp at h
  | a :: x, b :: y, h => by
    have ih := zipWith_xor_zero x y (by simpa using h)
    simp only [List.zipWith_cons_cons, List.mem_cons, forall_eq_or_imp, Nat.xor_eq_zero, ih,
      List.cons.injEq]

theorem ConstantTimeCompare_eq_one (x y : List Nat) (h : x.length = y.length) :
    ConstantTimeCompare x y = 1 ↔ x = y := by
  unfold ConstantTimeCompare
  rw [if_neg (not_not.2 h)]
  have key := (foldl_or_eq_zero (List.zipWith (· ^^^ ·) x y) 0).trans
    ((and_iff_right rfl).trans (zipWith_xor_zero x y h))
  by_cases hxy : x = y
  · rw [if_pos (key.2 hxy)]
    exact ⟨fun _ => hxy, fun _ => rfl⟩
  · rw [if_neg (fun h0 => hxy (key.1 h0))]
    exact ⟨fun h1 => absurd h1 (by decide), fun h1 => absurd h1 hxy⟩

/-- Verifying, for any secret, the text `encodeHash` builds from a key of the
configured length: the answer is whether the library derives that key again. -/
theorem VerifyPassword_encodeHash_any (kdf : KDF) (hk : kdf.Sound) (s2 : String)
    (salt : List Nat) (hsalt : IsBytes salt) (cfg : Argon2Config) (hr : cfg.InRange)
    (hT : 1 ≤ cfg.Time) (hP : 1 ≤ cfg.Threads) (key key2 : List Nat)
    (hlen : key.length = cfg.KeyLen) (hbytes : IsBytes key)
    (hkey2 : kdf s2 salt cfg.Time cfg.Memory cfg.Threads cfg.KeyLen = some key2) :
    VerifyPassword kdf s2 (String.mk (encodeHash cfg.Memory cfg.Time cfg.Threads salt key))
      = .ok (decide (key = key2)) := by
  obtain ⟨hrT, hrM, hrP, hrK⟩ := hr
  obtain ⟨hlen2, -⟩ := hk _ _ _ _ _ _ _ hkey2
  have hmod : key.length % 2 ^ 32 = cfg.KeyLen := by rw [hlen]; exact Nat.mod_eq_of_lt hrK
  have hid : IDKey kdf s2 salt cfg.Time cfg.Memory cfg.Threads cfg.KeyLen = some key2 := by
    unfold IDKey
    rw [if_neg (by omega), if_neg (by omega)]
    exact hkey2
  have hcmp := ConstantTimeCompare_eq_one key key2 (by rw [hlen, hlen2])
  unfold VerifyPassword
  simp only [splitOn_encodeHash, List.length_cons, List.length_nil, List.getD_cons_succ,
    List.getD_cons_zero, sscanfParams_fmt _ _ _ hrM hrT hrP, b64Decode_b64Encode _ hsalt,
    b64Decode_b64Encode _ hbytes, hmod, hid]
  by_cases hkk : key = key2
  · rw [hcmp.2 hkk]
    simp [hkk]
  · have : ConstantTimeCompare key key2 ≠ 1 := fun h1 => hkk (hcmp.1 h1)
    simp [hkk, this]

theorem map_mod_injective : ∀ (l1 l2 : List Nat), IsBytes l1 → IsBytes l2 →
    l1.map (· % 256) = l2.map (· % 256) → l1 = l2
  | [], [], _, _, _ => rfl
  | [], _ :: _, _, _, h => by simp at h
  | _ :: _, [], _, _, h => by simp at h
  | a :: l1, b :: l2, h1, h2, h => by
    simp only [List.map_cons, List.cons.injEq] at h
    have ha : a < 256 := h1 a (by simp)
    have hb : b < 256 := h2 b (by simp)
    have ih := map_mod_injective l1 l2 (fun x hx => h1 x (by simp [hx]))
      (fun x hx => h2 x (by simp [hx])) h.2
    rw [ih]
    congr 1
    omega

theorem infinite_strings : Infinite String :=
  Infinite.of_injective (fun n : Nat => String.mk (List.replicate n 'a')) (by
    intro m n h
    have := congrArg (fun s : String => s.data.length) h
    simpa using this)

/-- C15, as stated, fails for whatever the library computes: no key derivation that
returns 32-byte keys for the default parameters makes VerifyPassword answer
(false, nil) for every pair of distinct secrets, even with the nil config and one
fixed salt. There are more secrets than keys, so two secrets share a key, and the
second one verifies against the hash of the first. -/
theorem wrong_secret_can_verify :
    ¬ ∃ kdf : KDF, kdf.Sound ∧ kdf.DefaultTotal ∧
      ∀ s s2 : String, s ≠ s2 → ∀ h, HashPassword kdf (some demoSalt) s none = .ok h →
        VerifyPassword kdf s2 h = .ok false := by
  rintro ⟨kdf, hk, hkt, hclaim⟩
  have keyOf : ∀ s : String, ∃ key, kdf s demoSalt 1 65536 4 32 = some key :=
    fun s => Option.isSome_iff_exists.1 (hkt s demoSalt)
  choose key hkey using keyOf
  have hlen : ∀ s, (key s).length = 32 := fun s => (hk _ _ _ _ _ _ _ (hkey s)).1
  have hbytes : ∀ s, IsBytes (key s) := fun s => (hk _ _ _ _ _ _ _ (hkey s)).2
  let f : String → Mathlib.Vector (Fin 256) 32 := fun s =>
    ⟨(key s).map fun b => ⟨b % 256, Nat.mod_lt b (by decide)⟩, by
      rw [List.length_map]
      exact hlen s⟩
  haveI := infinite_strings
  obtain ⟨s, s2, hne, heq⟩ := Finite.exists_ne_map_eq_of_infinite f
  have hmap : (key s).map (· % 256) = (key s2).map (· % 256) := by
    have h1 := congrArg (fun v : Mathlib.Vector (Fin 256) 32 => v.1.map Fin.val) heq
    simpa [f, List.map_map, Function.comp] using h1
  have hkeq : key s = key s2 := map_mod_injective _ _ (hbytes s) (hbytes s2) hmap
  have hhash : HashPassword kdf (some demoSalt) s none =
      .ok (String.mk (encodeHash 65536 1 4 demoSalt (key s))) := by
    have hid : IDKey kdf s demoSalt DefaultArgon2Config.Time DefaultArgon2Config.Memory
        DefaultArgon2Config.Threads DefaultArgon2Config.KeyLen = some (key s) := hkey s
    simp only [HashPassword, Option.getD_none, hid]
    rfl
  have hver := VerifyPassword_encodeHash_any kdf hk s2 demoSalt (by decide)
    DefaultArgon2Config (by decide) (by decide) (by decide) (key s) (key s2) (hlen s)
    (hbytes s) (hkey s2)
  have hfalse := hclaim s s2 hne _ hhash
  rw [show String.mk (encodeHash DefaultArgon2Config.Memory DefaultArgon2Config.Time
    DefaultArgon2Config.Threads demoSalt (key s)) =
    String.mk (encodeHash 65536 1 4 demoSalt (key s)) from rfl] at hver
  rw [hver] at hfalse
  simp [hkeq] at hfalse

/-- C15, amended. For all secrets s and s2, every config (nil, or one with Time >= 1
and Threads >= 1) and every salt, VerifyPassword(s2, HashPassword(s, config)) returns
(false, nil) whenever the key the library derives from s2 under that salt and those
parameters differs from the key it derived from s, and (true, nil) when the two keys
are the same; no error is returned either way. That the secrets differ does not by
itself make the keys differ. -/
theorem verify_other_secret (kdf : KDF) (hk : kdf.Sound) (s s2 : String) (salt : List Nat)
    (hsalt : salt.length = 32 ∧ IsBytes salt) (c : Option Argon2Config)
    (hc : ∀ cfg, c = some cfg → cfg.InRange ∧ 1 ≤ cfg.Time ∧ 1 ≤ cfg.Threads)
    (key key2 : List Nat)
    (hkey : kdf s salt (c.getD DefaultArgon2Config).Time (c.getD DefaultArgon2Config).Memory
      (c.getD DefaultArgon2Config).Threads (c.getD DefaultArgon2Config).KeyLen = some key)
    (hkey2 : kdf s2 salt (c.getD DefaultArgon2Config).Time (c.getD DefaultArgon2Config).Memory
      (c.getD DefaultArgon2Config).Threads (c.getD DefaultArgon2Config).KeyLen = some key2) :
    ∃ h, HashPassword kdf (some salt) s c = .ok h ∧
      VerifyPassword kdf s2 h = .ok (decide (key = key2)) ∧
      (key ≠ key2 → VerifyPassword kdf s2 h = .ok false) ∧
      (key = key2 → VerifyPassword kdf s2 h = .ok true) := by
  have hcfg : (c.getD DefaultArgon2Config).InRange ∧ 1 ≤ (c.getD DefaultArgon2Config).Time ∧
      1 ≤ (c.getD DefaultArgon2Config).Threads := by
    cases c with
    | none => decide
    | some cfg => exact hc cfg rfl
  obtain ⟨hr, hT, hP⟩ := hcfg
  obtain ⟨hlen, hbytes⟩ := hk _ _ _ _ _ _ _ hkey
  have hid : IDKey kdf s salt (c.getD DefaultArgon2Config).Time
      (c.getD DefaultArgon2Config).Memory (c.getD DefaultArgon2Config).Threads
      (c.getD DefaultArgon2Config).KeyLen = some key := by
    unfold IDKey
    rw [if_neg (by omega), if_neg (by omega)]
    exact hkey
  have hver := VerifyPassword_encodeHash_any kdf hk s2 salt hsalt.2
    (c.getD DefaultArgon2Config) hr hT hP key key2 hlen hbytes hkey2
  refine ⟨_, by simp only [HashPassword, hid], hver, ?_, ?_⟩
  · intro hne
    rw [hver]
    simp [hne]
  · intro heq
    rw [hver]
    simp [heq]

/-- The wrong password of TestHashPassword against the hash of the right one. -/
theorem verify_other_secret_witness :
    ∃ h, HashPassword demoKDF (some demoSalt) "TestPassword123" none = .ok h ∧
      VerifyPassword demoKDF "WrongPassword" h = .ok false :=
  have t := verify_other_secret demoKDF demoKDF_sound "TestPassword123" "WrongPassword"
    demoSalt ⟨by decide, by decide⟩ none (fun cfg h => by cases h)
    ((demoKDF "TestPassword123" demoSalt 1 65536 4 32).getD [])
    ((demoKDF "WrongPassword" demoSalt 1 65536 4 32).getD []) (by decide) (by decide)
  Exists.elim t fun h hh => ⟨h, hh.1, hh.2.2.1 (by decide)⟩

/-! ## What Sscanf reads of a parameter section -/

theorem isDecDigit_iff (c : Char) : IsDecDigit c ↔ (digitVal c).isSome = true := by
  have h0 : '0'.toNat = 48 := rfl
  have h9 : '9'.toNat = 57 := rfl
  unfold IsDecDigit digitVal
  rw [h0, h9]
  by_cases h : 48 ≤ c.toNat ∧ c.toNat ≤ 57
  · simp [h]
  · simp [h]

theorem parseDecFrom_digits : ∀ (ds : List Char) (acc : Nat), (∀ c ∈ ds, IsDecDigit c) →
    parseDecFrom acc ds = some (ds.foldl (fun n c => n * 10 + (c.toNat - '0'.toNat)) acc)
  | [], _, _ => rfl
  | c :: cs, acc, h => by
    have hc : IsDecDigit c := h c (List.mem_cons_self _ _)
    have hv : digitVal c = some (c.toNat - 48) := by
      unfold digitVal
      exact if_pos hc
    unfold parseDecFrom
    rw [hv]
    exact parseDecFrom_digits cs _ (fun x hx => h x (List.mem_cons_of_mem _ hx))

theorem parseUint_digits (ds : List Char) (hne : ds ≠ []) (h : ∀ c ∈ ds, IsDecDigit c) :
    parseUint ds = if decimalValue ds < 2 ^ 64 then some (decimalValue ds) else none := by
  unfold parseUint
  rw [if_neg hne, parseDecFrom_digits ds 0 h]
  rfl

theorem skipSpace_blank_append : ∀ (sp r : List Char), (∀ c ∈ sp, IsBlank c) →
    skipSpace (sp ++ r) = skipSpace r
  | [], _, _ => rfl
  | c :: sp, r, h => by
    have hc : IsBlank c := h c (List.mem_cons_self _ _)
    have h10 : ¬ c = Char.ofNat 10 := hc.2
    have hstep : skipSpace (c :: (sp ++ r)) = skipSpace (sp ++ r) := by
      rw [skipSpace, if_neg h10, if_pos hc.1]
    show skipSpace (c :: (sp ++ r)) = skipSpace r
    rw [hstep]
    exact skipSpace_blank_append sp r (fun x hx => h x (List.mem_cons_of_mem _ hx))

theorem skipSpace_some : ∀ (s r : List Char), skipSpace s = some r →
    ∃ sp, s = sp ++ r ∧ ∀ c ∈ sp, IsBlank c
  | [], r, h => by
    cases h
    exact ⟨[], rfl, fun _ hc => absurd hc (List.not_mem_nil _)⟩
  | c :: cs, r, h => by
    unfold skipSpace at h
    by_cases h10 : c = Char.ofNat 10
    · rw [if_pos h10] at h
      cases h
    · rw [if_neg h10] at h
      by_cases hsp : isSpace c = true
      · rw [if_pos hsp] at h
        obtain ⟨sp, hs, hb⟩ := skipSpace_some cs r h
        refine ⟨c :: sp, by rw [hs]; rfl, ?_⟩
        intro x hx
        rcases List.mem_cons.1 hx with hx | hx
        · subst hx
          exact ⟨hsp, h10⟩
        · exact hb x hx
      · rw [if_neg hsp] at h
        cases h
        exact ⟨[], rfl, fun _ hc => absurd hc (List.not_mem_nil _)⟩

theorem expectLit_some : ∀ (l s r : List Char), expectLit l s = some r → s = l ++ r
  | [], s, r, h => by
    cases h
    rfl
  | _ :: _, [], r, h => by cases h
  | a :: l, c :: cs, r, h => by
    unfold expectLit at h
    by_cases hac : a = c
    · rw [if_pos hac] at h
      rw [expectLit_some l cs r h, hac]
      rfl
    · rw [if_neg hac] at h
      cases h

theorem head_dropWhile_not (p : Char → Bool) : ∀ (l : List Char),
    ∀ c ∈ (l.dropWhile p).head?, p c = false
  | [], c, h => by cases h
  | x :: l, c, h => by
    by_cases hx : p x = true
    · rw [List.dropWhile_cons_of_pos hx] at h
      exact head_dropWhile_not p l c h
    · rw [List.dropWhile_cons_of_neg hx] at h
      simp only [List.head?_cons, Option.mem_def, Option.some.injEq] at h
      subst h
      simpa using hx

theorem not_accepts_of_not_digit {r : List Char} (h : ∀ c ∈ r.head?, ¬ IsDecDigit c) :
    ∀ c ∈ r.head?, acceptsDec c = false := by
  intro c hc
  have hn := h c hc
  cases ha : acceptsDec c with
  | false => rfl
  | true => exact absurd ((isDecDigit_iff c).2 ((acceptsDec_iff c).1 ha)) hn

/-- What `scanUint` reads, for a destination of at most 64 bits: it returns the value
`v` and leaves `rest` exactly when the input starts with a number of value `v` below
`2 ^ bits` followed by `rest`. -/
theorem scanUint_iff (bits : Nat) (hb : bits ≤ 64) (s : List Char) (v : Nat)
    (rest : List Char) :
    scanUint bits s = some (v, rest) ↔ StartsWithNumber s v rest ∧ v < 2 ^ bits := by
  have h64 : (2 : Nat) ^ bits ≤ 2 ^ 64 := Nat.pow_le_pow_right (by decide) hb
  constructor
  · intro h
    unfold scanUint at h
    cases hs : skipSpace s with
    | none =>
      rw [hs] at h
      cases h
    | some s1 =>
      rw [hs] at h
      simp only at h
      obtain ⟨sp, hsp, hblank⟩ := skipSpace_some s s1 hs
      have hdig : ∀ c ∈ s1.takeWhile acceptsDec, IsDecDigit c := fun c hc =>
        (isDecDigit_iff c).2 ((acceptsDec_iff c).1 (List.mem_takeWhile_imp hc))
      cases hp : parseUint (s1.takeWhile acceptsDec) with
      | none =>
        rw [hp] at h
        cases h
      | some v1 =>
        rw [hp] at h
        simp only at h
        by_cases hv : v1 < 2 ^ bits
        · rw [if_pos hv] at h
          simp only [Option.some.injEq, Prod.mk.injEq] at h
          obtain ⟨hv1, hrest⟩ := h
          subst hv1
          have hne : s1.takeWhile acceptsDec ≠ [] := by
            intro he
            rw [he] at hp
            cases hp
          have hval : decimalValue (s1.takeWhile acceptsDec) = v1 := by
            rw [parseUint_digits _ hne hdig] at hp
            split at hp
            · exact Option.some.inj hp
            · cases hp
          refine ⟨⟨sp, s1.takeWhile acceptsDec, ?_, hblank, hne, hdig, ?_, hval⟩, hv⟩
          · rw [← hrest, List.takeWhile_append_dropWhile]
            exact hsp
          · intro c hc hd
            rw [← hrest] at hc
            have hf := head_dropWhile_not acceptsDec s1 c hc
            rw [(acceptsDec_iff c).2 ((isDecDigit_iff c).1 hd)] at hf
            cases hf
        · rw [if_neg hv] at h
          cases h
  · rintro ⟨⟨sp, ds, hs, hblank, hne, hdig, hrest, hval⟩, hv⟩
    obtain ⟨c, cs, hcs⟩ := List.exists_cons_of_ne_nil hne
    have hc : (digitVal c).isSome = true :=
      (isDecDigit_iff c).1 (hdig c (by rw [hcs]; exact List.mem_cons_self _ _))
    have hsk : skipSpace s = some (ds ++ rest) := by
      rw [hs, skipSpace_blank_append sp _ hblank, hcs, List.cons_append]
      exact skipSpace_digit _ hc
    have htd := takeWhile_accepts ds rest
      (fun x hx => (acceptsDec_iff x).2 ((isDecDigit_iff x).1 (hdig x hx)))
      (not_accepts_of_not_digit hrest)
    have hpu : parseUint ds = some v := by
      rw [parseUint_digits ds hne hdig, hval, if_pos (lt_of_lt_of_le hv h64)]
    unfold scanUint
    rw [hsk]
    simp only [htd.1, htd.2, hpu, hv, if_true]

/-- What Sscanf reads with the format m=%d,t=%d,p=%d into uint32, uint32 and uint8: it
succeeds with the values `m`, `t`, `p` exactly when the field begins with a parameter
section of these values. -/
theorem sscanfParams_eq_some_iff (field : List Char) (m t p : Nat) :
    sscanfParams field = some (m, t, p) ↔ BeginsWithParams field m t p := by
  constructor
  · intro h
    unfold sscanfParams at h
    simp only [Option.bind_eq_some, Prod.exists, Option.some.injEq, Prod.mk.injEq] at h
    obtain ⟨s1, h1, m1, s2, h2, s3, h3, t1, s4, h4, s5, h5, p1, s6, h6, rfl, rfl, rfl⟩ := h
    have e1 := expectLit_some _ _ _ h1
    have e3 := expectLit_some _ _ _ h3
    have e5 := expectLit_some _ _ _ h5
    have n2 := (scanUint_iff 32 (by decide) _ _ _).1 h2
    have n4 := (scanUint_iff 32 (by decide) _ _ _).1 h4
    have n6 := (scanUint_iff 8 (by decide) _ _ _).1 h6
    rw [e3] at n2
    rw [e5] at n4
    exact ⟨s1, s3, s5, s6, e1, n2.1, n4.1, n6.1, n2.2, n4.2, n6.2⟩
  · rintro ⟨s1, s2, s3, rest, e1, n1, n2, n3, hm, ht, hp⟩
    have a1 := (scanUint_iff 32 (by decide) _ _ _).2 ⟨n1, hm⟩
    have a2 := (scanUint_iff 32 (by decide) _ _ _).2 ⟨n2, ht⟩
    have a3 := (scanUint_iff 8 (by decide) _ _ _).2 ⟨n3, hp⟩
    unfold sscanfParams
    rw [e1, expectLit_append]
    simp only [Option.some_bind, a1, expectLit_append, a2, a3]

theorem sscanfParams_eq_none_iff (field : List Char) :
    sscanfParams field = none ↔ ¬ ∃ m t p, BeginsWithParams field m t p := by
  constructor
  · rintro h ⟨m, t, p, hb⟩
    rw [(sscanfParams_eq_some_iff field m t p).2 hb] at h
    cases h
  · intro h
    cases hs : sscanfParams field with
    | none => rfl
    | some mtp =>
      obtain ⟨m, t, p⟩ := mtp
      exact absurd ⟨m, t, p, (sscanfParams_eq_some_iff field m t p).1 hs⟩ h

/-- An underscore is not a digit of the verb %d: after the third number it is text
that is not looked at, so Sscanf reads 65536, 1 and 4 and the hash verifies; inside a
number it ends the number, and the literal that must follow is not found. -/
theorem underscore_is_no_digit :
    sscanfParams "m=65536,t=1,p=4_".data = some (65536, 1, 4) ∧
    VerifyPassword demoKDF "TestPassword123"
      ("$argon2id$v=19$m=65536,t=1,p=4_$AAECAwQFBgcICQoLDA0ODxAREhMUFRYXGBkaGxwdHh8" ++
        "$BAUGBwgJCgsMDQ4PEBESExQVFhcYGRobHB0eHyAhIiM") = .ok true ∧
    sscanfParams "m=65_536,t=1,p=4".data = none := by
  decide

/-! ## VerifyPassword on arbitrary text -/

/-- VerifyPassword returns an error exactly when one of its four parsing steps
fails. -/
theorem VerifyPassword_error_iff (kdf : KDF) (password encodedHash : String) :
    (∃ e, VerifyPassword kdf password encodedHash = .error e) ↔
      ((splitOn '$' encodedHash.data).length ≠ 6 ∨
        sscanfParams ((splitOn '$' encodedHash.data).getD 3 []) = none ∨
        b64Decode ((splitOn '$' encodedHash.data).getD 4 []) = none ∨
        b64Decode ((splitOn '$' encodedHash.data).getD 5 []) = none) := by
  unfold VerifyPassword
  simp only
  by_cases h6 : (splitOn '$' encodedHash.data).length ≠ 6
  · rw [if_pos h6]
    exact ⟨fun _ => Or.inl h6, fun _ => ⟨_, rfl⟩⟩
  · rw [if_neg h6]
    cases hp : sscanfParams ((splitOn '$' encodedHash.data).getD 3 []) with
    | none => exact ⟨fun _ => Or.inr (Or.inl rfl), fun _ => ⟨_, rfl⟩⟩
    | some mtp =>
      obtain ⟨m, t, p⟩ := mtp
      cases hs : b64Decode ((splitOn '$' encodedHash.data).getD 4 []) with
      | none => exact ⟨fun _ => Or.inr (Or.inr (Or.inl rfl)), fun _ => ⟨_, rfl⟩⟩
      | some salt =>
        cases hh : b64Decode ((splitOn '$' encodedHash.data).getD 5 []) with
        | none => exact ⟨fun _ => Or.inr (Or.inr (Or.inr rfl)), fun _ => ⟨_, rfl⟩⟩
        | some hash =>
          simp only
          constructor
          · rintro ⟨e, he⟩
            split at he <;> cases he
          · rintro (h | h | h | h)
            · exact absurd h h6
            · cases h
            · cases h
            · cases h

theorem sscanfParams_starts_m {field : List Char} (h : sscanfParams field ≠ none) :
    ∃ rest, field = 'm' :: '=' :: rest := by
  unfold sscanfParams at h
  cases he : expectLit "m=".data field with
  | none => rw [he] at h; exact absurd rfl h
  | some s1 =>
    refine ⟨s1, ?_⟩
    match field, he with
    | c1 :: c2 :: rest, he =>
      have hlit : "m=".data = ['m', '='] := rfl
      rw [hlit] at he
      simp only [expectLit] at he
      split at he
      · rename_i h1
        split at he
        · rename_i h2
          cases he
          rw [← h1, ← h2]
        · cases he
      · cases he
    | [c1], he =>
      have hlit : "m=".data = ['m', '='] := rfl
      rw [hlit] at he
      simp only [expectLit] at he
      split at he <;> cases he
    | [], he => cases he

/-- C17, as stated, fails: the fourth field of `trailingTextHash` is not of the form
m=<integer>,t=<integer>,p=<integer> (text follows the third number), yet VerifyPassword
returns (true, nil) for the password the hash was made from, and for no key
derivation and no password does it return an error on this string. -/
theorem trailing_text_is_verified :
    (splitOn '$' trailingTextHash.data).length = 6 ∧
    (splitOn '$' trailingTextHash.data).getD 3 [] = "m=65536,t=1,p=4 and more".data ∧
    isParamSectionForm ((splitOn '$' trailingTextHash.data).getD 3 []) = false ∧
    VerifyPassword demoKDF "TestPassword123" trailingTextHash = .ok true ∧
    (∀ (kdf : KDF) (password e : String),
      VerifyPassword kdf password trailingTextHash ≠ .error e) := by
  refine ⟨by decide, by decide, by decide, by decide, ?_⟩
  intro kdf password e he
  have h := (VerifyPassword_error_iff kdf password trailingTextHash).1 ⟨e, he⟩
  revert h
  decide

/-- C17, amended. For every password and every encodedHash, if splitting encodedHash
on the dollar sign does not give exactly 6 fields, or its fourth field does not begin
with m=<number>,t=<number>,p=<number>, where a number is white space without a line
feed (possibly none) followed by one or more decimal digits, with values below 2^32,
2^32 and 2^8 in this order, then VerifyPassword returns a non-nil error together with
false: not true, not (false, nil), no panic. Text after the third number is not
looked at and does not make the hash malformed. -/
theorem malformed_hash_rejected (kdf : KDF) (password encodedHash : String)
    (h : (splitOn '$' encodedHash.data).length ≠ 6 ∨
      ¬ ∃ m t p, BeginsWithParams ((splitOn '$' encodedHash.data).getD 3 []) m t p) :
    (∃ e, VerifyPassword kdf password encodedHash = .error e) ∧
    VerifyPassword kdf password encodedHash ≠ .ok true ∧
    VerifyPassword kdf password encodedHash ≠ .ok false ∧
    VerifyPassword kdf password encodedHash ≠ .panicked := by
  have herr : ∃ e, VerifyPassword kdf password encodedHash = .error e := by
    apply (VerifyPassword_error_iff kdf password encodedHash).2
    rcases h with h | h
    · exact Or.inl h
    · exact Or.inr (Or.inl ((sscanfParams_eq_none_iff _).2 h))
  obtain ⟨e, he⟩ := herr
  rw [he]
  exact ⟨⟨e, rfl⟩, by simp, by simp, by simp⟩

/-- A text without any dollar sign; a six-field text whose fourth field does not begin
with m=; one whose memory does not fit 32 bits; one whose parallelism does not fit 8
bits; one with a sign before a number; one with a line feed before a number. -/
theorem malformed_hash_rejected_witness :
    (∃ e, VerifyPassword demoKDF "TestPassword123" "not a hash" = .error e) ∧
    (∃ e, VerifyPassword demoKDF "TestPassword123"
      "$argon2id$v=19$t=1,m=65536,p=4$c2FsdA$aGFzaA" = .error e) ∧
    (∃ e, VerifyPassword demoKDF "TestPassword123"
      "$argon2id$v=19$m=4294967296,t=1,p=4$c2FsdA$aGFzaA" = .error e) ∧
    (∃ e, VerifyPassword demoKDF "TestPassword123"
      "$argon2id$v=19$m=65536,t=1,p=256$c2FsdA$aGFzaA" = .error e) ∧
    (∃ e, VerifyPassword demoKDF "TestPassword123"
      "$argon2id$v=19$m=65536,t=+1,p=4$c2FsdA$aGFzaA" = .error e) ∧
    (∃ e, VerifyPassword demoKDF "TestPassword123"
      "$argon2id$v=19$m=\n65536,t=1,p=4$c2FsdA$aGFzaA" = .error e) :=
  ⟨(malformed_hash_rejected demoKDF "TestPassword123" "not a hash"
      (Or.inl (by decide))).1,
    (malformed_hash_rejected demoKDF "TestPassword123"
      "$argon2id$v=19$t=1,m=65536,p=4$c2FsdA$aGFzaA"
      (Or.inr ((sscanfParams_eq_none_iff _).1 (by decide)))).1,
    (malformed_hash_rejected demoKDF "TestPassword123"
      "$argon2id$v=19$m=4294967296,t=1,p=4$c2FsdA$aGFzaA"
      (Or.inr ((sscanfParams_eq_none_iff _).1 (by decide)))).1,
    (malformed_hash_rejected demoKDF "TestPassword123"
      "$argon2id$v=19$m=65536,t=1,p=256$c2FsdA$aGFzaA"
      (Or.inr ((sscanfParams_eq_none_iff _).1 (by decide)))).1,
    (malformed_hash_rejected demoKDF "TestPassword123"
      "$argon2id$v=19$m=65536,t=+1,p=4$c2FsdA$aGFzaA"
      (Or.inr ((sscanfParams_eq_none_iff _).1 (by decide)))).1,
    (malformed_hash_rejected demoKDF "TestPassword123"
      "$argon2id$v=19$m=\n65536,t=1,p=4$c2FsdA$aGFzaA"
      (Or.inr ((sscanfParams_eq_none_iff _).1 (by decide)))).1⟩

/-- C18, evaluated where the code departs from it. `zeroTimeHash` and
`zeroThreadsHash` have 6 fields, a parameter section that Sscanf reads and base64
salt and hash fields, so they are parseable; on them VerifyPassword hands a time cost
of 0, respectively a parallelism of 0, to argon2.IDKey, which panics: for every key
derivation and every password the call neither returns (false, nil) nor an error. -/
theorem verify_panics_on_zero_cost (kdf : KDF) (password : String) :
    (splitOn '$' zeroTimeHash.data).length = 6 ∧
    sscanfParams ((splitOn '$' zeroTimeHash.data).getD 3 []) = some (65536, 0, 4) ∧
    b64Decode ((splitOn '$' zeroTimeHash.data).getD 4 []) = some [115, 97, 108, 116] ∧
    b64Decode ((splitOn '$' zeroTimeHash.data).getD 5 []) = some [104, 97, 115, 104] ∧
    VerifyPassword kdf password zeroTimeHash = .panicked ∧
    (splitOn '$' zeroThreadsHash.data).length = 6 ∧
    sscanfParams ((splitOn '$' zeroThreadsHash.data).getD 3 []) = some (65536, 1, 0) ∧
    VerifyPassword kdf password zeroThreadsHash = .panicked := by
  have a1 : (splitOn '$' zeroTimeHash.data).length = 6 := by decide
  have a2 : sscanfParams ((splitOn '$' zeroTimeHash.data).getD 3 []) = some (65536, 0, 4) := by
    decide
  have a3 : b64Decode ((splitOn '$' zeroTimeHash.data).getD 4 []) = some [115, 97, 108, 116] := by
    decide
  have a4 : b64Decode ((splitOn '$' zeroTimeHash.data).getD 5 []) = some [104, 97, 115, 104] := by
    decide
  have b1 : (splitOn '$' zeroThreadsHash.data).length = 6 := by decide
  have b2 : sscanfParams ((splitOn '$' zeroThreadsHash.data).getD 3 []) =
      some (65536, 1, 0) := by decide
  have b3 : b64Decode ((splitOn '$' zeroThreadsHash.data).getD 4 []) =
      some [115, 97, 108, 116] := by decide
  have b4 : b64Decode ((splitOn '$' zeroThreadsHash.data).getD 5 []) =
      some [104, 97, 115, 104] := by decide
  refine ⟨a1, a2, a3, a4, ?_, b1, b2, ?_⟩
  · unfold VerifyPassword
    simp only [a1, a2, a3, a4, ne_eq, not_true_eq_false, if_false]
    rfl
  · unfold VerifyPassword
    simp only [b1, b2, b3, b4, ne_eq, not_true_eq_false, if_false]
    rfl

/-! ## ValidateSecurityQuestion -/

theorem dropWhile_all {p : Char → Bool} : ∀ (w : List Char), (∀ c ∈ w, p c = true) →
    w.dropWhile p = []
  | [], _ => rfl
  | x :: w, h => by
    rw [List.dropWhile_cons, if_pos (h x (by simp))]
    exact dropWhile_all w fun c hc => h c (by simp [hc])

theorem dropWhile_append_left {p : Char → Bool} (l : List Char) : ∀ (w : List Char),
    (∀ c ∈ w, p c = true) → (w ++ l).dropWhile p = l.dropWhile p
  | [], _ => rfl
  | x :: w, h => by
    rw [List.cons_append, List.dropWhile_cons, if_pos (h x (by simp))]
    exact dropWhile_append_left l w fun c hc => h c (by simp [hc])

theorem dropWhile_append_right {p : Char → Bool} (w : List Char)
    (hw : ∀ c ∈ w, p c = true) : ∀ (l : List Char),
    (l ++ w).dropWhile p = if l.dropWhile p = [] then [] else l.dropWhile p ++ w
  | [] => by simp [dropWhile_all w hw]
  | x :: l => by
    by_cases hx : p x = true
    · rw [List.cons_append, List.dropWhile_cons, if_pos hx, List.dropWhile_cons, if_pos hx]
      exact dropWhile_append_right w hw l
    · rw [List.cons_append, List.dropWhile_cons, if_neg hx, List.dropWhile_cons, if_neg hx]
      simp

/-- The characters `strings.TrimSpace` keeps. -/
theorem TrimSpace_data (s : String) :
    (TrimSpace s).data = ((s.data.dropWhile isSpace).reverse.dropWhile isSpace).reverse := rfl

/-- Surrounding white space does not change what TrimSpace returns. -/
theorem TrimSpace_pad (ws1 s ws2 : String) (h1 : ∀ c ∈ ws1.data, isSpace c = true)
    (h2 : ∀ c ∈ ws2.data, isSpace c = true) : TrimSpace (ws1 ++ s ++ ws2) = TrimSpace s := by
  unfold TrimSpace
  congr 2
  rw [String.data_append, String.data_append, List.append_assoc,
    dropWhile_append_left _ _ h1, dropWhile_append_right _ h2]
  split
  · rename_i hnil
    rw [hnil]
  · rw [List.reverse_append, dropWhile_append_left _ _ (fun c hc => h2 c (List.mem_reverse.1 hc))]

theorem TrimSpace_blank (s : String) (h : ∀ c ∈ s.data, isSpace c = true) :
    TrimSpace s = "" := by
  unfold TrimSpace
  rw [dropWhile_all _ h]
  rfl

theorem len_empty : len "" = 0 := rfl

theorem validateSecurityQuestion_none (question answer : String) :
    ValidateSecurityQuestion question answer = none ↔
      10 ≤ len (TrimSpace question) ∧ 3 ≤ len (TrimSpace answer) := by
  unfold ValidateSecurityQuestion
  simp only
  by_cases hq : TrimSpace question = ""
  · rw [if_pos hq, hq, len_empty]
    constructor
    · intro h; cases h
    · intro h; omega
  · rw [if_neg hq]
    by_cases ha : TrimSpace answer = ""
    · rw [if_pos ha, ha, len_empty]
      constructor
      · intro h; cases h
      · intro h; omega
    · rw [if_neg ha]
      by_cases h10 : len (TrimSpace question) < 10
      · rw [if_pos h10]
        constructor
        · intro h; cases h
        · intro h; omega
      · rw [if_neg h10]
        by_cases h3 : len (TrimSpace answer) < 3
        · rw [if_pos h3]
          constructor
          · intro h; cases h
          · intro h; omega
        · rw [if_neg h3]
          exact ⟨fun _ => ⟨by omega, by omega⟩, fun _ => rfl⟩

/-- C20. ValidateSecurityQuestion returns no error exactly when the question with
surrounding white space trimmed has len at least 10 and the answer with surrounding
white space trimmed has len at least 3; a question or an answer that is empty or
consists of white space only is rejected; and the result is the same when white space
is added around (or removed from around) either argument. -/
theorem validateSecurityQuestion_iff :
    (∀ question answer : String,
      ValidateSecurityQuestion question answer = none ↔
        10 ≤ len (TrimSpace question) ∧ 3 ≤ len (TrimSpace answer)) ∧
    (∀ question answer : String,
      ((∀ c ∈ question.data, isSpace c = true) ∨ (∀ c ∈ answer.data, isSpace c = true)) →
      ValidateSecurityQuestion question answer ≠ none) ∧
    (∀ question answer ws1 ws2 ws3 ws4 : String,
      (∀ c ∈ ws1.data, isSpace c = true) → (∀ c ∈ ws2.data, isSpace c = true) →
      (∀ c ∈ ws3.data, isSpace c = true) → (∀ c ∈ ws4.data, isSpace c = true) →
      ValidateSecurityQuestion (ws1 ++ question ++ ws2) (ws3 ++ answer ++ ws4) =
        ValidateSecurityQuestion question answer) := by
  refine ⟨validateSecurityQuestion_none, ?_, ?_⟩
  · intro question answer h hnone
    obtain ⟨hq, ha⟩ := (validateSecurityQuestion_none question answer).1 hnone
    rcases h with h | h
    · rw [TrimSpace_blank question h, len_empty] at hq
      omega
    · rw [TrimSpace_blank answer h, len_empty] at ha
      omega
  · intro question answer ws1 ws2 ws3 ws4 h1 h2 h3 h4
    unfold ValidateSecurityQuestion
    rw [TrimSpace_pad ws1 question ws2 h1 h2, TrimSpace_pad ws3 answer ws4 h3 h4]

/-- The first case of TestValidateSecurityQuestion with white space around both
arguments, and a question of white space only. -/
theorem validateSecurityQuestion_iff_witness :
    ValidateSecurityQuestion ("  " ++ "What is your favorite color?" ++ " ")
      (" " ++ "Blue" ++ "  ") = ValidateSecurityQuestion "What is your favorite color?" "Blue" ∧
    ValidateSecurityQuestion "What is your favorite color?" "Blue" = none ∧
    ValidateSecurityQuestion "   " "Blue" ≠ none :=
  ⟨validateSecurityQuestion_iff.2.2 "What is your favorite color?" "Blue" "  " " " " " "  "
      (by decide) (by decide) (by decide) (by decide),
    by decide,
    validateSecurityQuestion_iff.2.1 "   " "Blue" (Or.inl (by decide))⟩

/-! ## The two passphrase validators -/

theorem matchClass_eq_any (cls : Char → Bool) (s : String) :
    matchClass cls s = s.data.any cls := by
  unfold matchClass
  induction s.data with
  | nil => rfl
  | cons c cs ih =>
    rw [List.tails_cons, List.any_cons, List.any_cons, ih]

theorem passphraseCompositionError_eq :
    ("passphrase must contain at least one uppercase letter, " ++
      "one lowercase letter, and one digit" : String) = passphraseCompositionError := by
  decide

theorem service_validatePassphrase_eq (p : String) :
    Service.ValidatePassphrase p =
      if len p < 12 then some passphraseLengthError
      else if p.data.any isUpperAZ = true ∧ p.data.any isLowerAZ = true ∧
          p.data.any isDigit09 = true then none
      else some passphraseCompositionError := by
  unfold Service.ValidatePassphrase
  rw [passphraseCompositionError_eq]
  by_cases hlen : len p < 12
  · rw [if_pos hlen, if_pos hlen]
    rfl
  · rw [if_neg hlen, if_neg hlen, foldl_classStep]
    simp only [Bool.false_or]
    cases p.data.any isUpperAZ <;> cases p.data.any isLowerAZ <;>
      cases p.data.any isDigit09 <;> simp

theorem utils_validatePassphrase_eq (p : String) :
    utils.ValidatePassphrase p =
      if len p < 12 then some passphraseLengthError
      else if p.data.any isUpperAZ = true ∧ p.data.any isLowerAZ = true ∧
          p.data.any isDigit09 = true then none
      else some passphraseCompositionError := by
  unfold utils.ValidatePassphrase
  rw [passphraseCompositionError_eq]
  by_cases hlen : len p < 12
  · rw [if_pos hlen, if_pos hlen]
    rfl
  · rw [if_neg hlen, if_neg hlen]
    simp only [matchClass_eq_any]
    cases p.data.any isUpperAZ <;> cases p.data.any isLowerAZ <;>
      cases p.data.any isDigit09 <;> simp

/-- C29. The two passphrase validators are equivalent: utils.ValidatePassphrase (three
regular expressions) and Service.ValidatePassphrase (rune loop with an else-if chain)
return the same result for every string, nil for both or the same error message for
both. -/
theorem validators_agree (p : String) :
    utils.ValidatePassphrase p = Service.ValidatePassphrase p ∧
    (utils.ValidatePassphrase p = none ↔ Service.ValidatePassphrase p = none) := by
  have h : utils.ValidatePassphrase p = Service.ValidatePassphrase p := by
    rw [utils_validatePassphrase_eq, service_validatePassphrase_eq]
  exact ⟨h, by rw [h]⟩

/-- C21. Passphrase checks are ordered length first, in both validators: a passphrase
of length below 12 gets the length error, whatever classes of characters it has; the
composition error is returned only for length 12 or more; every call returns nil or
exactly one of the two messages, which are different texts. -/
theorem passphrase_length_first (p : String) :
    (len p < 12 → Service.ValidatePassphrase p = some passphraseLengthError ∧
      utils.ValidatePassphrase p = some passphraseLengthError) ∧
    (Service.ValidatePassphrase p = some passphraseCompositionError → 12 ≤ len p) ∧
    (utils.ValidatePassphrase p = some passphraseCompositionError → 12 ≤ len p) ∧
    passphraseLengthError ≠ passphraseCompositionError ∧
    (Service.ValidatePassphrase p = none ∨
      Service.ValidatePassphrase p = some passphraseLengthError ∨
      Service.ValidatePassphrase p = some passphraseCompositionError) ∧
    (utils.ValidatePassphrase p = none ∨
      utils.ValidatePassphrase p = some passphraseLengthError ∨
      utils.ValidatePassphrase p = some passphraseCompositionError) := by
  have hne : passphraseLengthError ≠ passphraseCompositionError := by decide
  rw [utils_validatePassphrase_eq, service_validatePassphrase_eq]
  by_cases hlen : len p < 12
  · rw [if_pos hlen]
    refine ⟨fun _ => ⟨rfl, rfl⟩, ?_, ?_, hne, Or.inr (Or.inl rfl), Or.inr (Or.inl rfl)⟩
    · intro h
      exact absurd (Option.some.inj h) hne
    · intro h
      exact absurd (Option.some.inj h) hne
  · rw [if_neg hlen]
    refine ⟨fun h => absurd h hlen, fun _ => Nat.le_of_not_lt hlen,
      fun _ => Nat.le_of_not_lt hlen, hne, ?_, ?_⟩
    · split
      · exact Or.inl rfl
      · exact Or.inr (Or.inr rfl)
    · split
      · exact Or.inl rfl
      · exact Or.inr (Or.inr rfl)

/-- Two passphrases of the tests: "Short1" is short and has all three classes,
"nouppercase123" is long enough and lacks a class. -/
theorem passphrase_length_first_witness :
    Service.ValidatePassphrase "Short1" = some passphraseLengthError ∧
    utils.ValidatePassphrase "Short1" = some passphraseLengthError ∧
    12 ≤ len "nouppercase123" :=
  ⟨((passphrase_length_first "Short1").1 (by decide)).1,
    ((passphrase_length_first "Short1").1 (by decide)).2,
    (passphrase_length_first "nouppercase123").2.1 (by decide)⟩

/-- C22, evaluated where the code departs from it. `accentedPassphrase` has 8
characters, fewer than 12, in 13 bytes; both validators measure it with `len`, find
13, and return no error. -/
theorem short_accented_passphrase_accepted :
    runeCount accentedPassphrase = 8 ∧ len accentedPassphrase = 13 ∧
    Service.ValidatePassphrase accentedPassphrase = none ∧
    utils.ValidatePassphrase accentedPassphrase = none := by
  decide

/-! ## The last branch of ValidateSecurityQuestionsSet -/

theorem countP_flags_add (qs : List SecurityQuestion) :
    qs.countP (fun q => !q.IsCustom) + qs.countP (fun q => q.IsCustom) = qs.length := by
  induction qs with
  | nil => rfl
  | cons q qs ih =>
    simp only [List.countP_cons, List.length_cons]
    cases q.IsCustom <;> simp <;> omega

/-- C30. In ValidateSecurityQuestionsSet the last error is never returned: for every
list of questions the result is not "exactly 2 custom questions are required",
because the two counters add up to the length of the list, so a list of 4 questions
with 2 predefined ones has 2 custom ones. -/
theorem custom_count_error_unreachable (qs : List SecurityQuestion) :
    ValidateSecurityQuestionsSet qs ≠ some "exactly 2 custom questions are required" ∧
    (qs.foldl countStep (0, 0)).1 + (qs.foldl countStep (0, 0)).2 = qs.length := by
  have hadd := countP_flags_add qs
  refine ⟨?_, ?_⟩
  · rw [validateSet_eq]
    by_cases h4 : qs.length ≠ 4
    · rw [if_pos h4]
      decide
    · rw [if_neg h4]
      by_cases hp : qs.countP (fun q => !q.IsCustom) ≠ 2
      · rw [if_pos hp]
        decide
      · rw [if_neg hp]
        have hc : ¬ qs.countP (fun q => q.IsCustom) ≠ 2 := by omega
        rw [if_neg hc]
        exact fun h => Option.noConfusion h
  · rw [foldl_countStep]
    simpa using hadd

/-! ## The first-time queries -/

theorem stringsContains_iff (s sub : String) :
    stringsContains s sub = true ↔ sub.data <:+: s.data := by
  unfold stringsContains
  rw [List.any_eq_true, List.infix_iff_prefix_suffix]
  constructor
  · rintro ⟨t, ht, hp⟩
    exact ⟨t, List.isPrefixOf_iff_prefix.1 hp, (List.mem_tails _ _).1 ht⟩
  · rintro ⟨t, hp, ht⟩
    exact ⟨t, (List.mem_tails _ _).2 ht, List.isPrefixOf_iff_prefix.2 hp⟩

theorem length_beq_zero {α : Type} (l : List α) : (l.length == 0) = true ↔ l = [] := by
  cases l <;> simp

theorem length_beq_zero_false {α : Type} (l : List α) : (l.length == 0) = false ↔ l ≠ [] := by
  cases l <;> simp

/-- When the count query reports `sql.ErrNoRows`, Service.IsFirstTimeSetup returns
(true, nil) and IsFirstTimeUser returns that error, on every store. A query
`SELECT COUNT(*)` yields one row on every SQL database, so no database gives this
outcome. -/
theorem first_time_no_rows :
    (IsFirstTimeUser (some sql.ErrNoRows) freshConn).1 = .error sql.ErrNoRows ∧
    (Service.IsFirstTimeSetup (some sql.ErrNoRows) freshConn).1 = .ok true ∧
    (∀ c : Conn, (IsFirstTimeUser (some sql.ErrNoRows) c).1 ≠
      (Service.IsFirstTimeSetup (some sql.ErrNoRows) c).1) := by
  refine ⟨rfl, rfl, ?_⟩
  intro c h
  have h1 : (IsFirstTimeUser (some sql.ErrNoRows) c).1 = .error sql.ErrNoRows := rfl
  have h2 : (Service.IsFirstTimeSetup (some sql.ErrNoRows) c).1 = .ok true := rfl
  rw [h1, h2] at h
  exact Res.noConfusion h

/-- The results of the two first-time checks for every store and every outcome of
the count query, `sql.ErrNoRows` included. -/
theorem first_time_outcomes (fault : Option String) (c : Conn) :
    ((IsFirstTimeUser fault c).1 = .ok true ↔ fault = none ∧ c.store.users = []) ∧
    ((IsFirstTimeUser fault c).1 = .ok false ↔ fault = none ∧ c.store.users ≠ []) ∧
    (∀ e, fault = some e → (IsFirstTimeUser fault c).1 = .error e) ∧
    ((Service.IsFirstTimeSetup fault c).1 = .ok true ↔
      (fault = none ∧ c.store.users = []) ∨ fault = some sql.ErrNoRows) ∧
    ((Service.IsFirstTimeSetup fault c).1 = .ok false ↔
      fault = none ∧ c.store.users ≠ []) ∧
    (∀ e, fault = some e → e ≠ sql.ErrNoRows →
      (Service.IsFirstTimeSetup fault c).1 = .error e) ∧
    (fault ≠ some sql.ErrNoRows → IsFirstTimeUser fault c = Service.IsFirstTimeSetup fault c) ∧
    (IsFirstTimeUser fault c).2 = c.send .countUsers ∧
    (Service.IsFirstTimeSetup fault c).2 = c.send .countUsers ∧
    (c.send .countUsers).store = c.store := by
  cases fault with
  | none =>
    have h1 : (IsFirstTimeUser none c).1 = .ok (c.store.users.length == 0) := rfl
    have h2 : (Service.IsFirstTimeSetup none c).1 = .ok (c.store.users.length == 0) := rfl
    rw [h1, h2]
    simp only [Res.ok.injEq, length_beq_zero, length_beq_zero_false, true_and, false_and,
      or_false, reduceCtorEq, false_implies, implies_true]
    exact ⟨fun _ => rfl, rfl, rfl, rfl⟩
  | some e =>
    have h1 : (IsFirstTimeUser (some e) c).1 = .error e := rfl
    rw [h1]
    by_cases he : e = sql.ErrNoRows
    · have h2 : (Service.IsFirstTimeSetup (some e) c).1 = .ok true := by
        unfold Service.IsFirstTimeSetup
        simp only [if_pos he]
      have h3 : (Service.IsFirstTimeSetup (some e) c).2 = c.send .countUsers := by
        unfold Service.IsFirstTimeSetup
        simp only [if_pos he]
      rw [h2, h3]
      subst he
      simp [Conn.send, IsFirstTimeUser]
    · have h2 : (Service.IsFirstTimeSetup (some e) c).1 = .error e := by
        unfold Service.IsFirstTimeSetup
        simp only [if_neg he]
      have h3 : (Service.IsFirstTimeSetup (some e) c).2 = c.send .countUsers := by
        unfold Service.IsFirstTimeSetup
        simp only [if_neg he]
      have h4 : IsFirstTimeUser (some e) c = Service.IsFirstTimeSetup (some e) c := by
        unfold Service.IsFirstTimeSetup IsFirstTimeUser
        simp only [if_neg he]
      rw [h2, h3]
      simp [he, h4, Conn.send, h3]

/-- C23. First-time detection. For every store and every outcome of the count query
that a SQL database gives (the count, or an error; `SELECT COUNT(*)` yields one row,
so the error is never sql.ErrNoRows), IsFirstTimeUser and Service.IsFirstTimeSetup
return the same result: (true, nil) exactly when the query succeeds and the users
table is empty, (false, nil) exactly when it succeeds and at least one user row
exists, and the error of the query for every failure, a missing users table for
example. Service.IsFirstTimeSetup reads "no rows" as first time: it returns
(true, nil) when the query reports sql.ErrNoRows. Both send the one count query and
leave the store as it is. -/
theorem first_time_checks (fault : Option String) (c : Conn)
    (hq : fault ≠ some sql.ErrNoRows) :
    IsFirstTimeUser fault c = Service.IsFirstTimeSetup fault c ∧
    ((IsFirstTimeUser fault c).1 = .ok true ↔ fault = none ∧ c.store.users = []) ∧
    ((IsFirstTimeUser fault c).1 = .ok false ↔ fault = none ∧ c.store.users ≠ []) ∧
    (∀ e, fault = some e → (IsFirstTimeUser fault c).1 = .error e) ∧
    ((Service.IsFirstTimeSetup fault c).1 = .ok true ↔ fault = none ∧ c.store.users = []) ∧
    ((Service.IsFirstTimeSetup fault c).1 = .ok false ↔
      fault = none ∧ c.store.users ≠ []) ∧
    (∀ e, fault = some e → (Service.IsFirstTimeSetup fault c).1 = .error e) ∧
    (∀ c2 : Conn, (Service.IsFirstTimeSetup (some sql.ErrNoRows) c2).1 = .ok true) ∧
    (IsFirstTimeUser fault c).2.store = c.store ∧
    (Service.IsFirstTimeSetup fault c).2.store = c.store := by
  obtain ⟨u1, u2, u3, s1, s2, s3, hag, hc1, hc2, hst⟩ := first_time_outcomes fault c
  have heq := hag hq
  refine ⟨heq, u1, u2, u3, ?_, s2, ?_, fun _ => rfl, ?_, ?_⟩
  · rw [← heq]
    exact u1
  · intro e he
    rw [← heq]
    exact u3 e he
  · rw [hc1]
    exact hst
  · rw [hc2]
    exact hst

/-- The three tests of IsFirstTimeUser: the fresh store, a store with one user row,
and a database without users table; Service.IsFirstTimeSetup gives the same. -/
theorem first_time_checks_witness :
    (IsFirstTimeUser none freshConn).1 = .ok true ∧
    (IsFirstTimeUser none existingUserConn).1 = .ok false ∧
    (IsFirstTimeUser (some "no such table: users") freshConn).1 =
      .error "no such table: users" ∧
    IsFirstTimeUser (some "no such table: users") freshConn =
      Service.IsFirstTimeSetup (some "no such table: users") freshConn ∧
    (Service.IsFirstTimeSetup none freshConn).1 = .ok true ∧
    (Service.IsFirstTimeSetup none existingUserConn).1 = .ok false :=
  ⟨(first_time_checks none freshConn (by decide)).2.1.2 ⟨rfl, rfl⟩,
    (first_time_checks none existingUserConn (by decide)).2.2.1.2 ⟨rfl, by decide⟩,
    (first_time_checks (some "no such table: users") freshConn (by decide)).2.2.2.1 _ rfl,
    (first_time_checks (some "no such table: users") freshConn (by decide)).1,
    (first_time_checks none freshConn (by decide)).2.2.2.2.1.2 ⟨rfl, rfl⟩,
    (first_time_checks none existingUserConn (by decide)).2.2.2.2.2.1.2 ⟨rfl, by decide⟩⟩

/-- C24. IsFirstTimeSetupFlagSet returns (true, nil) if and only if the query succeeds
and the store holds a setup_flags row named first_time_setup_completed with a true
value; when the query fails with an error whose message contains "no such table" it
returns (false, nil); for every other failure it returns that error. On success
without such a row it returns (false, nil). The store is left as it is. -/
theorem flag_query_contract (fault : Option String) (c : Conn) :
    ((IsFirstTimeSetupFlagSet fault c).1 = .ok true ↔
      fault = none ∧ ∃ f ∈ c.store.setup_flags,
        f.flag_name = "first_time_setup_completed" ∧ f.flag_value = true) ∧
    (∀ e, fault = some e → "no such table".data <:+: e.data →
      (IsFirstTimeSetupFlagSet fault c).1 = .ok false) ∧
    (∀ e, fault = some e → ¬ "no such table".data <:+: e.data →
      (IsFirstTimeSetupFlagSet fault c).1 = .error e) ∧
    (fault = none → (¬ ∃ f ∈ c.store.setup_flags,
        f.flag_name = "first_time_setup_completed" ∧ f.flag_value = true) →
      (IsFirstTimeSetupFlagSet fault c).1 = .ok false) ∧
    (IsFirstTimeSetupFlagSet fault c).2.store = c.store := by
  cases fault with
  | none =>
    have h1 : (IsFirstTimeSetupFlagSet none c).1 =
        .ok (decide (0 < (c.store.setup_flags.filter
          (fun f => f.flag_name = setupFlagName ∧ f.flag_value = true)).length)) := rfl
    have hex : 0 < (c.store.setup_flags.filter
          (fun f => f.flag_name = setupFlagName ∧ f.flag_value = true)).length ↔
        ∃ f ∈ c.store.setup_flags,
          f.flag_name = "first_time_setup_completed" ∧ f.flag_value = true := by
      rw [List.length_pos_iff_exists_mem]
      constructor
      · rintro ⟨f, hf⟩
        rw [List.mem_filter] at hf
        exact ⟨f, hf.1, by simpa [setupFlagName] using hf.2⟩
      · rintro ⟨f, hf, hn⟩
        exact ⟨f, List.mem_filter.2 ⟨hf, by simpa [setupFlagName] using hn⟩⟩
    rw [h1]
    refine ⟨?_, fun e he => Option.noConfusion he, fun e he => Option.noConfusion he, ?_, rfl⟩
    · rw [Res.ok.injEq, decide_eq_true_iff, hex]
      exact ⟨fun h => ⟨rfl, h⟩, fun h => h.2⟩
    · intro _ hno
      rw [Res.ok.injEq, decide_eq_false_iff_not, hex]
      exact hno
  | some e =>
    by_cases hc : stringsContains e "no such table" = true
    · have h1 : IsFirstTimeSetupFlagSet (some e) c = (.ok false, c.send .countFlag) := by
        unfold IsFirstTimeSetupFlagSet
        simp only [if_pos hc]
      rw [h1]
      refine ⟨?_, fun _ _ _ => rfl, ?_, fun h => Option.noConfusion h, rfl⟩
      · constructor
        · intro h
          exact absurd (Res.ok.inj h) (by decide)
        · rintro ⟨h, -⟩
          exact Option.noConfusion h
      · intro e2 he hno
        cases he
        exact absurd ((stringsContains_iff _ _).1 hc) hno
    · have h1 : IsFirstTimeSetupFlagSet (some e) c = (.error e, c.send .countFlag) := by
        unfold IsFirstTimeSetupFlagSet
        simp only [if_neg hc]
      rw [h1]
      refine ⟨?_, ?_, ?_, fun h => Option.noConfusion h, rfl⟩
      · constructor
        · intro h
          exact Res.noConfusion h
        · rintro ⟨h, -⟩
          exact Option.noConfusion h
      · intro e2 he hin
        cases he
        exact absurd ((stringsContains_iff _ _).2 hin) hc
      · intro e2 he _
        cases he
        rfl

/-- The three tests of the flag query: no flag row, the flag row set, and a database
in which the table setup_flags does not exist. -/
theorem flag_query_contract_witness :
    (IsFirstTimeSetupFlagSet none freshConn).1 = .ok false ∧
    (IsFirstTimeSetupFlagSet none existingUserConn).1 = .ok true ∧
    (IsFirstTimeSetupFlagSet (some "no such table: setup_flags") freshConn).1 = .ok false ∧
    (IsFirstTimeSetupFlagSet (some "database is locked") freshConn).1 =
      .error "database is locked" :=
  ⟨(flag_query_contract none freshConn).2.2.2.1 rfl (by decide),
    (flag_query_contract none existingUserConn).1.2 ⟨rfl, by decide⟩,
    (flag_query_contract (some "no such table: setup_flags") freshConn).2.1 _ rfl
      ((stringsContains_iff _ _).1 (by decide)),
    (flag_query_contract (some "database is locked") freshConn).2.2.1 _ rfl
      (fun h => absurd ((stringsContains_iff _ _).2 h) (by decide))⟩

/-! ## Tokens -/

theorem GenerateToken_eq (j : JWTCodec) (now1 now2 userID : Int) (email : String) :
    GenerateToken j now1 now2 userID email =
      match j.sign (issuedClaims now1 now2 userID email) signingKey with
      | none => .error "key is invalid"
      | some tokenString => .ok tokenString := rfl

theorem ValidateToken_of_sign (j : JWTCodec) (hj : j.Sound) (c : Claims) (tok : String)
    (hsign : j.sign c signingKey = some tok) (now : Int) :
    ValidateToken j now tok = if c.validAt now then .ok c else .error "token is expired" := by
  unfold ValidateToken
  rw [hj c signingKey tok hsign]

/-- C25, evaluated where the code departs from it. GenerateToken reads the clock
twice: the claims it signs carry ExpiresAt = first reading + 1800 and IssuedAt = second
reading, so ExpiresAt = IssuedAt + 1800 holds exactly when the two readings are the
same second. With the readings 1000 and 1001 the signed claims of user 7 carry
IssuedAt = 1001 and ExpiresAt = 2800, a lifetime of 1799 seconds, and these are the
claims ValidateToken reads back from the returned string. -/
theorem token_lifetime_two_readings :
    (∀ (j : JWTCodec) (now1 now2 userID : Int) (email : String),
      GenerateToken j now1 now2 userID email =
        (match j.sign (issuedClaims now1 now2 userID email) signingKey with
        | none => .error "key is invalid"
        | some tokenString => .ok tokenString) ∧
      (issuedClaims now1 now2 userID email).UserID = userID ∧
      (issuedClaims now1 now2 userID email).Email = email ∧
      (issuedClaims now1 now2 userID email).IssuedAt = now2 ∧
      (issuedClaims now1 now2 userID email).ExpiresAt = now1 + 1800 ∧
      ((issuedClaims now1 now2 userID email).ExpiresAt =
        (issuedClaims now1 now2 userID email).IssuedAt + 1800 ↔ now1 = now2)) ∧
    (∃ tok, GenerateToken demoJWT 1000 1001 7 "test@example.com" = .ok tok ∧
      ValidateToken demoJWT 1500 tok =
        .ok { UserID := 7, Email := "test@example.com", ExpiresAt := 2800, IssuedAt := 1001,
              NotBefore := 0 }) ∧
    (2800 : Int) ≠ 1001 + 1800 := by
  refine ⟨?_, ⟨_, rfl, by decide⟩, by decide⟩
  intro j now1 now2 userID email
  refine ⟨rfl, rfl, rfl, rfl, rfl, ?_⟩
  show now1 + 30 * 60 = now2 + 1800 ↔ now1 = now2
  omega

/-- C26. Token round trip with expiry. When the library signs the claims (the clock
reading at or after the Unix epoch), GenerateToken returns the signed string, and
ValidateToken applied to it at any instant from IssuedAt to ExpiresAt returns, without
error, claims with the same UserID and Email; at any instant after ExpiresAt it returns
an error and no claims. A string the library does not accept under the process-wide
key (bad signature, malformed token) is rejected with an error at every instant. -/
theorem token_roundtrip_expiry (j : JWTCodec) (hj : j.Sound) (now1 now2 userID : Int)
    (email tok : String) (hclock : 0 ≤ now1)
    (hsign : j.sign (issuedClaims now1 now2 userID email) signingKey = some tok) :
    GenerateToken j now1 now2 userID email = .ok tok ∧
    (∀ now, (issuedClaims now1 now2 userID email).IssuedAt ≤ now →
      now ≤ (issuedClaims now1 now2 userID email).ExpiresAt →
      ∃ c, ValidateToken j now tok = .ok c ∧ c.UserID = userID ∧ c.Email = email ∧
        c.IssuedAt = now2 ∧ c.ExpiresAt = now1 + 1800) ∧
    (∀ now, (issuedClaims now1 now2 userID email).ExpiresAt < now →
      ∃ e, ValidateToken j now tok = .error e) ∧
    (∀ tok2 now, j.parse tok2 signingKey = none →
      ∃ e, ValidateToken j now tok2 = .error e) := by
  refine ⟨?_, ?_, ?_, ?_⟩
  · rw [GenerateToken_eq, hsign]
  · intro now hiat hexp
    refine ⟨issuedClaims now1 now2 userID email, ?_, rfl, rfl, rfl, rfl⟩
    rw [ValidateToken_of_sign j hj _ tok hsign now]
    have hv : (issuedClaims now1 now2 userID email).validAt now = true := by
      unfold Claims.validAt
      simp only [Bool.and_eq_true, Bool.or_eq_true, decide_eq_true_eq]
      exact ⟨⟨Or.inr hexp, Or.inr hiat⟩, Or.inl rfl⟩
    rw [if_pos hv]
  · intro now hexp
    refine ⟨"token is expired", ?_⟩
    rw [ValidateToken_of_sign j hj _ tok hsign now]
    have hv : ¬ (issuedClaims now1 now2 userID email).validAt now = true := by
      unfold Claims.validAt
      simp only [Bool.and_eq_true, Bool.or_eq_true, decide_eq_true_eq]
      rintro ⟨⟨h | h, -⟩, -⟩
      · have : now1 + 30 * 60 = 0 := h
        omega
      · exact absurd h (not_le.2 hexp)
    rw [if_neg hv]
  · intro tok2 now hp
    refine ⟨"signature is invalid", ?_⟩
    unfold ValidateToken
    rw [hp]

/-- The token of TestSetupEndpoint_Success with the clock at 1000 seconds: accepted at
1000 and at 2800, refused at 2801; a string that is no token is refused. -/
theorem token_roundtrip_expiry_witness :
    GenerateToken demoJWT 1000 1000 1 "test@example.com" =
      .ok (demoRender (issuedClaims 1000 1000 1 "test@example.com") signingKey) ∧
    (∃ c, ValidateToken demoJWT 2800
        (demoRender (issuedClaims 1000 1000 1 "test@example.com") signingKey) = .ok c ∧
      c.UserID = 1 ∧ c.Email = "test@example.com" ∧ c.IssuedAt = 1000 ∧
      c.ExpiresAt = 1000 + 1800) ∧
    (∃ e, ValidateToken demoJWT 2801
        (demoRender (issuedClaims 1000 1000 1 "test@example.com") signingKey) = .error e) ∧
    (∃ e, ValidateToken demoJWT 1000 "invalid.token.here" = .error e) :=
  have h := token_roundtrip_expiry demoJWT demoJWT_sound 1000 1000 1 "test@example.com"
    (demoRender (issuedClaims 1000 1000 1 "test@example.com") signingKey) (by decide)
    (by decide)
  ⟨h.1, h.2.1 2800 (by decide) (by decide), h.2.2.1 2801 (by decide),
    h.2.2.2 "invalid.token.here" 1000 (by decide)⟩

/-! ## The fields VerifyPassword reads -/

/-- C28. VerifyPassword ignores the first three fields: for every password and any two
encoded strings that split on the dollar sign into 6 fields and agree on fields 4, 5
and 6 (parameters, salt, hash), it returns the same result, whatever stands before
the first dollar sign and in the tag and version fields. -/
theorem verify_ignores_first_fields (kdf : KDF) (password h1 h2 : String)
    (hn1 : (splitOn '$' h1.data).length = 6) (hn2 : (splitOn '$' h2.data).length = 6)
    (h4 : (splitOn '$' h1.data).getD 3 [] = (splitOn '$' h2.data).getD 3 [])
    (h5 : (splitOn '$' h1.data).getD 4 [] = (splitOn '$' h2.data).getD 4 [])
    (h6 : (splitOn '$' h1.data).getD 5 [] = (splitOn '$' h2.data).getD 5 []) :
    VerifyPassword kdf password h1 = VerifyPassword kdf password h2 := by
  unfold VerifyPassword
  simp only [hn1, hn2, h4, h5, h6]

/-- The hash of "TestPassword123" and the same string tagged argon2i, v=16, with text
before the first dollar sign: both are verified with (true, nil). -/
theorem verify_ignores_first_fields_witness :
    VerifyPassword demoKDF "TestPassword123" retaggedHash =
      VerifyPassword demoKDF "TestPassword123" demoHashText ∧
    VerifyPassword demoKDF "TestPassword123" retaggedHash = .ok true ∧
    (splitOn '$' retaggedHash.data).take 3 = ["junk".data, "argon2i".data, "v=16".data] ∧
    (splitOn '$' demoHashText.data).take 3 = ["".data, "argon2id".data, "v=19".data] ∧
    HashPassword demoKDF (some demoSalt) "TestPassword123" none = .ok demoHashText :=
  ⟨verify_ignores_first_fields demoKDF "TestPassword123" retaggedHash demoHashText
      (by decide) (by decide) (by decide) (by decide) (by decide),
    by decide, by decide, by decide, by decide⟩

end CredManager
